import Mathlib

/-!
# Tosin RTOS: scheduler, semaphores, allocator and message queues

A shallow embedding of `kernel/core/scheduler.c`, `kernel/core/task.c`,
`kernel/ipc/semaphore.c`, `kernel/mm/memory.c` and `kernel/ipc/queue.c`.

* A task pointer is an `Option Nat`: `none` is `NULL`, `some a` is the TCB at
  address `a`.  The TCB memory is a total map from addresses to `task_t`.
* Every operation that can go wrong returns an `Outcome`: `fault null_pointer`
  when the C code dereferences `NULL`, `fault bad_index` when it indexes
  `ready_queue` outside `0..MAX_PRIORITY`, `fault bad_pointer` when it is handed
  a pointer that is not the address of an object of the model,
  `fault division_by_zero` when it computes `x % 0`, `fault out_of_bounds` when
  `memcpy` is made to write past the end of the heap block it copies to, and
  `fault out_of_fuel` when one of the two unbounded loops does not finish within
  the given fuel.
* `uint32_t` arithmetic that can wrap is written with an explicit `% 2 ^ 32`.
* `disable_interrupts`, `enable_interrupts` and `context_switch` are platform
  primitives without effect on the modelled state.
* A call that suspends its caller is cut at `schedule()`: the part before it,
  and the part the caller executes once it has been dispatched again.
* The allocator's block list is the list of its headers in list order; a
  `queue_t` lives at its address in the queue memory, its three semaphores in
  the semaphore memory, its message slots in a memory of words.  These memories
  are kept apart, which is what the machine does as long as every access stays
  inside its heap block.  The two accesses of the sources that can leave their
  block are checked against the block list: the copy of `krealloc` is
  `fault out_of_bounds` when it does not fit the new block, and a slot access of
  `queue_send` or `queue_receive` outside the block of the buffer sets
  `System.overrun`.
* `task_create` works on a `TaskWorld`: the system, the static `next_task_id`
  and the TCB fields that only task.c writes.
-/

namespace TosinRtos

/-! ## config.h, types.h -/

def MAX_PRIORITY : Nat := 15
def TIMER_FREQ_HZ : Nat := 100
def TIME_SLICE_MS : Nat := 10
def SUCCESS : Int := 0
def ERROR : Int := -1
def UINT32_MOD : Nat := 2 ^ 32

/-! ## task.h, semaphore.h -/

inductive task_state_t where
  | TASK_READY
  | TASK_RUNNING
  | TASK_BLOCKED
  | TASK_SUSPENDED
  | TASK_TERMINATED
  deriving DecidableEq

open task_state_t

/-- The fields of the TCB that the scheduler and the semaphores read or write. -/
structure task_t where
  state : task_state_t
  priority : Nat
  time_slice : Nat
  next : Option Nat
  prev : Option Nat
  wake_time : Nat
  wait_obj : Option Nat
  deriving DecidableEq

structure semaphore_t where
  count : Nat
  max_count : Nat
  wait_queue : Option Nat
  valid : Bool
  deriving DecidableEq

/-- What stops an operation before it returns. -/
inductive fault_t where
  | null_pointer
  | bad_index
  | bad_pointer
  | division_by_zero
  | out_of_bounds
  | out_of_fuel
  deriving DecidableEq

/-- The result of running an operation: a value, or the fault that stopped it. -/
inductive Outcome (α : Type) where
  | ok (v : α)
  | fault (f : fault_t)
  deriving DecidableEq

/-- Sequencing: run `g` on the value of `x`, or pass the fault of `x` on. -/
def Outcome.bind {α β : Type} (x : Outcome α) (g : α → Outcome β) : Outcome β :=
  match x with
  | .ok v => g v
  | .fault f => .fault f

/-- Apply `g` to the value of `x`. -/
def Outcome.map {α β : Type} (g : α → β) (x : Outcome α) : Outcome β :=
  match x with
  | .ok v => .ok (g v)
  | .fault f => .fault f

/-- Memory write: the map `f` with the cell at `i` replaced by `v`. -/
def upd {α : Type} (f : Nat → α) (i : Nat) (v : α) : Nat → α :=
  fun j => if j = i then v else f j

/-- The statics of scheduler.c and task.c together with the TCB and semaphore
memory.  `current_task` is the static of scheduler.c, `task_current` the static
`current_task` of task.c (read by `task_get_current`). -/
structure Kernel where
  tasks : Nat → task_t
  sems : Nat → semaphore_t
  ready_queue : Nat → Option Nat
  blocked_queue : Option Nat
  current_task : Option Nat
  task_current : Option Nat
  tick_count : Nat
  task_count : Nat
  preemption_enabled : Bool
  scheduler_running : Bool

namespace Kernel

def set_state (k : Kernel) (t : Nat) (v : task_state_t) : Kernel :=
  { k with tasks := upd k.tasks t { k.tasks t with state := v } }

def set_time_slice (k : Kernel) (t : Nat) (v : Nat) : Kernel :=
  { k with tasks := upd k.tasks t { k.tasks t with time_slice := v } }

def set_next (k : Kernel) (t : Nat) (v : Option Nat) : Kernel :=
  { k with tasks := upd k.tasks t { k.tasks t with next := v } }

def set_prev (k : Kernel) (t : Nat) (v : Option Nat) : Kernel :=
  { k with tasks := upd k.tasks t { k.tasks t with prev := v } }

def set_wake_time (k : Kernel) (t : Nat) (v : Nat) : Kernel :=
  { k with tasks := upd k.tasks t { k.tasks t with wake_time := v } }

def set_wait_obj (k : Kernel) (t : Nat) (v : Option Nat) : Kernel :=
  { k with tasks := upd k.tasks t { k.tasks t with wait_obj := v } }

def set_priority (k : Kernel) (t : Nat) (v : Nat) : Kernel :=
  { k with tasks := upd k.tasks t { k.tasks t with priority := v } }

def set_sem (k : Kernel) (s : Nat) (v : semaphore_t) : Kernel :=
  { k with sems := upd k.sems s v }

end Kernel

/-- A `task_t **queue` argument of scheduler.c: the address of one of the
scheduler's queue heads. -/
inductive queue_ref where
  | ready (i : Nat)
  | blocked
  deriving DecidableEq

/-- Read `*queue`. -/
def Kernel.getq (k : Kernel) : queue_ref → Option Nat
  | .ready i => k.ready_queue i
  | .blocked => k.blocked_queue

/-- Write `*queue = v`. -/
def Kernel.setq (k : Kernel) : queue_ref → Option Nat → Kernel
  | .ready i, v => { k with ready_queue := upd k.ready_queue i v }
  | .blocked, v => { k with blocked_queue := v }

/-! ## scheduler.c -/

/-- Source `add_to_queue(queue, task)`: link `task` before the head, i.e. at the tail. -/
def add_to_queue (q : queue_ref) (task : Nat) (k : Kernel) : Outcome Kernel :=
  match k.getq q with
  | none =>
    let k := k.setq q (some task)
    let k := k.set_next task (some task)
    let k := k.set_prev task (some task)
    .ok k
  | some head =>
    let k := k.set_next task (some head)
    let k := k.set_prev task (k.tasks head).prev
    match (k.tasks head).prev with
    | none => .fault .null_pointer
    | some tail =>
      let k := k.set_next tail (some task)
      let k := k.set_prev head (some task)
      .ok k

/-- Source `remove_from_queue(queue, task)`. -/
def remove_from_queue (q : queue_ref) (task : Option Nat) (k : Kernel) : Outcome Kernel :=
  match k.getq q, task with
  | none, _ => .ok k
  | some _, none => .ok k
  | some head, some t =>
    if (k.tasks t).next = some t then
      let k := k.setq q none
      let k := k.set_next t none
      let k := k.set_prev t none
      .ok k
    else
      let k := if head = t then k.setq q (k.tasks t).next else k
      match (k.tasks t).prev with
      | none => .fault .null_pointer
      | some p =>
        let k := k.set_next p (k.tasks t).next
        match (k.tasks t).next with
        | none => .fault .null_pointer
        | some n =>
          let k := k.set_prev n (k.tasks t).prev
          let k := k.set_next t none
          let k := k.set_prev t none
          .ok k

/-- The loop of `get_next_task` from index `i` down to `0`. -/
def get_next_task_from (k : Kernel) : Nat → Option Nat × Kernel
  | 0 =>
    match k.ready_queue 0 with
    | some task => (some task, { k with ready_queue := upd k.ready_queue 0 (k.tasks task).next })
    | none => (none, k)
  | i + 1 =>
    match k.ready_queue (i + 1) with
    | some task =>
      (some task, { k with ready_queue := upd k.ready_queue (i + 1) (k.tasks task).next })
    | none => get_next_task_from k i

/-- Source `get_next_task()`. -/
def get_next_task (k : Kernel) : Option Nat × Kernel :=
  get_next_task_from k MAX_PRIORITY

/-- Source `scheduler_init()`, over the given TCB and semaphore memory. -/
def scheduler_init (tasks : Nat → task_t) (sems : Nat → semaphore_t) : Kernel :=
  { tasks := tasks
    sems := sems
    ready_queue := fun _ => none
    blocked_queue := none
    current_task := none
    task_current := none
    tick_count := 0
    task_count := 0
    preemption_enabled := true
    scheduler_running := false }

/-- Source `schedule()`. -/
def schedule (k : Kernel) : Outcome Kernel :=
  if k.scheduler_running = false then .ok k
  else
    let old_task := k.current_task
    let requeued : Outcome Kernel :=
      match old_task with
      | none => .ok k
      | some o =>
        if (k.tasks o).state = TASK_RUNNING then
          let k := k.set_state o TASK_READY
          let k := k.set_time_slice o TIME_SLICE_MS
          if (k.tasks o).priority ≤ MAX_PRIORITY then
            add_to_queue (.ready (k.tasks o).priority) o k
          else .fault .bad_index
        else .ok k
    match requeued with
    | .fault f => .fault f
    | .ok k =>
      match get_next_task k with
      | (some new_task, k) =>
        let k := k.set_state new_task TASK_RUNNING
        let k := k.set_time_slice new_task TIME_SLICE_MS
        .ok { k with current_task := some new_task, task_current := some new_task }
      | (none, k) =>
        .ok { k with current_task := none, task_current := none }

/-- Source `scheduler_start()`. -/
def scheduler_start (k : Kernel) : Outcome Kernel :=
  schedule { k with scheduler_running := true }

/-- Source `scheduler_add_task(task)`. -/
def scheduler_add_task (task : Option Nat) (k : Kernel) : Outcome Kernel :=
  match task with
  | none => .ok k
  | some t =>
    let k := k.set_state t TASK_READY
    if (k.tasks t).priority ≤ MAX_PRIORITY then
      match add_to_queue (.ready (k.tasks t).priority) t k with
      | .fault f => .fault f
      | .ok k => .ok { k with task_count := (k.task_count + 1) % UINT32_MOD }
    else .fault .bad_index

/-- Source `scheduler_block_task(task)`. -/
def scheduler_block_task (task : Option Nat) (k : Kernel) : Outcome Kernel :=
  match task with
  | none => .ok k
  | some t =>
    let k := k.set_state t TASK_BLOCKED
    if (k.tasks t).priority ≤ MAX_PRIORITY then
      match remove_from_queue (.ready (k.tasks t).priority) (some t) k with
      | .fault f => .fault f
      | .ok k => add_to_queue .blocked t k
    else .fault .bad_index

/-- Source `scheduler_unblock_task(task)`. -/
def scheduler_unblock_task (task : Option Nat) (k : Kernel) : Outcome Kernel :=
  match task with
  | none => .ok k
  | some t =>
    match remove_from_queue .blocked (some t) k with
    | .fault f => .fault f
    | .ok k =>
      let k := k.set_state t TASK_READY
      if (k.tasks t).priority ≤ MAX_PRIORITY then
        add_to_queue (.ready (k.tasks t).priority) t k
      else .fault .bad_index

/-- The `do ... while (task != blocked_queue && task)` loop of
`scheduler_tick_handler`, entered with the local `task`; one unit of fuel per
iteration. -/
def tick_wake_loop : Nat → Nat → Kernel → Outcome Kernel
  | 0, _, _ => .fault .out_of_fuel
  | fuel + 1, task, k =>
    let next := (k.tasks task).next
    let woken : Outcome Kernel :=
      if 0 < (k.tasks task).wake_time ∧ (k.tasks task).wake_time ≤ k.tick_count then
        scheduler_unblock_task (some task) (k.set_wake_time task 0)
      else .ok k
    match woken with
    | .fault f => .fault f
    | .ok k =>
      match next with
      | none => .ok k
      | some n => if some n ≠ k.blocked_queue then tick_wake_loop fuel n k else .ok k

/-- Source `scheduler_tick_handler()`; `fuel` bounds the wake-up loop. -/
def scheduler_tick_handler (fuel : Nat) (k : Kernel) : Outcome Kernel :=
  let k := { k with tick_count := (k.tick_count + 1) % UINT32_MOD }
  let woken : Outcome Kernel :=
    match k.blocked_queue with
    | none => .ok k
    | some task => tick_wake_loop fuel task k
  match woken with
  | .fault f => .fault f
  | .ok k =>
    match k.current_task with
    | none => .ok k
    | some c =>
      if k.preemption_enabled = true then
        let k := if 0 < (k.tasks c).time_slice
          then k.set_time_slice c ((k.tasks c).time_slice - 1) else k
        if (k.tasks c).time_slice = 0 then schedule k else .ok k
      else .ok k

/-- Source `scheduler_disable_preemption()`. -/
def scheduler_disable_preemption (k : Kernel) : Kernel :=
  { k with preemption_enabled := false }

/-- Source `scheduler_enable_preemption()`. -/
def scheduler_enable_preemption (k : Kernel) : Kernel :=
  { k with preemption_enabled := true }

/-! ## task.c -/

/-- The TCB fields as `task_create` initialises them (task.c lines 50-60). -/
def new_tcb (priority : Nat) : task_t :=
  { state := TASK_READY
    priority := priority
    time_slice := TIME_SLICE_MS
    next := none
    prev := none
    wake_time := 0
    wait_obj := none }

/-- Source `task_get_current()`. -/
def task_get_current (k : Kernel) : Option Nat :=
  k.task_current

/-- Source `task_yield()`. -/
def task_yield (k : Kernel) : Outcome Kernel :=
  schedule k

/-- Source `task_sleep(ms)`, up to the return of its call of `schedule()`. -/
def task_sleep (ms : Nat) (k : Kernel) : Outcome Kernel :=
  match task_get_current k with
  | none => .ok k
  | some task =>
    let k := k.set_wake_time task
      ((k.tick_count + (ms * TIMER_FREQ_HZ) % UINT32_MOD / 1000) % UINT32_MOD)
    match scheduler_block_task (some task) k with
    | .fault f => .fault f
    | .ok k => schedule k

/-- Source `task_exit()`, up to the return of its call of `schedule()`. -/
def task_exit (k : Kernel) : Outcome Kernel :=
  match task_get_current k with
  | none => .ok k
  | some task => schedule (k.set_state task TASK_TERMINATED)

/-- Source `task_set_priority(task, priority)`. -/
def task_set_priority (task : Option Nat) (priority : Nat) (k : Kernel) : Int × Kernel :=
  match task with
  | none => (ERROR, k)
  | some t =>
    if MAX_PRIORITY < priority then (ERROR, k)
    else (SUCCESS, k.set_priority t priority)

/-! ## semaphore.c -/

/-- Source `sem_add_waiter(sem, task)`. -/
def sem_add_waiter (sem : Nat) (task : Nat) (k : Kernel) : Outcome Kernel :=
  match (k.sems sem).wait_queue with
  | none =>
    let k := k.set_sem sem { k.sems sem with wait_queue := some task }
    let k := k.set_next task (some task)
    let k := k.set_prev task (some task)
    .ok k
  | some head =>
    let k := k.set_next task (some head)
    let k := k.set_prev task (k.tasks head).prev
    match (k.tasks head).prev with
    | none => .fault .null_pointer
    | some tail =>
      let k := k.set_next tail (some task)
      let k := k.set_prev head (some task)
      .ok k

/-- Source `sem_remove_waiter(sem)`: the removed head (or `NULL`) and the new state. -/
def sem_remove_waiter (sem : Nat) (k : Kernel) : Outcome (Option Nat × Kernel) :=
  match (k.sems sem).wait_queue with
  | none => .ok (none, k)
  | some task =>
    if (k.tasks task).next = some task then
      let k := k.set_sem sem { k.sems sem with wait_queue := none }
      let k := k.set_next task none
      let k := k.set_prev task none
      .ok (some task, k)
    else
      let k := k.set_sem sem { k.sems sem with wait_queue := (k.tasks task).next }
      match (k.tasks task).prev with
      | none => .fault .null_pointer
      | some p =>
        let k := k.set_next p (k.tasks task).next
        match (k.tasks task).next with
        | none => .fault .null_pointer
        | some n =>
          let k := k.set_prev n (k.tasks task).prev
          let k := k.set_next task none
          let k := k.set_prev task none
          .ok (some task, k)

/-- Source `sem_init(sem, initial_count, max_count)`. -/
def sem_init (sem : Option Nat) (initial_count max_count : Nat) (k : Kernel) : Int × Kernel :=
  match sem with
  | none => (ERROR, k)
  | some s =>
    if max_count < initial_count then (ERROR, k)
    else
      (SUCCESS, k.set_sem s
        { count := initial_count, max_count := max_count, wait_queue := none, valid := true })

/-- How the entry section of `sem_wait` ends: with a `return`, or at its call of
`schedule()` with the local `current` holding the caller. -/
inductive wait_step where
  | returned (code : Int)
  | blocking (current : Nat)
  deriving DecidableEq

/-- Source `sem_wait(sem, timeout_ms)`, lines 58-91: everything before the call
of `schedule()`. -/
def sem_wait_enter (sem : Option Nat) (timeout_ms : Nat) (k : Kernel) :
    Outcome (wait_step × Kernel) :=
  match sem with
  | none => .ok (.returned ERROR, k)
  | some s =>
    if (k.sems s).valid = false then .ok (.returned ERROR, k)
    else
      let k := scheduler_disable_preemption k
      if 0 < (k.sems s).count then
        let k := k.set_sem s { k.sems s with count := (k.sems s).count - 1 }
        let k := scheduler_enable_preemption k
        .ok (.returned SUCCESS, k)
      else
        match task_get_current k with
        | none => .ok (.returned ERROR, scheduler_enable_preemption k)
        | some current =>
          match sem_add_waiter s current k with
          | .fault f => .fault f
          | .ok k =>
            let k := k.set_wait_obj current (some s)
            let k := if 0 < timeout_ms then
                k.set_wake_time current
                  ((k.tick_count + (timeout_ms * TIMER_FREQ_HZ) % UINT32_MOD / 1000) % UINT32_MOD)
              else k
            let k := scheduler_enable_preemption k
            match scheduler_block_task (some current) k with
            | .fault f => .fault f
            | .ok k => .ok (.blocking current, k)

/-- Source `sem_wait(sem, timeout_ms)`, lines 58-92: the entry section followed,
when it did not return, by the call of `schedule()`. -/
def sem_wait_call (sem : Option Nat) (timeout_ms : Nat) (k : Kernel) :
    Outcome (wait_step × Kernel) :=
  match sem_wait_enter sem timeout_ms k with
  | .fault f => .fault f
  | .ok (.returned code, k) => .ok (.returned code, k)
  | .ok (.blocking current, k) =>
    match schedule k with
    | .fault f => .fault f
    | .ok k => .ok (.blocking current, k)

/-- Source `sem_wait(sem, timeout_ms)`, lines 94-116: what the caller `current`
executes once its call of `schedule()` has returned. -/
def sem_wait_resume (sem : Nat) (timeout_ms : Nat) (current : Nat) (k : Kernel) :
    Outcome (Int × Kernel) :=
  if 0 < timeout_ms ∧ (k.tasks current).wait_obj = some sem then
    let k := scheduler_disable_preemption k
    let unlinked : Outcome Kernel :=
      match (k.tasks current).next with
      | none => .ok k
      | some nx =>
        if nx = current then
          let k := k.set_sem sem { k.sems sem with wait_queue := none }
          let k := k.set_next current none
          let k := k.set_prev current none
          .ok k
        else
          let k := if (k.sems sem).wait_queue = some current
            then k.set_sem sem { k.sems sem with wait_queue := (k.tasks current).next } else k
          match (k.tasks current).prev with
          | none => .fault .null_pointer
          | some p =>
            let k := k.set_next p (k.tasks current).next
            match (k.tasks current).next with
            | none => .fault .null_pointer
            | some n =>
              let k := k.set_prev n (k.tasks current).prev
              let k := k.set_next current none
              let k := k.set_prev current none
              .ok k
    match unlinked with
    | .fault f => .fault f
    | .ok k =>
      let k := k.set_wait_obj current none
      .ok (ERROR, scheduler_enable_preemption k)
  else .ok (SUCCESS, k)

/-- Source `sem_post(sem)`. -/
def sem_post (sem : Option Nat) (k : Kernel) : Outcome (Int × Kernel) :=
  match sem with
  | none => .ok (ERROR, k)
  | some s =>
    if (k.sems s).valid = false then .ok (ERROR, k)
    else
      let k := scheduler_disable_preemption k
      let posted : Outcome Kernel :=
        match (k.sems s).wait_queue with
        | some _ =>
          match sem_remove_waiter s k with
          | .fault f => .fault f
          | .ok (none, k) => .ok k
          | .ok (some task, k) =>
            let k := k.set_wait_obj task none
            let k := k.set_wake_time task 0
            scheduler_unblock_task (some task) k
        | none =>
          if (k.sems s).count < (k.sems s).max_count then
            .ok (k.set_sem s { k.sems s with count := (k.sems s).count + 1 })
          else .ok k
      match posted with
      | .fault f => .fault f
      | .ok k => .ok (SUCCESS, scheduler_enable_preemption k)

/-- The `while (sem->wait_queue)` loop of `sem_destroy`; one unit of fuel per
iteration. -/
def sem_destroy_loop (s : Nat) : Nat → Kernel → Outcome Kernel
  | 0, k =>
    match (k.sems s).wait_queue with
    | none => .ok k
    | some _ => .fault .out_of_fuel
  | fuel + 1, k =>
    match (k.sems s).wait_queue with
    | none => .ok k
    | some _ =>
      match sem_remove_waiter s k with
      | .fault f => .fault f
      | .ok (none, k) => sem_destroy_loop s fuel k
      | .ok (some task, k) =>
        let k := k.set_wait_obj task none
        match scheduler_unblock_task (some task) k with
        | .fault f => .fault f
        | .ok k => sem_destroy_loop s fuel k

/-- Source `sem_destroy(sem)`; `fuel` bounds the wake-up loop. -/
def sem_destroy (fuel : Nat) (sem : Option Nat) (k : Kernel) : Outcome (Int × Kernel) :=
  match sem with
  | none => .ok (ERROR, k)
  | some s =>
    if (k.sems s).valid = false then .ok (ERROR, k)
    else
      let k := scheduler_disable_preemption k
      match sem_destroy_loop s fuel k with
      | .fault f => .fault f
      | .ok k =>
        let k := k.set_sem s { k.sems s with valid := false }
        .ok (SUCCESS, scheduler_enable_preemption k)

/-- Source `sem_get_count(sem)`. -/
def sem_get_count (sem : Option Nat) (k : Kernel) : Int :=
  match sem with
  | none => ERROR
  | some s => if (k.sems s).valid = false then ERROR else ((k.sems s).count : Int)

/-! ## Runs of the kernel from boot -/

/-- The value of an outcome, or `d` after a fault. -/
def Outcome.get_or {α : Type} (x : Outcome α) (d : α) : α :=
  match x with
  | .ok v => v
  | .fault _ => d

/-- TCB memory in which the task at address `a` was created with priority `prio a`. -/
def tcb_memory (prio : Nat → Nat) : Nat → task_t :=
  fun a => new_tcb (prio a)

/-- Semaphore memory before any `sem_init`. -/
def sem_memory : Nat → semaphore_t :=
  fun _ => { count := 0, max_count := 0, wait_queue := none, valid := false }

/-- The kernel after `scheduler_init()`, the tasks created but not yet added. -/
def boot (prio : Nat → Nat) : Kernel :=
  scheduler_init (tcb_memory prio) sem_memory

/-- Run the operations in order, stopping at the first fault. -/
def run : List (Kernel → Outcome Kernel) → Kernel → Outcome Kernel
  | [], k => .ok k
  | op :: ops, k => (op k).bind (run ops)

/-- The scheduler's current task after each operation of a run. -/
def current_trace : List (Kernel → Outcome Kernel) → Kernel → Outcome (List (Option Nat))
  | [], _ => .ok []
  | op :: ops, k =>
    (op k).bind fun k1 => (current_trace ops k1).map fun l => k1.current_task :: l

/-- An operation with its return value dropped. -/
def state_of {α : Type} (op : Kernel → Outcome (α × Kernel)) : Kernel → Outcome Kernel :=
  fun k => (op k).map Prod.snd

/-- The call `sem_init(sem, initial_count, max_count)` as a step of a run. -/
def sem_init_step (sem : Option Nat) (initial_count max_count : Nat) : Kernel → Outcome Kernel :=
  fun k => .ok (sem_init sem initial_count max_count k).2

/-- Priorities of the round-robin runs: the idle task at address 0, every other
task at PRIORITY_NORMAL. -/
def prio_idle_normal : Nat → Nat
  | 0 => 0
  | _ => 5

/-- One task (address 1, priority 5) is added and the scheduler started. -/
def ops_single_task : List (Kernel → Outcome Kernel) :=
  [scheduler_add_task (some 1), scheduler_start]

/-- Idle and task A (address 1, priority 5) run; A calls `sem_wait(s, 0)` on a
semaphore `s` (address 0) initialised with count 0. -/
def ops_wait_forever : List (Kernel → Outcome Kernel) :=
  [scheduler_add_task (some 0), scheduler_add_task (some 1), scheduler_start,
   sem_init_step (some 0) 0 1, state_of (sem_wait_call (some 0) 0)]

/-- Three tasks of priority 5 are added in the order 1, 2, 3, the scheduler is
started and `schedule()` is called six more times. -/
def ops_round_robin : List (Kernel → Outcome Kernel) :=
  [scheduler_add_task (some 1), scheduler_add_task (some 2), scheduler_add_task (some 3),
   scheduler_start] ++ List.replicate 6 schedule

/-- Priorities of the preemption runs: L at address 1 (priority 1), B at
address 2 (priority 10), X at address 3 (priority 12). -/
def prio_preempt : Nat → Nat
  | 1 => 1
  | 2 => 10
  | _ => 12

/-- L, B and X are added and started; X sleeps 10 s, B sleeps 20 ms, so L runs
with B and X on the blocked queue. -/
def ops_preempt : List (Kernel → Outcome Kernel) :=
  [scheduler_add_task (some 1), scheduler_add_task (some 2), scheduler_add_task (some 3),
   scheduler_start, task_sleep 10000, task_sleep 20]

/-- Only L and B are added and started; B sleeps 20 ms, so L runs with B alone
on the blocked queue. -/
def ops_preempt_two : List (Kernel → Outcome Kernel) :=
  [scheduler_add_task (some 1), scheduler_add_task (some 2), scheduler_start, task_sleep 20]

/-- Idle, A (address 1) and B (address 2), both of priority 5, are added and the
scheduler is started. -/
def ops_two_normal : List (Kernel → Outcome Kernel) :=
  [scheduler_add_task (some 0), scheduler_add_task (some 1), scheduler_add_task (some 2),
   scheduler_start]

/-- `n` timer ticks, each with fuel 4 for the wake-up loop. -/
def ticks (n : Nat) : List (Kernel → Outcome Kernel) :=
  List.replicate n (scheduler_tick_handler 4)

/-- The state in which L runs and B alone sleeps, one tick before B is due. -/
def before_wake_two : Kernel :=
  (run (ops_preempt_two ++ ticks 1) (boot prio_preempt)).get_or (boot prio_preempt)

/-- The state inside the tick that wakes B, after the first pass of the wake-up loop. -/
def after_first_pass_two : Kernel :=
  (scheduler_unblock_task (some 2)
    ({ before_wake_two with tick_count := 2 }.set_wake_time 2 0)).get_or before_wake_two

/-- The state inside the tick that wakes B while preemption is disabled, after
the first pass of the wake-up loop. -/
def after_first_pass_disabled : Kernel :=
  (scheduler_unblock_task (some 2)
    ({ scheduler_disable_preemption before_wake_two with tick_count := 2 }.set_wake_time 2 0)).get_or
      before_wake_two

/-- Idle and task A (address 1, priority 5) are added and the scheduler started. -/
def ops_idle_and_a : List (Kernel → Outcome Kernel) :=
  [scheduler_add_task (some 0), scheduler_add_task (some 1), scheduler_start]

/-- The state in which task A runs and idle is ready. -/
def a_running : Kernel :=
  (run ops_idle_and_a (boot prio_idle_normal)).get_or (boot prio_idle_normal)

/-- The state in which A (address 1) runs, has raised its own priority to 7 with
`task_set_priority`, and `sem_init(s, 1, 1)` has returned SUCCESS for the
semaphore `s` at address 0. -/
def raised_with_sem : Kernel :=
  (sem_init (some 0) 1 1 (task_set_priority (some 1) 7 a_running).2).2

/-- The state after A's first `sem_wait(s, 0)` in `raised_with_sem`. -/
def raised_after_first_wait : Kernel :=
  match sem_wait_call (some 0) 0 raised_with_sem with
  | .ok (_, k) => k
  | .fault _ => raised_with_sem

/-- Priorities of the two-waiter run: idle at address 0, A at address 1
(priority 6), B at address 2 (priority 5). -/
def prio_two_waiters : Nat → Nat
  | 0 => 0
  | 1 => 6
  | _ => 5

/-- Idle, A and B are started; A and then B call `sem_wait(s, 0)` on a semaphore
with count 0.  Nobody posts. -/
def ops_two_waiters : List (Kernel → Outcome Kernel) :=
  [scheduler_add_task (some 0), scheduler_add_task (some 1), scheduler_add_task (some 2),
   scheduler_start, sem_init_step (some 0) 0 1,
   state_of (sem_wait_call (some 0) 0), state_of (sem_wait_call (some 0) 0)]

/-- Priorities of the timed-wait run: idle at address 0, A at address 1
(priority 5), X at address 2 (priority 7). -/
def prio_timed_wait : Nat → Nat
  | 0 => 0
  | 1 => 5
  | _ => 7

/-- Idle, A and X are started; X sleeps 10 s, then A calls `sem_wait(s, 100)` on
a semaphore with count 0 that nobody posts; ten ticks later A has been woken
by the tick handler and dispatched again. -/
def ops_timed_wait : List (Kernel → Outcome Kernel) :=
  [scheduler_add_task (some 0), scheduler_add_task (some 1), scheduler_add_task (some 2),
   scheduler_start, task_sleep 10000, sem_init_step (some 0) 0 1,
   state_of (sem_wait_call (some 0) 100)] ++ ticks 10

/-- Scenario 4 of the specification up to the ninth tick: idle and A only; A
calls `sem_wait(s, 100)` on a semaphore with count 0 that nobody posts. -/
def ops_timed_wait_alone : List (Kernel → Outcome Kernel) :=
  [scheduler_add_task (some 0), scheduler_add_task (some 1), scheduler_start,
   sem_init_step (some 0) 0 1, state_of (sem_wait_call (some 0) 100)] ++ ticks 9

/-- The state of scenario 4 after the ninth tick. -/
def before_timeout_alone : Kernel :=
  (run ops_timed_wait_alone (boot prio_idle_normal)).get_or (boot prio_idle_normal)

/-- The state inside the tenth tick of scenario 4, after the first pass of the
wake-up loop. -/
def after_first_pass_alone : Kernel :=
  (scheduler_unblock_task (some 1)
    ({ before_timeout_alone with tick_count := 10 }.set_wake_time 1 0)).get_or
      before_timeout_alone

/-- The entry section of `sem_wait(sem, timeout_ms)` called `n` times in a row
by the running task: how each call ended, and the final state. -/
def sem_wait_times (sem : Option Nat) (timeout_ms : Nat) :
    Nat → Kernel → Outcome (List wait_step × Kernel)
  | 0, k => .ok ([], k)
  | n + 1, k =>
    (sem_wait_enter sem timeout_ms k).bind fun r =>
      (sem_wait_times sem timeout_ms n r.2).map fun rs => (r.1 :: rs.1, rs.2)

/-- The state in which `sem_wait(s, timeout_ms)`, called by `cur` on a semaphore
with count 0 and no waiter, calls `scheduler_block_task`. -/
def sem_wait_before_block (k : Kernel) (s timeout_ms cur : Nat) : Kernel :=
  scheduler_enable_preemption
    (if 0 < timeout_ms then
      (((((scheduler_disable_preemption k).set_sem s
        { k.sems s with wait_queue := some cur }).set_next cur (some cur)).set_prev cur
          (some cur)).set_wait_obj cur (some s)).set_wake_time cur
            ((k.tick_count + (timeout_ms * TIMER_FREQ_HZ) % UINT32_MOD / 1000) % UINT32_MOD)
    else
      ((((scheduler_disable_preemption k).set_sem s
        { k.sems s with wait_queue := some cur }).set_next cur (some cur)).set_prev cur
          (some cur)).set_wait_obj cur (some s))

/-- The scheduler part of the state (tasks, queues, current task, clock) is the
same in `k1` and `k2`. -/
def same_scheduling (k1 k2 : Kernel) : Prop :=
  k2.tasks = k1.tasks ∧ k2.ready_queue = k1.ready_queue ∧ k2.blocked_queue = k1.blocked_queue ∧
  k2.current_task = k1.current_task ∧ k2.task_current = k1.task_current ∧
  k2.tick_count = k1.tick_count ∧ k2.task_count = k1.task_count ∧
  k2.scheduler_running = k1.scheduler_running

/-! ## Semaphore counters -/

/-- The counters of every semaphore are the same in `k1` and `k2`. -/
def same_counts (k1 k2 : Kernel) : Prop :=
  ∀ a, (k2.sems a).count = (k1.sems a).count ∧ (k2.sems a).max_count = (k1.sems a).max_count

/-- The semaphore at address `a` has `count ≤ max_count`. -/
def sem_bounded (a : Nat) (k : Kernel) : Prop :=
  (k.sems a).count ≤ (k.sems a).max_count

/-- The states reached from a successful `sem_init(s, initial_count, max_count)`
by calls of `sem_init`, `sem_wait` (its entry section, its call of
`schedule()`, and the rest of it once the caller runs again), `sem_post` and
`sem_destroy` on any semaphores. -/
inductive sem_reachable (s : Nat) : Kernel → Prop
  | init (k : Kernel) (initial_count max_count : Nat) :
      (sem_init (some s) initial_count max_count k).1 = SUCCESS →
      sem_reachable s (sem_init (some s) initial_count max_count k).2
  | init_again (k : Kernel) (sem : Option Nat) (initial_count max_count : Nat) :
      sem_reachable s k → sem_reachable s (sem_init sem initial_count max_count k).2
  | wait_enter (k k2 : Kernel) (sem : Option Nat) (timeout_ms : Nat) (r : wait_step) :
      sem_reachable s k → sem_wait_enter sem timeout_ms k = .ok (r, k2) → sem_reachable s k2
  | wait_schedule (k k2 : Kernel) :
      sem_reachable s k → schedule k = .ok k2 → sem_reachable s k2
  | wait_resume (k k2 : Kernel) (sem timeout_ms cur : Nat) (code : Int) :
      sem_reachable s k → sem_wait_resume sem timeout_ms cur k = .ok (code, k2) →
      sem_reachable s k2
  | post (k k2 : Kernel) (sem : Option Nat) (code : Int) :
      sem_reachable s k → sem_post sem k = .ok (code, k2) → sem_reachable s k2
  | destroy (k k2 : Kernel) (fuel : Nat) (sem : Option Nat) (code : Int) :
      sem_reachable s k → sem_destroy fuel sem k = .ok (code, k2) → sem_reachable s k2

/-! ## memory.c -/

/-- Source `BLOCK_HEADER_SIZE`, `sizeof(mem_block_t)` on the 32-bit target:
`size_t size` (4 bytes), `bool_t is_free` (1 byte and 3 of padding),
`mem_block_t *next` (4 bytes). -/
def BLOCK_HEADER_SIZE : Nat := 12

def ALIGN_SIZE : Nat := 8

/-- Source macro `ALIGN(size)`, `((size) + ALIGN_SIZE - 1) & ~(ALIGN_SIZE - 1)` in
`size_t` arithmetic. -/
def ALIGN (size : Nat) : Nat :=
  (size + ALIGN_SIZE - 1) % UINT32_MOD / ALIGN_SIZE * ALIGN_SIZE

/-- A block header: `addr` is the address of the header itself; the `next`
pointer is the position in the block list. -/
structure mem_block_t where
  addr : Nat
  size : Nat
  is_free : Bool
  deriving DecidableEq

/-- The statics of memory.c.  `free_list` is the chain of headers from
`free_list` along `next` (the empty list is `NULL`); the pointer `heap_start`
is `0` when `NULL`; `bytes` is the byte memory that `memcpy` reads and writes. -/
structure Heap where
  heap_start : Nat
  heap_size : Nat
  free_list : List mem_block_t
  total_allocated : Nat
  bytes : Nat → Nat

/-- The statics of memory.c before `mem_init`. -/
def heap_unset (bytes : Nat → Nat) : Heap :=
  { heap_start := 0, heap_size := 0, free_list := [], total_allocated := 0, bytes := bytes }

/-- Source `mem_init(heap_start_addr, size)`. -/
def mem_init (heap_start_addr size : Nat) (h : Heap) : Outcome Heap :=
  if heap_start_addr = 0 then .fault .null_pointer
  else
    .ok { h with
      heap_start := heap_start_addr
      heap_size := size
      free_list :=
        [{ addr := heap_start_addr
           size := (size + UINT32_MOD - BLOCK_HEADER_SIZE) % UINT32_MOD
           is_free := true }]
      total_allocated := 0 }

/-- The loop of `find_free_block`: `i` is the position of `current`, the result
is the position of `best_fit`. -/
def find_free_block_from (size : Nat) :
    List mem_block_t → Nat → Option Nat → Nat → Option Nat
  | [], _, best_fit, _ => best_fit
  | current :: rest, i, best_fit, best_fit_size =>
    if current.is_free = true ∧ size ≤ current.size then
      if current.size < best_fit_size then
        find_free_block_from size rest (i + 1) (some i) current.size
      else find_free_block_from size rest (i + 1) best_fit best_fit_size
    else find_free_block_from size rest (i + 1) best_fit best_fit_size

/-- Source `find_free_block(size)`: the position of the chosen block. -/
def find_free_block (size : Nat) (h : Heap) : Option Nat :=
  find_free_block_from size h.free_list 0 none (UINT32_MOD - 1)

/-- Source `split_block(block, size)` on the block at the head of `l`. -/
def split_block_head (size : Nat) : List mem_block_t → List mem_block_t
  | [] => []
  | block :: rest =>
    if (size + BLOCK_HEADER_SIZE + ALIGN_SIZE) % UINT32_MOD ≤ block.size then
      { block with size := size } ::
        { addr := block.addr + BLOCK_HEADER_SIZE + size
          size := (block.size + 2 * UINT32_MOD - size - BLOCK_HEADER_SIZE) % UINT32_MOD
          is_free := true } :: rest
    else block :: rest

/-- Apply `f` to the part of the list that starts at position `i`. -/
def at_position (f : List mem_block_t → List mem_block_t) :
    Nat → List mem_block_t → List mem_block_t
  | 0, l => f l
  | _ + 1, [] => []
  | i + 1, b :: rest => b :: at_position f i rest

/-- Source `split_block(block, size)` for the block at position `i`. -/
def split_block (i size : Nat) (l : List mem_block_t) : List mem_block_t :=
  at_position (split_block_head size) i l

/-- The assignment `block->is_free = v` on the block at the head of `l`. -/
def set_is_free_head (v : Bool) : List mem_block_t → List mem_block_t
  | [] => []
  | block :: rest => { block with is_free := v } :: rest

/-- The assignment `block->is_free = v` for the block at position `i`. -/
def set_is_free (i : Nat) (v : Bool) (l : List mem_block_t) : List mem_block_t :=
  at_position (set_is_free_head v) i l

/-- The loop of `merge_free_blocks` with the local `current` and the chain
behind it. -/
def merge_from (current : mem_block_t) : List mem_block_t → List mem_block_t
  | [] => [current]
  | next :: rest =>
    if current.is_free = true ∧ next.is_free = true then
      if current.addr + BLOCK_HEADER_SIZE + current.size = next.addr then
        merge_from
          { current with size := (current.size + BLOCK_HEADER_SIZE + next.size) % UINT32_MOD }
          rest
      else current :: merge_from next rest
    else current :: merge_from next rest

/-- Source `merge_free_blocks()`. -/
def merge_free_blocks (l : List mem_block_t) : List mem_block_t :=
  match l with
  | [] => []
  | current :: rest => merge_from current rest

/-- Source `kmalloc(size)`: the returned pointer (`0` is `NULL`) and the new state. -/
def kmalloc (size : Nat) (h : Heap) : Nat × Heap :=
  if size = 0 ∨ h.heap_start = 0 then (0, h)
  else
    let size := ALIGN size
    match find_free_block size h with
    | none => (0, h)
    | some i =>
      match (split_block i size h.free_list)[i]? with
      | none => (0, h)
      | some block =>
        (block.addr + BLOCK_HEADER_SIZE,
          { h with
            free_list := set_is_free i false (split_block i size h.free_list)
            total_allocated := (h.total_allocated + size) % UINT32_MOD })

/-- The position of the header at address `a` in the block list. -/
def block_at (a : Nat) : List mem_block_t → Option Nat
  | [] => none
  | b :: rest => if b.addr = a then some 0 else (block_at a rest).map (· + 1)

/-- Source `kfree(ptr)`.  A pointer that is not the payload address of a block
of the list is a fault. -/
def kfree (ptr : Nat) (h : Heap) : Outcome Heap :=
  if ptr = 0 ∨ h.heap_start = 0 then .ok h
  else if ptr < BLOCK_HEADER_SIZE then .fault .bad_pointer
  else
    match block_at (ptr - BLOCK_HEADER_SIZE) h.free_list with
    | none => .fault .bad_pointer
    | some i =>
      match h.free_list[i]? with
      | none => .fault .bad_pointer
      | some block =>
        .ok { h with
          free_list := merge_free_blocks (set_is_free i true h.free_list)
          total_allocated :=
            if block.size ≤ h.total_allocated then h.total_allocated - block.size else 0 }

/-- Source `memcpy(dest, src, len)` on the byte memory. -/
def memcpy (dest src : Nat) : Nat → (Nat → Nat) → (Nat → Nat)
  | 0, m => m
  | len + 1, m => memcpy (dest + 1) (src + 1) len (upd m dest (m src))

/-- The number of payload bytes of the block whose payload starts at `ptr`: the
`size` field of the first header of the list at `ptr - BLOCK_HEADER_SIZE`, and
`0` when the list has no such header. -/
def payload_size (ptr : Nat) : List mem_block_t → Nat
  | [] => 0
  | b :: rest => if b.addr + BLOCK_HEADER_SIZE = ptr then b.size else payload_size ptr rest

/-- Source `krealloc(ptr, new_size)`.  The source copies `copy_size` bytes to
`new_ptr` whatever the size of the block that `kmalloc` returned.  When that
block is shorter than `copy_size` (a request above `2^32 - 8` is rounded to 0 and
gets a block of 0 bytes), the copy overwrites the headers and payloads that
follow the block; the block list, which holds the headers apart from `bytes`,
cannot hold the result, and the call is `fault out_of_bounds`. -/
def krealloc (ptr new_size : Nat) (h : Heap) : Outcome (Nat × Heap) :=
  if ptr = 0 then .ok (kmalloc new_size h)
  else if new_size = 0 then (kfree ptr h).map fun h2 => (0, h2)
  else if ptr < BLOCK_HEADER_SIZE then .fault .bad_pointer
  else
    match block_at (ptr - BLOCK_HEADER_SIZE) h.free_list with
    | none => .fault .bad_pointer
    | some i =>
      match h.free_list[i]? with
      | none => .fault .bad_pointer
      | some block =>
        let old_size := block.size
        if new_size ≤ old_size then .ok (ptr, h)
        else
          match kmalloc new_size h with
          | (new_ptr, h1) =>
            if new_ptr = 0 then .ok (0, h1)
            else
              let copy_size := if old_size < new_size then old_size else new_size
              if payload_size new_ptr h1.free_list < copy_size then .fault .out_of_bounds
              else
                let h2 := { h1 with bytes := memcpy new_ptr ptr copy_size h1.bytes }
                (kfree ptr h2).map fun h3 => (new_ptr, h3)

/-- Source `mem_get_free()`. -/
def mem_get_free (h : Heap) : Nat :=
  h.free_list.foldl (fun free_size b => if b.is_free = true then (free_size + b.size) % UINT32_MOD
    else free_size) 0

/-- Source `mem_get_used()`. -/
def mem_get_used (h : Heap) : Nat :=
  h.total_allocated

/-- Source `mem_get_total()`. -/
def mem_get_total (h : Heap) : Nat :=
  h.heap_size

/-- Source `HEAP_SIZE` of config.h. -/
def HEAP_SIZE : Nat := 1024 * 1024

/-- The allocator after `mem_init(kernel_heap, HEAP_SIZE)` as in `kmain`, with the
page-aligned array `kernel_heap` at address `0x100000`. -/
def heap_boot : Heap :=
  (mem_init 1048576 HEAP_SIZE (heap_unset fun _ => 0)).get_or (heap_unset fun _ => 0)

/-- Scenario 5 of the specification before its last step: `p1 = alloc(100)`,
`p2 = alloc(200)`, `free(p1)`. -/
def heap_after_free_p1 : Heap :=
  (kfree (kmalloc 100 heap_boot).1 (kmalloc 200 (kmalloc 100 heap_boot).2).2).get_or heap_boot

/-- Scenario 5 after its first two steps: `p1 = alloc(100)` and `p2 = alloc(200)`
are both live. -/
def heap_two_live : Heap :=
  (kmalloc 200 (kmalloc 100 heap_boot).2).2

/-- The blocks of `l` tile the addresses from `a` to `e`: the first header is at
`a`, each block's header address + header size + size is the address of its
successor, and the last block ends at `e`. -/
def tiles : Nat → List mem_block_t → Nat → Prop
  | a, [], e => a = e
  | a, b :: rest, e => b.addr = a ∧ tiles (a + BLOCK_HEADER_SIZE + b.size) rest e

/-- The block list is not empty and tiles the region given to `mem_init`, which
is 8-byte aligned, not at address 0 and inside the 32-bit address space. -/
def heap_tiled (h : Heap) : Prop :=
  0 < h.heap_start ∧ h.heap_start % 8 = 0 ∧ h.heap_start + h.heap_size ≤ UINT32_MOD ∧
  h.free_list ≠ [] ∧ tiles h.heap_start h.free_list (h.heap_start + h.heap_size)

/-- Sum of the sizes of the free blocks. -/
def free_bytes : List mem_block_t → Nat
  | [] => 0
  | b :: rest => (if b.is_free = true then b.size else 0) + free_bytes rest

/-- Sum of the sizes of the blocks in use. -/
def used_bytes : List mem_block_t → Nat
  | [] => 0
  | b :: rest => (if b.is_free = true then 0 else b.size) + used_bytes rest

/-- The allocator states reached from `mem_init(base, size)` by `kmalloc`,
`kfree` and `krealloc` calls that return without a fault: no `krealloc` among
them has copied past the end of its new block. -/
inductive heap_reachable (base size : Nat) : Heap → Prop
  | init (h0 h : Heap) : mem_init base size h0 = .ok h → heap_reachable base size h
  | malloc (h : Heap) (n : Nat) : heap_reachable base size h →
      heap_reachable base size (kmalloc n h).2
  | free (h h2 : Heap) (p : Nat) : heap_reachable base size h → kfree p h = .ok h2 →
      heap_reachable base size h2
  | realloc (h h2 : Heap) (p n q : Nat) : heap_reachable base size h →
      krealloc p n h = .ok (q, h2) → heap_reachable base size h2

/-! ## queue.c -/

/-- Source `sizeof(queue_t)` on the 32-bit target: five 4-byte fields, three
`semaphore_t` of 16 bytes each, `bool_t valid` and 3 bytes of padding. -/
def QUEUE_T_SIZE : Nat := 72

/-- Source `sizeof(void *)` on the 32-bit target. -/
def POINTER_SIZE : Nat := 4

/-- The scalar fields of `queue_t`; `buffer` is an address (`0` is `NULL`).  The
three semaphores of the queue at address `q` live in the semaphore memory at
the addresses `mutex_of q`, `not_empty_of q` and `not_full_of q`. -/
structure queue_t where
  buffer : Nat
  capacity : Nat
  count : Nat
  head : Nat
  tail : Nat
  valid : Bool
  deriving DecidableEq

/-- The address `&queue->mutex`. -/
def mutex_of (q : Nat) : Nat := q + 20

/-- The address `&queue->not_empty`. -/
def not_empty_of (q : Nat) : Nat := q + 36

/-- The address `&queue->not_full`. -/
def not_full_of (q : Nat) : Nat := q + 52

/-- The whole modelled state: scheduler and semaphores, allocator, the memory of
the `queue_t` objects and the memory of the message slots (`words a` is the
handle stored at address `a`).  On the machine these are one memory.  The parts
are disjoint as long as every slot access stays inside the heap block of its
buffer; `overrun` is set by the first slot access that does not, and from then
on the other parts may differ from the memory of the machine. -/
structure System where
  kernel : Kernel
  heap : Heap
  queues : Nat → queue_t
  words : Nat → Nat
  overrun : Bool := false

/-- The state with the `queue_t` at address `q` replaced by `v`. -/
def System.set_queue (sys : System) (q : Nat) (v : queue_t) : System :=
  { sys with queues := upd sys.queues q v }

/-- The state with the message slot at address `a` set to `v`. -/
def System.set_word (sys : System) (a v : Nat) : System :=
  { sys with words := upd sys.words a v }

/-- The state with the kernel part replaced by `k`. -/
def System.set_kernel (sys : System) (k : Kernel) : System :=
  { sys with kernel := k }

/-- The state with the allocator part replaced by `h`. -/
def System.set_heap (sys : System) (h : Heap) : System :=
  { sys with heap := h }

/-- The slot `buffer[i]` lies inside the payload of the heap block whose payload
starts at `buffer`. -/
def slot_in_buffer (buffer i : Nat) (h : Heap) : Bool :=
  decide (POINTER_SIZE * i + POINTER_SIZE ≤ payload_size buffer h.free_list)

/-- An access to the slot `buffer[i]`.  When the slot lies outside the heap
block of the buffer, the machine reads or writes what is stored behind that
block: a block header, a `queue_t` with its semaphores, the payload of another
block.  The state keeps the access in `words` and sets `overrun`. -/
def System.touch_slot (sys : System) (buffer i : Nat) : System :=
  { sys with overrun := sys.overrun || !slot_in_buffer buffer i sys.heap }

/-- How a queue operation ends: with a `return`, or suspended in one of its
`sem_wait` calls with the caller `current` blocked. -/
inductive queue_step where
  | returned (code : Int)
  | blocked (current : Nat)
  deriving DecidableEq

/-- Source `queue_create(queue, capacity)`: the return code, the pointer stored
to `*queue` (`0` when nothing is stored) and the new state. -/
def queue_create (queue : Option Nat) (capacity : Nat) (sys : System) :
    Outcome (Int × Nat × System) :=
  if queue = none ∨ capacity = 0 then .ok (ERROR, 0, sys)
  else
    match kmalloc QUEUE_T_SIZE sys.heap with
    | (q, heap1) =>
      if q = 0 then .ok (ERROR, 0, sys.set_heap heap1)
      else
        match kmalloc ((POINTER_SIZE * capacity) % UINT32_MOD) heap1 with
        | (buffer, heap2) =>
          let sys := sys.set_heap heap2
          let sys := sys.set_queue q { sys.queues q with buffer := buffer }
          if buffer = 0 then
            (kfree q sys.heap).map fun heap3 => (ERROR, 0, sys.set_heap heap3)
          else
            let sys := sys.set_queue q
              { sys.queues q with capacity := capacity, count := 0, head := 0, tail := 0 }
            let give_up (sys : System) : Outcome (Int × Nat × System) :=
              (kfree (sys.queues q).buffer sys.heap).bind fun heap3 =>
                (kfree q heap3).map fun heap4 => (ERROR, 0, sys.set_heap heap4)
            match sem_init (some (mutex_of q)) 1 1 sys.kernel with
            | (code1, k1) =>
              let sys := sys.set_kernel k1
              if code1 ≠ SUCCESS then give_up sys
              else
                match sem_init (some (not_empty_of q)) 0 capacity sys.kernel with
                | (code2, k2) =>
                  let sys := sys.set_kernel k2
                  if code2 ≠ SUCCESS then give_up sys
                  else
                    match sem_init (some (not_full_of q)) capacity capacity sys.kernel with
                    | (code3, k3) =>
                      let sys := sys.set_kernel k3
                      if code3 ≠ SUCCESS then give_up sys
                      else
                        let sys := sys.set_queue q { sys.queues q with valid := true }
                        .ok (SUCCESS, q, sys)

/-- Source `queue_send`, lines 70-81: the caller holds `not_full` and `mutex`. -/
def queue_send_store (q msg : Nat) (sys : System) : Outcome (Int × System) :=
  let qr := sys.queues q
  if qr.capacity = 0 then .fault .division_by_zero
  else
    let sys := (sys.touch_slot qr.buffer qr.tail).set_word
      (qr.buffer + POINTER_SIZE * qr.tail) msg
    let sys := sys.set_queue q
      { sys.queues q with tail := (qr.tail + 1) % UINT32_MOD % qr.capacity }
    let sys := sys.set_queue q
      { sys.queues q with count := ((sys.queues q).count + 1) % UINT32_MOD }
    (sem_post (some (mutex_of q)) sys.kernel).bind fun r1 =>
      (sem_post (some (not_empty_of q)) r1.2).map fun r2 =>
        (SUCCESS, sys.set_kernel r2.2)

/-- Source `queue_send`, lines 65-81: what follows once `sem_wait(&queue->mutex)`
has returned `code`. -/
def queue_send_with_mutex (q msg : Nat) (code : Int) (sys : System) :
    Outcome (Int × System) :=
  if code ≠ SUCCESS then
    (sem_post (some (not_full_of q)) sys.kernel).map fun r =>
      (ERROR, sys.set_kernel r.2)
  else queue_send_store q msg sys

/-- Source `queue_send`, lines 60-81: what follows once
`sem_wait(&queue->not_full)` has returned `code`. -/
def queue_send_with_space (q msg timeout_ms : Nat) (code : Int) (sys : System) :
    Outcome (queue_step × System) :=
  if code ≠ SUCCESS then .ok (.returned ERROR, sys)
  else
    (sem_wait_call (some (mutex_of q)) timeout_ms sys.kernel).bind fun w =>
      match w with
      | (.blocking current, k) => .ok (.blocked current, sys.set_kernel k)
      | (.returned code2, k) =>
        (queue_send_with_mutex q msg code2 (sys.set_kernel k)).map fun r =>
          (.returned r.1, r.2)

/-- Source `queue_send(queue, msg, timeout_ms)`. -/
def queue_send (queue : Option Nat) (msg timeout_ms : Nat) (sys : System) :
    Outcome (queue_step × System) :=
  match queue with
  | none => .ok (.returned ERROR, sys)
  | some q =>
    if (sys.queues q).valid = false then .ok (.returned ERROR, sys)
    else
      (sem_wait_call (some (not_full_of q)) timeout_ms sys.kernel).bind fun w =>
        match w with
        | (.blocking current, k) => .ok (.blocked current, sys.set_kernel k)
        | (.returned code, k) =>
          queue_send_with_space q msg timeout_ms code (sys.set_kernel k)

/-- Source `queue_receive`, lines 101-112: the caller holds `not_empty` and
`mutex`; the result carries the handle stored to `*msg`. -/
def queue_receive_load (q : Nat) (sys : System) : Outcome (Int × Nat × System) :=
  let qr := sys.queues q
  if qr.capacity = 0 then .fault .division_by_zero
  else
    let msg := sys.words (qr.buffer + POINTER_SIZE * qr.head)
    let sys := sys.touch_slot qr.buffer qr.head
    let sys := sys.set_queue q
      { sys.queues q with head := (qr.head + 1) % UINT32_MOD % qr.capacity }
    let sys := sys.set_queue q
      { sys.queues q with count := ((sys.queues q).count + UINT32_MOD - 1) % UINT32_MOD }
    (sem_post (some (mutex_of q)) sys.kernel).bind fun r1 =>
      (sem_post (some (not_full_of q)) r1.2).map fun r2 =>
        (SUCCESS, msg, sys.set_kernel r2.2)

/-- Source `queue_receive`, lines 96-112: what follows once
`sem_wait(&queue->mutex)` has returned `code`. -/
def queue_receive_with_mutex (q : Nat) (code : Int) (sys : System) :
    Outcome (Int × Nat × System) :=
  if code ≠ SUCCESS then
    (sem_post (some (not_empty_of q)) sys.kernel).map fun r =>
      (ERROR, 0, sys.set_kernel r.2)
  else queue_receive_load q sys

/-- Source `queue_receive`, lines 91-112: what follows once
`sem_wait(&queue->not_empty)` has returned `code`. -/
def queue_receive_with_item (q timeout_ms : Nat) (code : Int) (sys : System) :
    Outcome (queue_step × Nat × System) :=
  if code ≠ SUCCESS then .ok (.returned ERROR, 0, sys)
  else
    (sem_wait_call (some (mutex_of q)) timeout_ms sys.kernel).bind fun w =>
      match w with
      | (.blocking current, k) => .ok (.blocked current, 0, sys.set_kernel k)
      | (.returned code2, k) =>
        (queue_receive_with_mutex q code2 (sys.set_kernel k)).map fun r =>
          (.returned r.1, r.2)

/-- Source `queue_receive(queue, msg, timeout_ms)`: how the call ended, the
handle stored to `*msg` (`0` when nothing is stored) and the new state. -/
def queue_receive (queue msg : Option Nat) (timeout_ms : Nat) (sys : System) :
    Outcome (queue_step × Nat × System) :=
  match queue with
  | none => .ok (.returned ERROR, 0, sys)
  | some q =>
    if (sys.queues q).valid = false ∨ msg = none then .ok (.returned ERROR, 0, sys)
    else
      (sem_wait_call (some (not_empty_of q)) timeout_ms sys.kernel).bind fun w =>
        match w with
        | (.blocking current, k) => .ok (.blocked current, 0, sys.set_kernel k)
        | (.returned code, k) =>
          queue_receive_with_item q timeout_ms code (sys.set_kernel k)

/-- Source `queue_get_count`, lines 142-145: what follows once
`sem_wait(&queue->mutex, 0)` has returned. -/
def queue_get_count_with_mutex (q : Nat) (sys : System) : Outcome (Nat × System) :=
  let count := (sys.queues q).count
  (sem_post (some (mutex_of q)) sys.kernel).map fun r =>
    (count, sys.set_kernel r.2)

/-- Source `queue_get_count(queue)`: the returned count, or `none` when the call
is suspended in `sem_wait`, and the new state. -/
def queue_get_count (queue : Option Nat) (sys : System) : Outcome (Option Nat × System) :=
  match queue with
  | none => .ok (some 0, sys)
  | some q =>
    if (sys.queues q).valid = false then .ok (some 0, sys)
    else
      (sem_wait_call (some (mutex_of q)) 0 sys.kernel).bind fun w =>
        match w with
        | (.blocking _, k) => .ok (none, sys.set_kernel k)
        | (.returned _, k) =>
          (queue_get_count_with_mutex q (sys.set_kernel k)).map fun r =>
            (some r.1, r.2)

/-- The kernel state after a semaphore operation that only sets the count of the
semaphore at `s` to `c`: the critical section leaves preemption enabled. -/
def Kernel.with_count (k : Kernel) (s c : Nat) : Kernel :=
  { k with sems := upd k.sems s { k.sems s with count := c }, preemption_enabled := true }

/-- The semaphore at `s` is valid, has no waiter, and has the given counters. -/
def sem_is (k : Kernel) (s count max_count : Nat) : Prop :=
  k.sems s = { count := count, max_count := max_count, wait_queue := none, valid := true }

/-- The queue at address `q` is at rest: it is valid with a non-zero capacity,
`head` is a slot index, `tail` is `count` slots after `head` around the ring,
`count ≤ capacity`, nobody waits on its semaphores, `mutex` is free,
`not_empty` counts the stored messages and `not_full` the free slots. -/
def queue_at_rest (q : Nat) (sys : System) : Prop :=
  (sys.queues q).valid = true ∧ 0 < (sys.queues q).capacity ∧
  (sys.queues q).capacity < UINT32_MOD ∧
  (sys.queues q).count ≤ (sys.queues q).capacity ∧
  (sys.queues q).head < (sys.queues q).capacity ∧
  (sys.queues q).tail = ((sys.queues q).head + (sys.queues q).count) % (sys.queues q).capacity ∧
  sem_is sys.kernel (mutex_of q) 1 1 ∧
  sem_is sys.kernel (not_empty_of q) (sys.queues q).count (sys.queues q).capacity ∧
  sem_is sys.kernel (not_full_of q) ((sys.queues q).capacity - (sys.queues q).count)
    (sys.queues q).capacity

/-- The handles stored in the queue, oldest first: the `count` slots
`buffer[head]`, `buffer[(head + 1) mod capacity]`, ... -/
def queue_contents (q : Nat) (sys : System) : List Nat :=
  (List.range (sys.queues q).count).map fun i =>
    sys.words ((sys.queues q).buffer
      + POINTER_SIZE * (((sys.queues q).head + i) % (sys.queues q).capacity))

/-- Modelled from the spec: the bounded FIFO list, send: append at the back
unless the list already holds `capacity` handles. -/
def fifo_send (capacity : Nat) (l : List Nat) (m : Nat) : Option (List Nat) :=
  if l.length < capacity then some (l ++ [m]) else none

/-- Modelled from the spec: the bounded FIFO list, receive: remove and return
the front unless the list is empty. -/
def fifo_receive (l : List Nat) : Option (Nat × List Nat) :=
  match l with
  | [] => none
  | m :: rest => some (m, rest)

/-- The state after a `queue_send(q, msg)` that found room: the handle stored at
`tail`, `tail` and `count` advanced, the three semaphores passed through. -/
def after_send (q msg : Nat) (sys : System) : System :=
  (((sys.touch_slot (sys.queues q).buffer (sys.queues q).tail).set_word
      ((sys.queues q).buffer + POINTER_SIZE * (sys.queues q).tail) msg).set_queue q
    { sys.queues q with
      tail := ((sys.queues q).tail + 1) % UINT32_MOD % (sys.queues q).capacity
      count := ((sys.queues q).count + 1) % UINT32_MOD }).set_kernel
    ((((sys.kernel.with_count (not_full_of q)
      ((sys.queues q).capacity - (sys.queues q).count - 1)).with_count (mutex_of q) 0).with_count
        (mutex_of q) 1).with_count (not_empty_of q) ((sys.queues q).count + 1))

/-- The state after a `queue_receive(q)` that found a message: `head` advanced,
`count` decremented, the three semaphores passed through. -/
def after_receive (q : Nat) (sys : System) : System :=
  ((sys.touch_slot (sys.queues q).buffer (sys.queues q).head).set_queue q
    { sys.queues q with
      head := ((sys.queues q).head + 1) % UINT32_MOD % (sys.queues q).capacity
      count := ((sys.queues q).count + UINT32_MOD - 1) % UINT32_MOD }).set_kernel
    ((((sys.kernel.with_count (not_empty_of q)
      ((sys.queues q).count - 1)).with_count (mutex_of q) 0).with_count
        (mutex_of q) 1).with_count (not_full_of q)
          ((sys.queues q).capacity - (sys.queues q).count + 1))

/-- Source `queue_send`, lines 60-81, for the caller `current` that was suspended
in `sem_wait(&queue->not_full)`: the rest of that `sem_wait` once its call of
`schedule()` has returned, and then the rest of `queue_send`. -/
def queue_send_resume (q msg timeout_ms current : Nat) (sys : System) :
    Outcome (queue_step × System) :=
  (sem_wait_resume (not_full_of q) timeout_ms current sys.kernel).bind fun r =>
    queue_send_with_space q msg timeout_ms r.1 (sys.set_kernel r.2)

/-- A call made on a queue by a run: `queue_send(q, msg, t)` or
`queue_receive(q, &out, t)`. -/
inductive queue_op where
  | send (msg : Nat)
  | receive
  deriving DecidableEq

/-- Run the calls in order on the queue at `q`, every call with timeout
`timeout_ms`.  The result is the list of the handles received, in order, and
the final state; it is `none` as soon as a call does not return SUCCESS (it
suspends its caller, faults, or returns ERROR). -/
def queue_run (q timeout_ms : Nat) : List queue_op → System → Option (List Nat × System)
  | [], sys => some ([], sys)
  | .send msg :: ops, sys =>
    match queue_send (some q) msg timeout_ms sys with
    | .ok (.returned code, sys2) =>
      if code = SUCCESS then queue_run q timeout_ms ops sys2 else none
    | _ => none
  | .receive :: ops, sys =>
    match queue_receive (some q) (some 0) timeout_ms sys with
    | .ok (.returned code, msg, sys2) =>
      if code = SUCCESS then
        (queue_run q timeout_ms ops sys2).map fun r => (msg :: r.1, r.2)
      else none
    | _ => none

/-- Modelled from the spec: a run of sends and receives on the bounded FIFO
list `l`; the handles delivered, in order, and the remaining list, or `none`
when a send exceeds the capacity or a receive finds the list empty. -/
def fifo_run (capacity : Nat) : List queue_op → List Nat → Option (List Nat × List Nat)
  | [], l => some ([], l)
  | .send msg :: ops, l =>
    match fifo_send capacity l msg with
    | some l2 => fifo_run capacity ops l2
    | none => none
  | .receive :: ops, l =>
    match fifo_receive l with
    | some (msg, l2) => (fifo_run capacity ops l2).map fun r => (msg :: r.1, r.2)
    | none => none

/-- The states of the queue at `q` after `queue_create` stored `q` and after any
sequence of `queue_send`, `queue_receive` and `queue_get_count` calls on it,
each of which returned (with SUCCESS or ERROR) without suspending its caller.
The queue is created with a capacity `n` whose buffer size `POINTER_SIZE * n` is
at most `2^32 - 8`, so that neither the product nor its rounding by `kmalloc`
wraps, on a heap whose block list tiles its region, and before any slot access
has left its buffer. -/
inductive queue_reachable (q : Nat) : System → Prop where
  | create (p n : Nat) (sys sys2 : System) :
      POINTER_SIZE * n ≤ 2 ^ 32 - 8 → heap_tiled sys.heap → sys.overrun = false →
      queue_create (some p) n sys = .ok (SUCCESS, q, sys2) →
      queue_reachable q sys2
  | send (msg timeout_ms : Nat) (code : Int) (sys sys2 : System) :
      queue_reachable q sys →
      queue_send (some q) msg timeout_ms sys = .ok (.returned code, sys2) →
      queue_reachable q sys2
  | receive (out timeout_ms : Nat) (code : Int) (msg : Nat) (sys sys2 : System) :
      queue_reachable q sys →
      queue_receive (some q) (some out) timeout_ms sys = .ok (.returned code, msg, sys2) →
      queue_reachable q sys2
  | get_count (count : Nat) (sys sys2 : System) :
      queue_reachable q sys →
      queue_get_count (some q) sys = .ok (some count, sys2) →
      queue_reachable q sys2

/-- Queue memory before any `queue_create`. -/
def queue_memory : Nat → queue_t :=
  fun _ => { buffer := 0, capacity := 0, count := 0, head := 0, tail := 0, valid := false }

/-- The system in which task A runs, idle is ready, the heap is initialised and
no queue exists. -/
def queue_boot : System :=
  { kernel := a_running, heap := heap_boot, queues := queue_memory, words := fun _ => 0 }

/-- The address `queue_create` stores on the freshly initialised heap. -/
def first_queue : Nat := 1048588

/-- The state after `queue_create(&q, 2)` in `queue_boot`. -/
def created_two : System :=
  match queue_create (some 1) 2 queue_boot with
  | .ok (_, _, sys) => sys
  | .fault _ => queue_boot

/-- The second component of a step of a run, the state unchanged after a fault. -/
def state_after {α : Type} (r : Outcome (α × System)) (sys : System) : System :=
  match r with
  | .ok (_, sys2) => sys2
  | .fault _ => sys

/-- The system in which idle, A (address 1, priority 6) and B (address 2,
priority 5) are started, A runs, the heap is initialised and no queue exists. -/
def senders_boot : System :=
  { kernel := (run [scheduler_add_task (some 0), scheduler_add_task (some 1),
        scheduler_add_task (some 2), scheduler_start] (boot prio_two_waiters)).get_or
      (boot prio_two_waiters),
    heap := heap_boot, queues := queue_memory, words := fun _ => 0 }

/-- The state after `queue_create(&q, 1)` in `senders_boot` and A's first
`queue_send(q, 11, 0)`: the queue is full. -/
def senders_full : System :=
  state_after (queue_send (some first_queue) 11 0
    (state_after ((queue_create (some 1) 1 senders_boot).map fun r => (r.1, r.2.2))
      senders_boot))
    senders_boot

/-- The state after A called `queue_send(q, 12, 0)` on the full queue: A is
suspended in `sem_wait(&q->not_full)` and B runs. -/
def senders_a_suspended : System :=
  state_after (queue_send (some first_queue) 12 0 senders_full) senders_full

/-- The state after B called `queue_send(q, 13, 0)` in turn: B is suspended and
A has been dispatched. -/
def senders_b_suspended : System :=
  state_after (queue_send (some first_queue) 13 0 senders_a_suspended) senders_a_suspended

/-- The state after A's `queue_send(q, 12, 0)` has returned. -/
def senders_a_returned : System :=
  state_after (queue_send_resume first_queue 12 0 1 senders_b_suspended) senders_b_suspended

/-- The state after A then called `task_sleep(1000)`: B has been dispatched. -/
def senders_a_asleep : System :=
  senders_a_returned.set_kernel
    ((task_sleep 1000 senders_a_returned.kernel).get_or senders_a_returned.kernel)

/-- The state after B's `queue_send(q, 13, 0)` has returned. -/
def senders_b_returned : System :=
  state_after (queue_send_resume first_queue 13 0 2 senders_a_asleep) senders_a_asleep

/-! ## scheduler.c: scheduler_remove_task -/

/-- The loop of `scheduler_remove_task` over the `n` ready queues `i`, `i + 1`,
... -/
def remove_from_ready_queues (task : Nat) : Nat → Nat → Kernel → Outcome Kernel
  | 0, _, k => .ok k
  | n + 1, i, k =>
    let removed : Outcome Kernel :=
      match k.ready_queue i with
      | some _ => remove_from_queue (.ready i) (some task) k
      | none => .ok k
    removed.bind (remove_from_ready_queues task n (i + 1))

/-- Source `scheduler_remove_task(task)`. -/
def scheduler_remove_task (task : Option Nat) (k : Kernel) : Outcome Kernel :=
  match task with
  | none => .ok k
  | some t =>
    (remove_from_ready_queues t (MAX_PRIORITY + 1) 0 k).bind fun k =>
      (remove_from_queue .blocked (some t) k).map fun k =>
        if 0 < k.task_count then { k with task_count := k.task_count - 1 } else k

/-! ## task.c: task_create -/

/-- Source `TASK_STACK_SIZE` of config.h. -/
def TASK_STACK_SIZE : Nat := 4096

/-- Source `TASK_NAME_LEN` of config.h. -/
def TASK_NAME_LEN : Nat := 32

/-- Source `sizeof(task_t)` on the 32-bit target: `task_id` (4), `name` (32),
`state` (4), `priority` (1 and 3 of padding), `time_slice` (4), `context`
(16 registers, 64), `stack_base`, `stack_size`, `next`, `prev`, `wake_time`,
`wait_obj` (4 each). -/
def TASK_T_SIZE : Nat := 136

/-- The registers of `cpu_context_t` that `task_create` initialises. -/
structure cpu_context_t where
  esp : Nat
  eip : Nat
  eflags : Nat
  cs : Nat
  ss : Nat
  ds : Nat
  es : Nat
  fs : Nat
  gs : Nat
  deriving DecidableEq

/-- The state `task_create` works on: the system, the static `next_task_id` of
task.c, and the TCB fields that only task.c writes, each as a map from the TCB
address.  A name is the list of its characters before the terminator. -/
structure TaskWorld where
  sys : System
  next_task_id : Nat
  task_id : Nat → Nat
  name : Nat → List Nat
  stack_base : Nat → Nat
  stack_size : Nat → Nat
  context : Nat → cpu_context_t

/-- The twelve words `task_create` pushes, from the first pushed to the last. -/
def initial_frame (func arg wrapper : Nat) : List Nat :=
  [arg, func, 0, wrapper, 0x00000202, 0, 0, 0, 0, 0, 0, 0]

/-- The pushes `*(--stack) = v` for the values of `frame` in order, starting
below the address `top`. -/
def push_frame (frame : List Nat) (top : Nat) (words : Nat → Nat) : Nat × (Nat → Nat) :=
  frame.foldl (fun s v => ((s.1 + UINT32_MOD - 4) % UINT32_MOD,
    upd s.2 ((s.1 + UINT32_MOD - 4) % UINT32_MOD) v)) (top, words)

/-- Source `task_create(task, name, func, arg, priority, stack_size)`; `wrapper`
is the address of `task_wrapper`.  The result is the return code and the new
state. -/
def task_create (task : Option Nat) (name : Option (List Nat)) (func : Option Nat)
    (arg priority stack_size wrapper : Nat) (w : TaskWorld) : Outcome (Int × TaskWorld) :=
  match task, name, func with
  | some out, some chars, some f =>
    if MAX_PRIORITY < priority then .ok (ERROR, w)
    else
      let stack_size := if stack_size = 0 then TASK_STACK_SIZE else stack_size
      match kmalloc TASK_T_SIZE w.sys.heap with
      | (new_task, heap1) =>
        if new_task = 0 then .ok (ERROR, { w with sys := w.sys.set_heap heap1 })
        else
          match kmalloc stack_size heap1 with
          | (stack, heap2) =>
            if stack = 0 then
              (kfree new_task heap2).map fun heap3 =>
                (ERROR, { w with sys := w.sys.set_heap heap3 })
            else
              let pushed := push_frame (initial_frame f arg wrapper)
                ((stack + stack_size) % UINT32_MOD) w.sys.words
              let kernel := { w.sys.kernel with
                tasks := upd w.sys.kernel.tasks new_task (new_tcb priority) }
              let context : cpu_context_t :=
                { esp := pushed.1, eip := wrapper, eflags := 0x00000202, cs := 0x08, ss := 0x10,
                  ds := 0x10, es := 0x10, fs := 0x10, gs := 0x10 }
              (scheduler_add_task (some new_task) kernel).map fun kernel2 =>
                (SUCCESS,
                  { sys := { kernel := kernel2, heap := heap2, queues := w.sys.queues,
                             words := upd pushed.2 out new_task }
                    next_task_id := (w.next_task_id + 1) % UINT32_MOD
                    task_id := upd w.task_id new_task w.next_task_id
                    name := upd w.name new_task (chars.take (TASK_NAME_LEN - 1))
                    stack_base := upd w.stack_base new_task stack
                    stack_size := upd w.stack_size new_task stack_size
                    context := upd w.context new_task context })
  | _, _, _ => .ok (ERROR, w)

/-! ## Sleep, exit and priority runs -/

/-- The task at `a` is due in `k`: `wake_time > 0 && tick_count >= wake_time`. -/
def due (k : Kernel) (a : Nat) : Prop :=
  0 < (k.tasks a).wake_time ∧ (k.tasks a).wake_time ≤ k.tick_count

/-- The `next` links lead from `t` through the tasks of `l`, none of them the
task `head`, and from the last of them back to `head`. -/
def ring_from (k : Kernel) (head : Nat) : Nat → List Nat → Prop
  | t, [] => (k.tasks t).next = some head
  | t, n :: rest => (k.tasks t).next = some n ∧ n ≠ head ∧ ring_from k head n rest

/-- What the wake-up loop of the tick handler may change between `k` and `k2`:
the queue heads, the `next`/`prev` links, and the state and `wake_time` of the
tasks that are due in `k`. -/
def wake_frame (k k2 : Kernel) : Prop :=
  k2.sems = k.sems ∧ k2.current_task = k.current_task ∧ k2.task_current = k.task_current
  ∧ k2.tick_count = k.tick_count ∧ k2.task_count = k.task_count
  ∧ k2.preemption_enabled = k.preemption_enabled
  ∧ k2.scheduler_running = k.scheduler_running
  ∧ (∀ a, (k2.tasks a).time_slice = (k.tasks a).time_slice
      ∧ (k2.tasks a).priority = (k.tasks a).priority
      ∧ (k2.tasks a).wait_obj = (k.tasks a).wait_obj)
  ∧ (∀ a, ¬ due k a → (k2.tasks a).state = (k.tasks a).state
      ∧ (k2.tasks a).wake_time = (k.tasks a).wake_time)

/-- Idle, A (address 1, priority 5) and X (address 2, priority 7) are started;
X sleeps 10 s, then A calls `task_sleep(15)` at tick 0. -/
def ops_short_sleep : List (Kernel → Outcome Kernel) :=
  [scheduler_add_task (some 0), scheduler_add_task (some 1), scheduler_add_task (some 2),
   scheduler_start, task_sleep 10000, task_sleep 15]

/-- The state in which X sleeps and A is about to call `task_sleep`. -/
def before_short_sleep : Kernel :=
  (run [scheduler_add_task (some 0), scheduler_add_task (some 1), scheduler_add_task (some 2),
    scheduler_start, task_sleep 10000] (boot prio_timed_wait)).get_or (boot prio_timed_wait)

/-- The state in which A (address 1) runs, B (address 2) is ready, both of
priority 5, and idle is ready. -/
def two_normal : Kernel :=
  (run ops_two_normal (boot prio_idle_normal)).get_or (boot prio_idle_normal)

/-- Priorities of the priority-change run: idle at address 0, A and B at
addresses 1 and 2 (priority 5), C at address 3 (priority 6). -/
def prio_with_c : Nat → Nat
  | 0 => 0
  | 3 => 6
  | _ => 5

/-- Idle, A and B are started and A runs; `task_set_priority(B, 7)` is called
while B is Ready on `ready_queue[5]`. -/
def ops_raise_b : List (Kernel → Outcome Kernel) :=
  ops_two_normal ++ [fun k => .ok (task_set_priority (some 2) 7 k).2]

/-- Idle (priority 0) and A (priority 5) are added; the scheduler is not started. -/
def idle_and_a_ready : Kernel :=
  (run [scheduler_add_task (some 0), scheduler_add_task (some 1)]
    (boot prio_idle_normal)).get_or (boot prio_idle_normal)

/-- Idle, A and B (priority 5) are added; the scheduler is not started. -/
def three_ready : Kernel :=
  (run [scheduler_add_task (some 0), scheduler_add_task (some 1), scheduler_add_task (some 2)]
    (boot prio_idle_normal)).get_or (boot prio_idle_normal)

/-- Idle, A (address 1, priority 5) and X (address 2, priority 7) are started;
X and then A call `task_sleep(10)` at tick 0, so both are due at tick 1 and X
is the head of the blocked queue. -/
def ops_two_due : List (Kernel → Outcome Kernel) :=
  [scheduler_add_task (some 0), scheduler_add_task (some 1), scheduler_add_task (some 2),
   scheduler_start, task_sleep 10, task_sleep 10]

/-- The world of `task_create` before any task exists: `queue_boot` without its
tasks, `next_task_id = 1`. -/
def world_boot : TaskWorld :=
  { sys := { kernel := boot prio_idle_normal, heap := heap_boot, queues := queue_memory,
             words := fun _ => 0 }
    next_task_id := 1
    task_id := fun _ => 0
    name := fun _ => []
    stack_base := fun _ => 0
    stack_size := fun _ => 0
    context := fun _ => { esp := 0, eip := 0, eflags := 0, cs := 0, ss := 0, ds := 0, es := 0,
                          fs := 0, gs := 0 } }

/-- The states `k` and `k2` differ at most in the queue heads and in the `next`
and `prev` links of the tasks. -/
def same_but_links (k k2 : Kernel) : Prop :=
  k2.sems = k.sems ∧ k2.current_task = k.current_task ∧ k2.task_current = k.task_current
  ∧ k2.tick_count = k.tick_count ∧ k2.task_count = k.task_count
  ∧ k2.preemption_enabled = k.preemption_enabled
  ∧ k2.scheduler_running = k.scheduler_running
  ∧ ∀ a, (k2.tasks a).state = (k.tasks a).state
      ∧ (k2.tasks a).priority = (k.tasks a).priority
      ∧ (k2.tasks a).time_slice = (k.tasks a).time_slice
      ∧ (k2.tasks a).wake_time = (k.tasks a).wake_time
      ∧ (k2.tasks a).wait_obj = (k.tasks a).wait_obj

/-- The state after the `tick_count++` of `scheduler_tick_handler`. -/
def tick_advanced (k : Kernel) : Kernel :=
  { k with tick_count := (k.tick_count + 1) % UINT32_MOD }

/-! ## Coalescing, task_create out of memory, queue buffer size -/

/-- No free block of the list is immediately followed by another free block. -/
def no_free_pair (l : List mem_block_t) : Prop :=
  l.Chain' fun x y => ¬ (x.is_free = true ∧ y.is_free = true)

/-- Scenario 5 of the specification with both blocks freed: `p1 = alloc(100)`,
`p2 = alloc(200)`, `free(p1)`, `free(p2)`. -/
def heap_all_freed : Heap :=
  (kfree (kmalloc 200 (kmalloc 100 heap_boot).2).1 heap_after_free_p1).get_or heap_boot

/-- The allocator after `p1 = kmalloc(144)`, `p2 = kmalloc(8)`, `kfree(p1)`: a
free block of 144 bytes, the live block of `p2`, and the free remainder. -/
def heap_with_slack : Heap :=
  (kfree (kmalloc 144 heap_boot).1 (kmalloc 8 (kmalloc 144 heap_boot).2).2).get_or heap_boot

/-- The world of `task_create` on `heap_with_slack`. -/
def world_with_slack : TaskWorld :=
  { world_boot with sys := world_boot.sys.set_heap heap_with_slack }

/-- A capacity whose buffer size `4 * capacity` wraps to 4 in `uint32_t`. -/
def wrapping_capacity : Nat := 2 ^ 30 + 1

/-- The state after `queue_create(&q, wrapping_capacity)` in `queue_boot`. -/
def wrapped_queue : System :=
  match queue_create (some 1) wrapping_capacity queue_boot with
  | .ok (_, _, sys) => sys
  | .fault _ => queue_boot

/-- The allocator after `p = kmalloc(8)`, `x = kmalloc(8)`, `kfree(p)`: a free
block of 8 bytes at the start of the heap, the live block of `x`, and the free
remainder. -/
def heap_with_hole : Heap :=
  (kfree (kmalloc 8 heap_boot).1 (kmalloc 8 (kmalloc 8 heap_boot).2).2).get_or heap_boot

/-- The system `queue_boot` on `heap_with_hole`. -/
def holed_boot : System :=
  queue_boot.set_heap heap_with_hole

/-- The state after `queue_create(&q, wrapping_capacity)` in `holed_boot`. -/
def holed_queue : System :=
  match queue_create (some 1) wrapping_capacity holed_boot with
  | .ok (_, _, sys) => sys
  | .fault _ => holed_boot

/-- Eleven sends: the handles 101 to 110 and then the handle 1048632. -/
def eleven_sends : List queue_op :=
  [.send 101, .send 102, .send 103, .send 104, .send 105, .send 106, .send 107, .send 108,
    .send 109, .send 110, .send 1048632]

/-! # Theorems -/

/-! ## Scheduler claims -/

/-- C1, evaluated at the failing input: after `scheduler_add_task(t1)` and
`scheduler_start()`, task 1 is the current task, its state is Running, and it is
still the head of `ready_queue[5]`, linked to itself. -/
theorem c1_running_task_is_ready_queue_head :
    (run ops_single_task (boot prio_idle_normal)).map
      (fun k => (k.current_task, (k.tasks 1).state, k.ready_queue 5, (k.tasks 1).next))
    = .ok (some 1, TASK_RUNNING, some 1, some 1) := by
  decide

/-- C2, evaluated at the failing input: after task 1 has blocked in
`sem_wait(s, 0)`, it is the head of the wait queue of `s` and at the same time
the head of the blocked queue. -/
theorem c2_waiter_on_wait_queue_and_blocked_queue :
    (run ops_wait_forever (boot prio_idle_normal)).map
      (fun k => ((k.sems 0).wait_queue, k.blocked_queue, (k.tasks 1).state, k.current_task))
    = .ok (some 1, some 1, TASK_BLOCKED, some 0) := by
  decide

/-- C3, evaluated at the failing input: with three tasks of one priority the
successive dispatches are 1, 2, 3, 1, 3, 1, 3; the fifth dispatch selects task 3
instead of task 2, which is never dispatched again. -/
theorem c3_three_tasks_dispatch_order :
    current_trace ops_round_robin (boot prio_idle_normal)
    = .ok [none, none, none, some 1, some 2, some 3, some 1, some 3, some 1, some 3] := by
  decide

/-- A fault of the wake-up loop is the result of the tick handler. -/
theorem tick_handler_fault_of_loop (fuel : Nat) (k : Kernel) (t : Nat) (f : fault_t)
    (hb : k.blocked_queue = some t)
    (h : tick_wake_loop fuel t { k with tick_count := (k.tick_count + 1) % UINT32_MOD }
      = .fault f) :
    scheduler_tick_handler fuel k = .fault f := by
  simp only [hb] at h
  simp only [scheduler_tick_handler, hb, h]

/-- Once B, the only sleeper, has been moved to its ready queue, the wake-up
loop walks the ring of B forever: `blocked_queue` is `NULL` and `task` is not. -/
theorem wake_loop_spins (fuel : Nat) :
    tick_wake_loop fuel 2 after_first_pass_two = .fault .out_of_fuel := by
  induction fuel with
  | zero => rfl
  | succ n ih =>
    have step : tick_wake_loop (n + 1) 2 after_first_pass_two
        = tick_wake_loop n 2 after_first_pass_two := rfl
    rw [step, ih]

/-- The tick that wakes the only sleeper does not return, whatever the fuel. -/
theorem tick_waking_last_sleeper_hangs (fuel : Nat) :
    (run (ops_preempt_two ++ ticks 1) (boot prio_preempt)).bind (scheduler_tick_handler fuel)
      = .fault .out_of_fuel := by
  have hrun : run (ops_preempt_two ++ ticks 1) (boot prio_preempt) = .ok before_wake_two := rfl
  rw [hrun]
  show scheduler_tick_handler fuel before_wake_two = _
  apply tick_handler_fault_of_loop fuel before_wake_two 2
  · rfl
  · cases fuel with
    | zero => rfl
    | succ n =>
      have step : tick_wake_loop (n + 1) 2
          { before_wake_two with tick_count := (before_wake_two.tick_count + 1) % UINT32_MOD }
          = tick_wake_loop n 2 after_first_pass_two := rfl
      rw [step, wake_loop_spins]

/-- C4, evaluated at the failing input.  L (priority 1) runs, B (priority 10)
sleeps until tick 2 and X sleeps on.  After tick 2, B is Ready on
`ready_queue[10]`, yet L is still the current task, Running with 8 ticks of its
slice left; L stays current through tick 9 and B is dispatched only at tick 10.
When B is the only sleeper, the tick that wakes it does not return at all. -/
theorem c4_woken_high_priority_task_waits_for_slice :
    (run (ops_preempt ++ ticks 2) (boot prio_preempt)).map
        (fun k => (k.tick_count, (k.tasks 2).state, k.ready_queue 10, k.preemption_enabled))
      = .ok (2, TASK_READY, some 2, true)
    ∧ (run (ops_preempt ++ ticks 2) (boot prio_preempt)).map
        (fun k => (k.current_task, (k.tasks 1).state, (k.tasks 1).time_slice))
      = .ok (some 1, TASK_RUNNING, 8)
    ∧ current_trace (ops_preempt ++ ticks 10) (boot prio_preempt)
      = .ok [none, none, none, some 3, some 2, some 1, some 1, some 1, some 1, some 1,
          some 1, some 1, some 1, some 1, some 1, some 2]
    ∧ (run (ops_preempt_two ++ ticks 1) (boot prio_preempt)).map
        (fun k => (k.current_task, k.blocked_queue, (k.tasks 2).wake_time, k.tick_count))
      = .ok (some 1, some 2, 2, 1)
    ∧ ∀ fuel, (run (ops_preempt_two ++ ticks 1) (boot prio_preempt)).bind
        (scheduler_tick_handler fuel) = .fault .out_of_fuel := by
  exact ⟨by decide, by decide, by decide, by decide, tick_waking_last_sleeper_hangs⟩

/-- C5, evaluated at the failing input: with idle, A and B started and one tick
every 10 ms, the current task after `scheduler_start` and after each of the
first nine ticks is A; B is dispatched at the tenth tick (100 ms). -/
theorem c5_time_slice_is_ten_ticks :
    current_trace (ops_two_normal ++ ticks 10) (boot prio_idle_normal)
    = .ok [none, none, none, some 1, some 1, some 1, some 1, some 1, some 1, some 1,
        some 1, some 1, some 1, some 2] := by
  decide

/-! ## Semaphore claims -/

/-- A `sem_wait` on a valid semaphore with a positive count decrements the
count and returns SUCCESS; nothing else changes but the preemption flag. -/
theorem sem_wait_enter_positive (k : Kernel) (s timeout_ms : Nat)
    (hv : (k.sems s).valid = true) (hc : 0 < (k.sems s).count) :
    sem_wait_enter (some s) timeout_ms k = .ok (.returned SUCCESS,
      { k with sems := upd k.sems s { k.sems s with count := (k.sems s).count - 1 },
               preemption_enabled := true }) := by
  simp [sem_wait_enter, hv, hc, scheduler_disable_preemption, scheduler_enable_preemption,
    Kernel.set_sem]

/-- As long as the count lasts, consecutive calls of `sem_wait` all return SUCCESS. -/
theorem sem_wait_times_positive (s timeout_ms : Nat) (j : Nat) :
    ∀ k : Kernel, (k.sems s).valid = true → j ≤ (k.sems s).count →
      ∃ kj, sem_wait_times (some s) timeout_ms j k
          = .ok (List.replicate j (wait_step.returned SUCCESS), kj) ∧
        (kj.sems s).count = (k.sems s).count - j ∧
        (kj.sems s).max_count = (k.sems s).max_count ∧
        (kj.sems s).wait_queue = (k.sems s).wait_queue ∧
        (kj.sems s).valid = true ∧ same_scheduling k kj := by
  induction j with
  | zero =>
    intro k hv _
    exact ⟨k, rfl, by simp, rfl, rfl, hv, by simp [same_scheduling]⟩
  | succ n ih =>
    intro k hv hc
    have hpos : 0 < (k.sems s).count := by omega
    obtain ⟨kj, h1, h2, h3, h4, h5, h6⟩ := ih
      { k with sems := upd k.sems s { k.sems s with count := (k.sems s).count - 1 },
               preemption_enabled := true }
      (by simp [upd, hv]) (by simp [upd]; omega)
    refine ⟨kj, ?_, ?_, ?_, ?_, h5, ?_⟩
    · simp [sem_wait_times, sem_wait_enter_positive k s timeout_ms hv hpos, Outcome.bind, h1,
        Outcome.map, List.replicate_succ]
    · simp [upd] at h2; omega
    · simpa [upd] using h3
    · simpa [upd] using h4
    · simpa [same_scheduling] using h6

/-- Adding a waiter to an empty wait queue makes it the head of a one-element ring. -/
theorem sem_add_waiter_empty (k : Kernel) (s cur : Nat)
    (hq : (k.sems s).wait_queue = none) :
    ∃ ka, sem_add_waiter s cur k = .ok ka ∧
      (ka.sems s).wait_queue = some cur ∧
      (ka.tasks cur).next = some cur ∧ (ka.tasks cur).prev = some cur := by
  simp [sem_add_waiter, hq, Kernel.set_sem, Kernel.set_next, Kernel.set_prev, upd]

/-- A `sem_wait` on a valid semaphore with count 0 and no waiter blocks the caller. -/
theorem sem_wait_enter_blocks (k : Kernel) (s timeout_ms cur : Nat)
    (hv : (k.sems s).valid = true) (hc : (k.sems s).count = 0)
    (hq : (k.sems s).wait_queue = none)
    (hcur : task_get_current k = some cur)
    (hprio : (k.tasks cur).priority ≤ MAX_PRIORITY)
    (hblk : ∀ h, k.blocked_queue = some h → h ≠ cur ∧ (k.tasks h).prev ≠ none) :
    ∃ kb,
      sem_wait_enter (some s) timeout_ms k = .ok (.blocking cur, kb) ∧
      (kb.sems s).count = 0 ∧ (kb.sems s).wait_queue = some cur ∧
      (kb.tasks cur).wait_obj = some s ∧ (kb.tasks cur).state = TASK_BLOCKED := by
  have hcur2 : k.task_current = some cur := hcur
  rcases hb : k.blocked_queue with _ | h
  · rcases hrq : k.ready_queue (k.tasks cur).priority with _ | r <;>
    by_cases ht : 0 < timeout_ms <;>
    simp [sem_wait_enter, hv, hc, hq, task_get_current, hcur2, sem_add_waiter,
      scheduler_disable_preemption, scheduler_enable_preemption, scheduler_block_task,
      remove_from_queue, add_to_queue, Kernel.getq, Kernel.setq, Kernel.set_sem,
      Kernel.set_next, Kernel.set_prev, Kernel.set_wait_obj, Kernel.set_wake_time,
      Kernel.set_state, upd, hprio, hrq, hb, ht]
  · obtain ⟨hne, hp⟩ := hblk h hb
    obtain ⟨p, hp⟩ := Option.ne_none_iff_exists'.mp hp
    have hne2 : cur ≠ h := Ne.symm hne
    rcases eq_or_ne p cur with hpc | hpc
    · subst hpc
      rcases hrq : k.ready_queue (k.tasks p).priority with _ | r <;>
      by_cases ht : 0 < timeout_ms <;>
      simp [sem_wait_enter, hv, hc, hq, task_get_current, hcur2, sem_add_waiter,
        scheduler_disable_preemption, scheduler_enable_preemption, scheduler_block_task,
        remove_from_queue, add_to_queue, Kernel.getq, Kernel.setq, Kernel.set_sem,
        Kernel.set_next, Kernel.set_prev, Kernel.set_wait_obj, Kernel.set_wake_time,
        Kernel.set_state, upd, hprio, hrq, hb, ht, hne, hne2, hp]
    · have hpc2 : cur ≠ p := Ne.symm hpc
      rcases hrq : k.ready_queue (k.tasks cur).priority with _ | r <;>
      by_cases ht : 0 < timeout_ms <;>
      simp [sem_wait_enter, hv, hc, hq, task_get_current, hcur2, sem_add_waiter,
        scheduler_disable_preemption, scheduler_enable_preemption, scheduler_block_task,
        remove_from_queue, add_to_queue, Kernel.getq, Kernel.setq, Kernel.set_sem,
        Kernel.set_next, Kernel.set_prev, Kernel.set_wait_obj, Kernel.set_wake_time,
        Kernel.set_state, upd, hprio, hrq, hb, ht, hne, hne2, hp, hpc, hpc2]

/-- The entry section of the semaphore law: for `initial ≤ max_count`,
`sem_init(s, initial, max_count)` returns SUCCESS; for every `j ≤ initial` the
first `j` calls of `sem_wait(s, timeout_ms)` all return SUCCESS without touching
the tasks or the queues and leave `count = initial - j`; the next call, made by
the running task `cur`, does not return from its entry section:
`sem_add_waiter` makes `cur` the one-element ring of the wait queue (head and
tail), and the call reaches `schedule()` with `count = 0`, `cur` at the head of
the wait queue, `wait_obj = s` and state Blocked. -/
theorem semaphore_law_entry (k : Kernel) (s cur initial max_count timeout_ms : Nat)
    (hle : initial ≤ max_count)
    (hcur : task_get_current k = some cur)
    (hprio : (k.tasks cur).priority ≤ MAX_PRIORITY)
    (hblk : ∀ h, k.blocked_queue = some h → h ≠ cur ∧ (k.tasks h).prev ≠ none) :
    (sem_init (some s) initial max_count k).1 = SUCCESS ∧
    (∀ j, j ≤ initial → ∃ kj,
      sem_wait_times (some s) timeout_ms j (sem_init (some s) initial max_count k).2
        = .ok (List.replicate j (wait_step.returned SUCCESS), kj) ∧
      (kj.sems s).count = initial - j ∧ (kj.sems s).wait_queue = none ∧
      same_scheduling k kj) ∧
    ∃ ki ka kb,
      sem_wait_times (some s) timeout_ms initial (sem_init (some s) initial max_count k).2
        = .ok (List.replicate initial (wait_step.returned SUCCESS), ki) ∧
      sem_add_waiter s cur (scheduler_disable_preemption ki) = .ok ka ∧
      (ka.sems s).wait_queue = some cur ∧
      (ka.tasks cur).next = some cur ∧ (ka.tasks cur).prev = some cur ∧
      sem_wait_enter (some s) timeout_ms ki = .ok (.blocking cur, kb) ∧
      (kb.sems s).count = 0 ∧ (kb.sems s).wait_queue = some cur ∧
      (kb.tasks cur).wait_obj = some s ∧ (kb.tasks cur).state = TASK_BLOCKED := by
  have hinit : sem_init (some s) initial max_count k = (SUCCESS, k.set_sem s
      { count := initial, max_count := max_count, wait_queue := none, valid := true }) := by
    simp [sem_init, Nat.not_lt.mpr hle]
  have hv0 : (((sem_init (some s) initial max_count k).2).sems s).valid = true := by
    simp [hinit, Kernel.set_sem, upd]
  have hc0 : (((sem_init (some s) initial max_count k).2).sems s).count = initial := by
    simp [hinit, Kernel.set_sem, upd]
  have hq0 : (((sem_init (some s) initial max_count k).2).sems s).wait_queue = none := by
    simp [hinit, Kernel.set_sem, upd]
  have hs0 : same_scheduling k (sem_init (some s) initial max_count k).2 := by
    simp [hinit, Kernel.set_sem, same_scheduling]
  have steps : ∀ j, j ≤ initial → ∃ kj,
      sem_wait_times (some s) timeout_ms j (sem_init (some s) initial max_count k).2
        = .ok (List.replicate j (wait_step.returned SUCCESS), kj) ∧
      (kj.sems s).count = initial - j ∧ (kj.sems s).wait_queue = none ∧
      (kj.sems s).valid = true ∧ same_scheduling k kj := by
    intro j hj
    obtain ⟨kj, h1, h2, _, h4, h5, h6⟩ := sem_wait_times_positive s timeout_ms j
      (sem_init (some s) initial max_count k).2 hv0 (by omega)
    refine ⟨kj, h1, by omega, by rw [h4, hq0], h5, ?_⟩
    obtain ⟨a1, a2, a3, a4, a5, a6, a7, a8⟩ := hs0
    obtain ⟨b1, b2, b3, b4, b5, b6, b7, b8⟩ := h6
    exact ⟨b1.trans a1, b2.trans a2, b3.trans a3, b4.trans a4, b5.trans a5, b6.trans a6,
      b7.trans a7, b8.trans a8⟩
  refine ⟨by simp [hinit], ?_, ?_⟩
  · intro j hj
    obtain ⟨kj, h1, h2, h3, _, h5⟩ := steps j hj
    exact ⟨kj, h1, h2, h3, h5⟩
  · obtain ⟨ki, h1, h2, h3, h4, h5⟩ := steps initial (le_refl _)
    obtain ⟨t1, _, t3, _, t5, _, _, _⟩ := h5
    have hcur2 : task_get_current ki = some cur := by
      simpa [task_get_current, t5] using hcur
    obtain ⟨ka, e1, e2, e3, e4⟩ := sem_add_waiter_empty (scheduler_disable_preemption ki) s cur
      (by simpa [scheduler_disable_preemption] using h3)
    obtain ⟨kb, f1, f2, f3, f4, f5⟩ := sem_wait_enter_blocks ki s timeout_ms cur h4
      (by omega) h3 hcur2 (by rw [t1]; exact hprio) (by rw [t1, t3]; exact hblk)
    exact ⟨ki, ka, kb, h1, e1, e2, e3, e4, f1, f2, f3, f4, f5⟩

/-- With task 1 running, a semaphore initialised with count 2 of 3 lets two
waits through and blocks task 1 in the entry section of the third. -/
theorem semaphore_law_entry_example :
    task_get_current a_running = some 1 ∧
    ∃ ki kb,
      sem_wait_times (some 0) 0 2 (sem_init (some 0) 2 3 a_running).2
        = .ok ([.returned SUCCESS, .returned SUCCESS], ki) ∧
      sem_wait_enter (some 0) 0 ki = .ok (.blocking 1, kb) ∧
      (kb.sems 0).count = 0 ∧ (kb.sems 0).wait_queue = some 1 ∧
      (kb.tasks 1).wait_obj = some 0 ∧ (kb.tasks 1).state = TASK_BLOCKED := by
  have hb : a_running.blocked_queue = none := by decide
  obtain ⟨_, _, ki, _, kb, h1, _, _, _, _, h2, h3, h4, h5, h6⟩ :=
    semaphore_law_entry a_running 0 1 2 3 0 (by decide) (by decide) (by decide)
      (by intro h hh; rw [hb] at hh; cases hh)
  exact ⟨by decide, ki, kb, h1, h2, h3, h4, h5, h6⟩

/-- C6, evaluated at the failing input: the running task A has called
`task_set_priority(A, 7)`, which leaves it linked on `ready_queue[5]`, and
`sem_init(s, 1, 1)` has returned SUCCESS.  The first `sem_wait(s, 0)` returns
SUCCESS and leaves `count = 0`.  The second `sem_wait(s, 0)` enqueues A on the
wait queue and sets its state to Blocked, but `scheduler_block_task` unlinks A
from `ready_queue[7]`, where it is not, so `schedule()` finds A at the head of
`ready_queue[5]` and dispatches it at once: A is the current task, Running, and
its `sem_wait` returns SUCCESS although nobody posted, with `count = 0` and A
still on the wait queue and on the blocked queue. -/
theorem c6_second_wait_returns_without_post :
    (task_set_priority (some 1) 7 a_running).1 = SUCCESS
    ∧ (sem_init (some 0) 1 1 (task_set_priority (some 1) 7 a_running).2).1 = SUCCESS
    ∧ (raised_with_sem.current_task, (raised_with_sem.tasks 1).priority,
        raised_with_sem.ready_queue 5, raised_with_sem.ready_queue 7) = (some 1, 7, some 1, none)
    ∧ (sem_wait_call (some 0) 0 raised_with_sem).map
        (fun r => (r.1, (r.2.sems 0).count, (r.2.sems 0).wait_queue, r.2.current_task))
      = .ok (.returned SUCCESS, 0, none, some 1)
    ∧ (sem_wait_enter (some 0) 0 raised_after_first_wait).map
        (fun r => (r.1, (r.2.tasks 1).state, (r.2.sems 0).wait_queue, r.2.ready_queue 5))
      = .ok (.blocking 1, TASK_BLOCKED, some 1, some 1)
    ∧ (sem_wait_call (some 0) 0 raised_after_first_wait).map
        (fun r => (r.1, r.2.current_task, (r.2.tasks 1).state, (r.2.sems 0).count))
      = .ok (.blocking 1, some 1, TASK_RUNNING, 0)
    ∧ ((sem_wait_call (some 0) 0 raised_after_first_wait).bind fun r =>
        sem_wait_resume 0 0 1 r.2).map
        (fun r => (r.1, r.2.current_task, (r.2.tasks 1).state, (r.2.sems 0).wait_queue,
          r.2.blocked_queue))
      = .ok (SUCCESS, some 1, TASK_RUNNING, some 1, some 1) := by
  exact ⟨by decide, by decide, by decide, by decide, by decide, by decide, by decide⟩

/-- With an empty blocked queue the wake-up loop never ends on a task that is
linked to itself and not due: `task != blocked_queue && task` stays true. -/
theorem wake_loop_spins_on_self_ring (t : Nat) (k : Kernel)
    (hb : k.blocked_queue = none) (hn : (k.tasks t).next = some t)
    (hw : (k.tasks t).wake_time = 0) (fuel : Nat) :
    tick_wake_loop fuel t k = .fault .out_of_fuel := by
  induction fuel with
  | zero => rfl
  | succ n ih => simpa [tick_wake_loop, hb, hn, hw] using ih

/-- Scenario 4 of the specification: the tick at which the only blocked task
times out does not return, whatever the fuel. -/
theorem timeout_tick_hangs_alone (fuel : Nat) :
    (run ops_timed_wait_alone (boot prio_idle_normal)).bind (scheduler_tick_handler fuel)
      = .fault .out_of_fuel := by
  have hrun : run ops_timed_wait_alone (boot prio_idle_normal) = .ok before_timeout_alone :=
    rfl
  rw [hrun]
  show scheduler_tick_handler fuel before_timeout_alone = _
  apply tick_handler_fault_of_loop fuel before_timeout_alone 1
  · rfl
  · cases fuel with
    | zero => rfl
    | succ n =>
      have step : tick_wake_loop (n + 1) 1
          { before_timeout_alone with
            tick_count := (before_timeout_alone.tick_count + 1) % UINT32_MOD }
          = tick_wake_loop n 1 after_first_pass_alone := rfl
      rw [step]
      exact wake_loop_spins_on_self_ring 1 after_first_pass_alone (by decide) (by decide)
        (by decide) n

/-- C7, evaluated at the failing input: task 1 has blocked in `sem_wait(s, 0)`,
so `s` is valid with a non-empty wait queue; `sem_post(s)` then dereferences a
`NULL` pointer instead of returning SUCCESS. -/
theorem c7_post_to_waiter_dereferences_null :
    (run ops_wait_forever (boot prio_idle_normal)).map
        (fun k => ((k.sems 0).valid, (k.sems 0).wait_queue, (k.sems 0).count, k.blocked_queue))
      = .ok (true, some 1, 0, some 1)
    ∧ ((run ops_wait_forever (boot prio_idle_normal)).bind (sem_post (some 0))).map Prod.fst
      = .fault .null_pointer := by
  exact ⟨by decide, by decide⟩

/-- C8, evaluated at the failing input: A and then B block in `sem_wait(s, 0)`
on a semaphore with count 0.  When B's call reaches `schedule()`, the
scheduler dispatches A, still marked as waiting on `s`; A's `sem_wait` then
returns SUCCESS although no `sem_post` was made, and the first `sem_post`
dereferences a `NULL` pointer. -/
theorem c8_first_waiter_resumes_without_post :
    (run ops_two_waiters (boot prio_two_waiters)).map
        (fun k => (k.current_task, (k.tasks 1).state, (k.tasks 1).wait_obj, (k.tasks 2).state))
      = .ok (some 1, TASK_RUNNING, some 0, TASK_BLOCKED)
    ∧ (run ops_two_waiters (boot prio_two_waiters)).map
        (fun k => ((k.sems 0).count, (k.sems 0).wait_queue, k.ready_queue 5))
      = .ok (0, some 1, some 2)
    ∧ ((run ops_two_waiters (boot prio_two_waiters)).bind (sem_wait_resume 0 0 1)).map Prod.fst
      = .ok SUCCESS
    ∧ ((run ops_two_waiters (boot prio_two_waiters)).bind (sem_post (some 0))).map Prod.fst
      = .fault .null_pointer := by
  exact ⟨by decide, by decide, by decide, by decide⟩

/-- C9, evaluated at the failing input.  A timed out in `sem_wait(s, 100)` and
was dispatched again: it is the head of `ready_queue[5]`, linked to itself.
Its `sem_wait` returns ERROR and clears `wait_obj` and the wait queue, but the
unlink also clears A's `next` and `prev`, the links of the ring of
`ready_queue[5]`, and the next `schedule()` dereferences a `NULL` pointer.  In
scenario 4 itself, where A is the only blocked task, the tick at which A times
out does not return. -/
theorem c9_timeout_unlink_breaks_ready_ring :
    (run ops_timed_wait (boot prio_timed_wait)).map
        (fun k => (k.tick_count, k.current_task, k.ready_queue 5, (k.tasks 1).next,
          (k.tasks 1).prev))
      = .ok (10, some 1, some 1, some 1, some 1)
    ∧ ((run ops_timed_wait (boot prio_timed_wait)).bind (sem_wait_resume 0 100 1)).map
        (fun r => (r.1, (r.2.sems 0).wait_queue, (r.2.tasks 1).wait_obj))
      = .ok (ERROR, none, none)
    ∧ ((run ops_timed_wait (boot prio_timed_wait)).bind (sem_wait_resume 0 100 1)).map
        (fun r => (r.2.ready_queue 5, (r.2.tasks 1).next, (r.2.tasks 1).prev))
      = .ok (some 1, none, none)
    ∧ (((run ops_timed_wait (boot prio_timed_wait)).bind (sem_wait_resume 0 100 1)).bind
        fun r => schedule r.2).map (fun k => k.current_task)
      = .fault .null_pointer
    ∧ ∀ fuel, (run ops_timed_wait_alone (boot prio_idle_normal)).bind
        (scheduler_tick_handler fuel) = .fault .out_of_fuel := by
  exact ⟨by decide, by decide, by decide, by decide, timeout_tick_hangs_alone⟩

/-- C10, evaluated at the failing input: task 1 has blocked in
`sem_wait(s, 0)`; `sem_destroy(s)` dereferences a `NULL` pointer while it
unblocks task 1.  And whenever the caller's `wait_obj` has been cleared, as
`sem_destroy` does, the rest of `sem_wait` returns SUCCESS for every timeout. -/
theorem c10_wait_after_destroy_returns_success :
    ((run ops_wait_forever (boot prio_idle_normal)).bind (sem_destroy 4 (some 0))).map Prod.fst
      = .fault .null_pointer
    ∧ ∀ (k : Kernel) (s timeout_ms cur : Nat),
        sem_wait_resume s timeout_ms cur (k.set_wait_obj cur none)
          = .ok (SUCCESS, k.set_wait_obj cur none) := by
  refine ⟨by decide, ?_⟩
  intro k s timeout_ms cur
  simp [sem_wait_resume, Kernel.set_wait_obj, upd]

@[simp] theorem setq_sems (k : Kernel) (q : queue_ref) (v : Option Nat) :
    (k.setq q v).sems = k.sems := by
  cases q <;> rfl

@[simp] theorem set_next_sems (k : Kernel) (t : Nat) (v : Option Nat) :
    (k.set_next t v).sems = k.sems := rfl

@[simp] theorem set_prev_sems (k : Kernel) (t : Nat) (v : Option Nat) :
    (k.set_prev t v).sems = k.sems := rfl

@[simp] theorem set_state_sems (k : Kernel) (t : Nat) (v : task_state_t) :
    (k.set_state t v).sems = k.sems := rfl

@[simp] theorem set_time_slice_sems (k : Kernel) (t : Nat) (v : Nat) :
    (k.set_time_slice t v).sems = k.sems := rfl

@[simp] theorem set_wake_time_sems (k : Kernel) (t : Nat) (v : Nat) :
    (k.set_wake_time t v).sems = k.sems := rfl

@[simp] theorem set_wait_obj_sems (k : Kernel) (t : Nat) (v : Option Nat) :
    (k.set_wait_obj t v).sems = k.sems := rfl

theorem add_to_queue_sems (q : queue_ref) (t : Nat) (k k2 : Kernel)
    (h : add_to_queue q t k = .ok k2) : k2.sems = k.sems := by
  simp only [add_to_queue] at h
  repeat' split at h
  all_goals cases h <;> simp

theorem remove_from_queue_sems (q : queue_ref) (t : Option Nat) (k k2 : Kernel)
    (h : remove_from_queue q t k = .ok k2) : k2.sems = k.sems := by
  simp only [remove_from_queue] at h
  repeat' split at h
  all_goals cases h <;> simp

theorem scheduler_block_task_sems (t : Option Nat) (k k2 : Kernel)
    (h : scheduler_block_task t k = .ok k2) : k2.sems = k.sems := by
  simp only [scheduler_block_task] at h
  repeat' split at h
  all_goals first
    | (rename_i h1; rw [add_to_queue_sems _ _ _ _ h, remove_from_queue_sems _ _ _ _ h1]; simp)
    | (cases h <;> simp)

theorem scheduler_unblock_task_sems (t : Option Nat) (k k2 : Kernel)
    (h : scheduler_unblock_task t k = .ok k2) : k2.sems = k.sems := by
  simp only [scheduler_unblock_task] at h
  repeat' split at h
  all_goals first
    | (rename_i h1 _; rw [add_to_queue_sems _ _ _ _ h]
       simp [remove_from_queue_sems _ _ _ _ h1])
    | (cases h <;> simp)

theorem get_next_task_from_sems (k : Kernel) (i : Nat) :
    (get_next_task_from k i).2.sems = k.sems := by
  induction i with
  | zero => unfold get_next_task_from; split <;> rfl
  | succ n ih => unfold get_next_task_from; split <;> first | rfl | exact ih

theorem schedule_sems (k k2 : Kernel) (h : schedule k = .ok k2) : k2.sems = k.sems := by
  simp only [schedule] at h
  split at h
  · simp only [Outcome.ok.injEq] at h; subst h; rfl
  · split at h
    · cases h
    · rename_i k1 h1
      have hk1 : k1.sems = k.sems := by
        repeat' split at h1
        all_goals first
          | (rw [add_to_queue_sems _ _ _ _ h1]; simp)
          | (cases h1 <;> simp)
      have hg := get_next_task_from_sems k1 MAX_PRIORITY
      unfold get_next_task at h
      split at h
      · rename_i nt k3 heq
        simp only [Outcome.ok.injEq] at h
        subst h
        rw [heq] at hg
        simp at hg ⊢
        rw [hg, hk1]
      · rename_i k3 heq
        simp only [Outcome.ok.injEq] at h
        subst h
        rw [heq] at hg
        simp at hg ⊢
        rw [hg, hk1]

theorem same_counts_of_sems (k1 k2 : Kernel) (h : k2.sems = k1.sems) : same_counts k1 k2 := by
  intro a; rw [h]; exact ⟨rfl, rfl⟩

theorem same_counts_trans (k1 k2 k3 : Kernel) (h12 : same_counts k1 k2)
    (h23 : same_counts k2 k3) : same_counts k1 k3 := by
  intro a
  exact ⟨(h23 a).1.trans (h12 a).1, (h23 a).2.trans (h12 a).2⟩

theorem sem_add_waiter_counts (s t : Nat) (k k2 : Kernel)
    (h : sem_add_waiter s t k = .ok k2) : same_counts k k2 := by
  simp only [sem_add_waiter] at h
  repeat' split at h
  all_goals cases h <;> intro a <;> by_cases ha : a = s <;> simp [Kernel.set_sem, upd, ha]

theorem sem_remove_waiter_counts (s : Nat) (k k2 : Kernel) (r : Option Nat)
    (h : sem_remove_waiter s k = .ok (r, k2)) : same_counts k k2 := by
  simp only [sem_remove_waiter] at h
  repeat' split at h
  all_goals cases h <;> intro a <;> by_cases ha : a = s <;> simp [Kernel.set_sem, upd, ha]

theorem sem_bounded_of_same_counts (a : Nat) (k1 k2 : Kernel) (h : same_counts k1 k2)
    (hb : sem_bounded a k1) : sem_bounded a k2 := by
  unfold sem_bounded at *
  rw [(h a).1, (h a).2]; exact hb

theorem sem_wait_enter_bounded (sem : Option Nat) (timeout_ms : Nat) (k k2 : Kernel)
    (r : wait_step) (h : sem_wait_enter sem timeout_ms k = .ok (r, k2)) (a : Nat)
    (hb : sem_bounded a k) : sem_bounded a k2 := by
  simp only [sem_wait_enter] at h
  split at h
  · cases h; exact hb
  · rename_i s
    split at h
    · cases h; exact hb
    · split at h
      · cases h
        unfold sem_bounded at *
        by_cases ha : a = s
        · subst ha
          simp only [scheduler_enable_preemption, scheduler_disable_preemption, Kernel.set_sem,
            upd, if_true]
          omega
        · simpa [scheduler_enable_preemption, scheduler_disable_preemption, Kernel.set_sem,
            upd, ha] using hb
      · split at h
        · cases h; exact hb
        · split at h
          · cases h
          · rename_i cur _ k3 hadd
            split at h
            · cases h
            · rename_i k4 hblock
              cases h
              have h1 := sem_add_waiter_counts _ _ _ _ hadd
              have h2 := scheduler_block_task_sems _ _ _ hblock
              apply sem_bounded_of_same_counts a _ _ _ hb
              intro b
              rw [h2]
              have := h1 b
              split <;> simpa [scheduler_enable_preemption, scheduler_disable_preemption] using this

theorem sem_wait_resume_counts (s timeout_ms cur : Nat) (k k2 : Kernel) (code : Int)
    (h : sem_wait_resume s timeout_ms cur k = .ok (code, k2)) : same_counts k k2 := by
  simp only [sem_wait_resume] at h
  split at h
  · split at h
    · cases h
    · rename_i k1 hq
      cases h
      have h1 : same_counts k k1 := by
        repeat' split at hq
        all_goals cases hq
        all_goals intro a
        all_goals by_cases ha : a = s
        all_goals simp [scheduler_disable_preemption, Kernel.set_sem, upd, ha]
      intro a
      simpa [scheduler_enable_preemption] using h1 a
  · cases h
    exact same_counts_of_sems _ _ rfl

theorem sem_post_bounded (sem : Option Nat) (k k2 : Kernel) (code : Int)
    (h : sem_post sem k = .ok (code, k2)) (a : Nat) (hb : sem_bounded a k) :
    sem_bounded a k2 := by
  simp only [sem_post] at h
  split at h
  · cases h; exact hb
  · rename_i s
    split at h
    · cases h; exact hb
    · split at h
      · cases h
      · rename_i k1 hq
        cases h
        have h1 : sem_bounded a k1 := by
          split at hq
          · split at hq
            · cases hq
            · rename_i k3 hrem
              cases hq
              exact sem_bounded_of_same_counts a _ _
                (sem_remove_waiter_counts _ _ _ _ hrem) hb
            · rename_i t k3 hrem
              have h3 := sem_remove_waiter_counts _ _ _ _ hrem
              have h4 := scheduler_unblock_task_sems _ _ _ hq
              apply sem_bounded_of_same_counts a _ _ _ hb
              intro b
              rw [h4]
              simpa using h3 b
          · split at hq
            · cases hq
              unfold sem_bounded at *
              by_cases ha : a = s
              · subst ha
                rename_i hlt
                simp only [scheduler_disable_preemption, Kernel.set_sem, upd, if_true] at hlt ⊢
                omega
              · simpa [scheduler_disable_preemption, Kernel.set_sem, upd, ha] using hb
            · cases hq; exact hb
        exact h1

theorem sem_destroy_loop_counts (s : Nat) (fuel : Nat) :
    ∀ (k k2 : Kernel), sem_destroy_loop s fuel k = .ok k2 → same_counts k k2 := by
  induction fuel with
  | zero =>
    intro k k2 h
    simp only [sem_destroy_loop] at h
    split at h
    · cases h; exact same_counts_of_sems _ _ rfl
    · cases h
  | succ n ih =>
    intro k k2 h
    simp only [sem_destroy_loop] at h
    split at h
    · cases h; exact same_counts_of_sems _ _ rfl
    · split at h
      · cases h
      · rename_i k3 hrem
        exact same_counts_trans _ _ _ (sem_remove_waiter_counts _ _ _ _ hrem) (ih _ _ h)
      · rename_i t k3 hrem
        split at h
        · cases h
        · rename_i k4 hun
          have h3 := sem_remove_waiter_counts _ _ _ _ hrem
          have h4 := scheduler_unblock_task_sems _ _ _ hun
          refine same_counts_trans _ _ _ ?_ (ih _ _ h)
          intro b
          rw [h4]
          simpa using h3 b

theorem sem_destroy_counts (fuel : Nat) (sem : Option Nat) (k k2 : Kernel) (code : Int)
    (h : sem_destroy fuel sem k = .ok (code, k2)) : same_counts k k2 := by
  simp only [sem_destroy] at h
  split at h
  · cases h; exact same_counts_of_sems _ _ rfl
  · rename_i s
    split at h
    · cases h; exact same_counts_of_sems _ _ rfl
    · split at h
      · cases h
      · rename_i k1 hl
        cases h
        have h1 := sem_destroy_loop_counts s fuel _ _ hl
        intro a
        have := h1 a
        by_cases ha : a = s <;>
          simpa [scheduler_enable_preemption, scheduler_disable_preemption, Kernel.set_sem,
            upd, ha] using this

/-- `sem_init` keeps `count ≤ max_count` at every semaphore. -/
theorem sem_init_bounded (sem : Option Nat) (initial_count max_count : Nat) (k : Kernel)
    (a : Nat) (hb : sem_bounded a k) :
    sem_bounded a (sem_init sem initial_count max_count k).2 := by
  simp only [sem_init]
  split
  · exact hb
  · rename_i s
    split
    · exact hb
    · rename_i hlt
      unfold sem_bounded at *
      by_cases ha : a = s
      · subst ha
        simp only [Kernel.set_sem, upd, if_true]
        omega
      · simpa [Kernel.set_sem, upd, ha] using hb

/-- C11: in every state reached from a successful `sem_init(s, ...)` by calls of
`sem_init`, `sem_wait`, `sem_post` and `sem_destroy` (on this or any other
semaphore), `count ≤ max_count` holds for `s`. -/
theorem c11_count_le_max_count (s : Nat) (k : Kernel) (h : sem_reachable s k) :
    (k.sems s).count ≤ (k.sems s).max_count := by
  induction h with
  | init k0 initial_count max_count hs =>
    simp only [sem_init] at hs ⊢
    split at hs
    · simp [Kernel.set_sem, upd, SUCCESS, ERROR] at hs
    · rename_i hlt
      simp only [Kernel.set_sem, upd, if_neg hlt, if_true]
      omega
  | init_again k0 sem initial_count max_count _ ih =>
    exact sem_init_bounded sem initial_count max_count k0 s ih
  | wait_enter k1 k2 sem timeout_ms r _ hstep ih =>
    exact sem_wait_enter_bounded sem timeout_ms k1 k2 r hstep s ih
  | wait_schedule k1 k2 _ hstep ih =>
    exact sem_bounded_of_same_counts s k1 k2
      (same_counts_of_sems _ _ (schedule_sems _ _ hstep)) ih
  | wait_resume k1 k2 sem timeout_ms cur code _ hstep ih =>
    exact sem_bounded_of_same_counts s k1 k2 (sem_wait_resume_counts _ _ _ _ _ _ hstep) ih
  | post k1 k2 sem code _ hstep ih =>
    exact sem_post_bounded sem k1 k2 code hstep s ih
  | destroy k1 k2 fuel sem code _ hstep ih =>
    exact sem_bounded_of_same_counts s k1 k2 (sem_destroy_counts _ _ _ _ _ hstep) ih

/-- Witness of C11: a binary semaphore right after `sem_init(s, 1, 1)`. -/
theorem c11_count_le_max_count_witness :
    ((sem_init (some 0) 1 1 a_running).2.sems 0).count
      ≤ ((sem_init (some 0) 1 1 a_running).2.sems 0).max_count :=
  c11_count_le_max_count 0 _ (sem_reachable.init a_running 1 1 (by decide))

/-! ## Allocator claims -/

/-- Without 32-bit wrap-around `ALIGN` rounds up to a multiple of 8. -/
theorem ALIGN_eq_round_up (n : Nat) (hn : n ≤ 2 ^ 32 - 8) : ALIGN n = (n + 7) / 8 * 8 := by
  unfold ALIGN ALIGN_SIZE UINT32_MOD
  have : (n + 8 - 1) % 2 ^ 32 = n + 7 := by
    rw [Nat.mod_eq_of_lt] <;> omega
  rw [this]

theorem at_position_eq (f : List mem_block_t → List mem_block_t) :
    ∀ (i : Nat) (l : List mem_block_t), i ≤ l.length →
      at_position f i l = l.take i ++ f (l.drop i) := by
  intro i
  induction i with
  | zero => intro l _; simp [at_position]
  | succ n ih =>
    intro l hl
    cases l with
    | nil => simp at hl
    | cons b rest =>
      simp only [at_position, List.take_succ_cons, List.drop_succ_cons, List.cons_append]
      rw [ih rest (by simpa using hl)]

/-- What the loop of `find_free_block` returns: the incoming `best_fit` when no
block of the rest fits below `best_fit_size`, else the first smallest fit. -/
theorem find_free_block_from_spec (r : Nat) :
    ∀ (l : List mem_block_t) (i0 : Nat) (best : Option Nat) (bs : Nat),
      (find_free_block_from r l i0 best bs = best ∧
        ∀ c ∈ l, c.is_free = true → r ≤ c.size → bs ≤ c.size) ∨
      (∃ j b, find_free_block_from r l i0 best bs = some (i0 + j) ∧ l[j]? = some b ∧
        b.is_free = true ∧ r ≤ b.size ∧ b.size < bs ∧
        (∀ c ∈ l, c.is_free = true → r ≤ c.size → b.size ≤ c.size) ∧
        (∀ j2 c, j2 < j → l[j2]? = some c → c.is_free = true → r ≤ c.size →
          b.size < c.size)) := by
  intro l
  induction l with
  | nil => intro i0 best bs; left; simp [find_free_block_from]
  | cons cur rest ih =>
    intro i0 best bs
    by_cases hfit : cur.is_free = true ∧ r ≤ cur.size
    · by_cases hlt : cur.size < bs
      · simp only [find_free_block_from, hfit, hlt, and_self, if_true]
        rcases ih (i0 + 1) (some i0) cur.size with ⟨h1, h2⟩ | ⟨j, b, h1, h2, h3, h4, h5, h6, h7⟩
        · right
          refine ⟨0, cur, by simpa using h1, by simp, hfit.1, hfit.2, hlt, ?_, ?_⟩
          · intro c hc hf hr
            rcases List.mem_cons.mp hc with rfl | hc
            · exact le_refl _
            · exact h2 c hc hf hr
          · intro j2 c hj; omega
        · right
          refine ⟨j + 1, b, by rw [h1]; congr 1; omega, by simpa using h2, h3, h4,
            by omega, ?_, ?_⟩
          · intro c hc hf hr
            rcases List.mem_cons.mp hc with rfl | hc
            · omega
            · exact h6 c hc hf hr
          · intro j2 c hj hget hf hr
            cases j2 with
            | zero =>
              simp at hget
              subst hget
              exact h5
            | succ j3 =>
              simp at hget
              exact h7 j3 c (by omega) hget hf hr
      · simp only [find_free_block_from, hfit, hlt, and_self, if_true, if_false]
        rcases ih (i0 + 1) best bs with ⟨h1, h2⟩ | ⟨j, b, h1, h2, h3, h4, h5, h6, h7⟩
        · left
          refine ⟨h1, ?_⟩
          intro c hc hf hr
          rcases List.mem_cons.mp hc with rfl | hc
          · omega
          · exact h2 c hc hf hr
        · right
          refine ⟨j + 1, b, by rw [h1]; congr 1; omega, by simpa using h2, h3, h4, h5, ?_, ?_⟩
          · intro c hc hf hr
            rcases List.mem_cons.mp hc with rfl | hc
            · omega
            · exact h6 c hc hf hr
          · intro j2 c hj hget hf hr
            cases j2 with
            | zero =>
              simp at hget
              subst hget
              omega
            | succ j3 =>
              simp at hget
              exact h7 j3 c (by omega) hget hf hr
    · simp only [find_free_block_from, hfit, if_false]
      rcases ih (i0 + 1) best bs with ⟨h1, h2⟩ | ⟨j, b, h1, h2, h3, h4, h5, h6, h7⟩
      · left
        refine ⟨h1, ?_⟩
        intro c hc hf hr
        rcases List.mem_cons.mp hc with rfl | hc
        · exact absurd ⟨hf, hr⟩ hfit
        · exact h2 c hc hf hr
      · right
        refine ⟨j + 1, b, by rw [h1]; congr 1; omega, by simpa using h2, h3, h4, h5, ?_, ?_⟩
        · intro c hc hf hr
          rcases List.mem_cons.mp hc with rfl | hc
          · exact absurd ⟨hf, hr⟩ hfit
          · exact h6 c hc hf hr
        · intro j2 c hj hget hf hr
          cases j2 with
          | zero =>
            simp at hget
            subst hget
            exact absurd ⟨hf, hr⟩ hfit
          | succ j3 =>
            simp at hget
            exact h7 j3 c (by omega) hget hf hr

theorem split_block_get (r : Nat) :
    ∀ (i : Nat) (l : List mem_block_t) (b : mem_block_t), l[i]? = some b →
      ∃ b1, (split_block i r l)[i]? = some b1 ∧ b1.addr = b.addr ∧ b1.is_free = b.is_free := by
  intro i
  induction i with
  | zero =>
    intro l b hb
    cases l with
    | nil => simp at hb
    | cons c rest =>
      simp at hb
      subst hb
      simp only [split_block, at_position, split_block_head]
      split <;> simp
  | succ n ih =>
    intro l b hb
    cases l with
    | nil => simp at hb
    | cons c rest =>
      simp at hb
      simpa [split_block, at_position] using ih rest b hb

theorem set_is_free_get (v : Bool) :
    ∀ (i : Nat) (l : List mem_block_t) (b : mem_block_t), l[i]? = some b →
      (set_is_free i v l)[i]? = some { b with is_free := v } := by
  intro i
  induction i with
  | zero =>
    intro l b hb
    cases l with
    | nil => simp at hb
    | cons c rest =>
      simp at hb
      subst hb
      simp [set_is_free, at_position, set_is_free_head]
  | succ n ih =>
    intro l b hb
    cases l with
    | nil => simp at hb
    | cons c rest =>
      simp at hb
      simpa [set_is_free, at_position] using ih rest b hb

/-- C16: on an initialised heap whose block sizes are below `SIZE_MAX`, for
`0 < n ≤ 2^32 - 8`, `kmalloc(n)` returns `NULL` iff no free block has size at
least `n` rounded up to a multiple of 8; otherwise it returns header address +
header size of a free block `b` at position `i` that fits, whose size is
minimal among the fitting free blocks and strictly smaller than that of every
fitting free block before it in the list, and the block at position `i` is in
use afterwards.  `kmalloc(0)` returns `NULL`. -/
theorem c16_best_fit (h : Heap) (n : Nat) (hinit : h.heap_start ≠ 0) (hn : 0 < n)
    (hn2 : n ≤ 2 ^ 32 - 8) (hsz : ∀ b ∈ h.free_list, b.size < UINT32_MOD - 1) :
    ((kmalloc n h).1 = 0 ↔
      ∀ b ∈ h.free_list, ¬(b.is_free = true ∧ (n + 7) / 8 * 8 ≤ b.size)) ∧
    ((kmalloc n h).1 ≠ 0 → ∃ (i : Nat) (b b2 : mem_block_t),
      h.free_list[i]? = some b ∧ b.is_free = true ∧ (n + 7) / 8 * 8 ≤ b.size ∧
      (∀ c ∈ h.free_list, c.is_free = true → (n + 7) / 8 * 8 ≤ c.size → b.size ≤ c.size) ∧
      (∀ (j : Nat) (c : mem_block_t), j < i → h.free_list[j]? = some c → c.is_free = true →
        (n + 7) / 8 * 8 ≤ c.size → b.size < c.size) ∧
      (kmalloc n h).1 = b.addr + BLOCK_HEADER_SIZE ∧
      (kmalloc n h).2.free_list[i]? = some b2 ∧ b2.addr = b.addr ∧ b2.is_free = false) ∧
    kmalloc 0 h = (0, h) := by
  have hr := ALIGN_eq_round_up n hn2
  have hn0 : n ≠ 0 := by omega
  refine ⟨?_, ?_, by simp [kmalloc]⟩
  · rcases find_free_block_from_spec (ALIGN n) h.free_list 0 none (UINT32_MOD - 1) with
      ⟨h1, h2⟩ | ⟨j, b, h1, h2, h3, h4, h5, h6, h7⟩
    · have hk : (kmalloc n h).1 = 0 := by
        simp [kmalloc, hn0, hinit, find_free_block, h1]
      simp only [hk, true_iff]
      intro b hb hfit
      have := h2 b hb hfit.1 (by rw [hr]; exact hfit.2)
      have := hsz b hb
      omega
    · obtain ⟨b1, hb1, hb1a, _⟩ := split_block_get (ALIGN n) j h.free_list b h2
      have hk : (kmalloc n h).1 = b.addr + BLOCK_HEADER_SIZE := by
        simp [kmalloc, hn0, hinit, find_free_block, h1, hb1, hb1a]
      constructor
      · intro h0
        rw [hk] at h0
        simp [BLOCK_HEADER_SIZE] at h0
      · intro hall
        exact absurd ⟨h3, by rw [← hr]; exact h4⟩ (hall b (List.getElem?_mem h2))
  · intro hne
    rcases find_free_block_from_spec (ALIGN n) h.free_list 0 none (UINT32_MOD - 1) with
      ⟨h1, h2⟩ | ⟨j, b, h1, h2, h3, h4, h5, h6, h7⟩
    · exfalso
      apply hne
      simp [kmalloc, hn0, hinit, find_free_block, h1]
    · obtain ⟨b1, hb1, hb1a, _⟩ := split_block_get (ALIGN n) j h.free_list b h2
      have hset := set_is_free_get false j _ b1 hb1
      rw [hr] at h4 h6 h7
      refine ⟨j, b, { b1 with is_free := false }, h2, h3, h4, h6, h7, ?_, ?_, hb1a, rfl⟩
      · simp [kmalloc, hn0, hinit, find_free_block, h1, hb1, hb1a]
      · simp [kmalloc, hn0, hinit, find_free_block, h1, hb1]
        exact hset

theorem ALIGN_mod_eight (n : Nat) : ALIGN n % 8 = 0 := by
  unfold ALIGN ALIGN_SIZE
  exact Nat.mul_mod_left _ _

theorem tiles_le : ∀ (l : List mem_block_t) (a e : Nat), tiles a l e → a ≤ e := by
  intro l
  induction l with
  | nil => intro a e h; simp [tiles] at h; omega
  | cons b rest ih =>
    intro a e h
    have := ih _ _ h.2
    omega

theorem tiles_bound : ∀ (l : List mem_block_t) (a e : Nat), tiles a l e →
    ∀ b ∈ l, a ≤ b.addr ∧ b.addr + BLOCK_HEADER_SIZE + b.size ≤ e := by
  intro l
  induction l with
  | nil => intro a e _ b hb; simp at hb
  | cons c rest ih =>
    intro a e h b hb
    rcases List.mem_cons.mp hb with rfl | hb
    · have := tiles_le _ _ _ h.2
      have := h.1
      omega
    · have := ih _ _ h.2 b hb
      omega

theorem tiles_at_position (f : List mem_block_t → List mem_block_t) (e : Nat)
    (hf : ∀ (a : Nat) (l : List mem_block_t), tiles a l e → tiles a (f l) e) :
    ∀ (i : Nat) (l : List mem_block_t) (a : Nat), tiles a l e →
      tiles a (at_position f i l) e := by
  intro i
  induction i with
  | zero => intro l a h; exact hf a l h
  | succ n ih =>
    intro l a h
    cases l with
    | nil => exact h
    | cons b rest => exact ⟨h.1, ih rest _ h.2⟩

theorem tiles_set_is_free (v : Bool) (i : Nat) (l : List mem_block_t) (a e : Nat)
    (h : tiles a l e) : tiles a (set_is_free i v l) e := by
  apply tiles_at_position _ e _ i l a h
  intro a l h
  cases l with
  | nil => exact h
  | cons b rest => exact h

theorem tiles_merge_from : ∀ (rest : List mem_block_t) (c : mem_block_t) (a e : Nat),
    e ≤ UINT32_MOD → tiles a (c :: rest) e → tiles a (merge_from c rest) e := by
  intro rest
  induction rest with
  | nil => intro c a e _ h; exact h
  | cons n rest ih =>
    intro c a e he h
    simp only [merge_from]
    split
    · split
      · apply ih _ a e he
        obtain ⟨h1, h2, h3⟩ := h
        have hle := tiles_le _ _ _ h3
        have hmod : (c.size + BLOCK_HEADER_SIZE + n.size) % UINT32_MOD
            = c.size + BLOCK_HEADER_SIZE + n.size := by
          apply Nat.mod_eq_of_lt
          simp only [BLOCK_HEADER_SIZE] at *
          omega
        refine ⟨h1, ?_⟩
        simp only [hmod]
        have : a + BLOCK_HEADER_SIZE + (c.size + BLOCK_HEADER_SIZE + n.size)
            = a + BLOCK_HEADER_SIZE + c.size + BLOCK_HEADER_SIZE + n.size := by omega
        rw [this]
        exact h3
      · exact ⟨h.1, ih n _ e he h.2⟩
    · exact ⟨h.1, ih n _ e he h.2⟩

theorem tiles_merge_free_blocks (l : List mem_block_t) (a e : Nat) (he : e ≤ UINT32_MOD)
    (h : tiles a l e) : tiles a (merge_free_blocks l) e := by
  cases l with
  | nil => exact h
  | cons c rest => exact tiles_merge_from rest c a e he h

theorem tiles_split_block (r e : Nat) (hr : r % 8 = 0) (he : e ≤ UINT32_MOD) :
    ∀ (i : Nat) (l : List mem_block_t) (a : Nat) (b : mem_block_t), 8 ≤ a → tiles a l e →
      l[i]? = some b → r ≤ b.size → tiles a (split_block i r l) e := by
  intro i
  induction i with
  | zero =>
    intro l a b ha h hb hfit
    cases l with
    | nil => exact h
    | cons c rest =>
      simp at hb
      subst hb
      simp only [split_block, at_position, split_block_head]
      obtain ⟨h1, h2⟩ := h
      have hle := tiles_le _ _ _ h2
      simp only [BLOCK_HEADER_SIZE, ALIGN_SIZE, UINT32_MOD] at *
      have hwrap : (r + 12 + 8) % 2 ^ 32 = r + 12 + 8 := by
        apply Nat.mod_eq_of_lt
        omega
      rw [hwrap]
      split
      · rename_i hc
        have hsub : (c.size + 2 * 2 ^ 32 - r - 12) % 2 ^ 32 = c.size - r - 12 := by
          have : c.size + 2 * 2 ^ 32 - r - 12 = (c.size - r - 12) + 2 * 2 ^ 32 := by omega
          rw [this, Nat.add_mul_mod_self_right]
          apply Nat.mod_eq_of_lt
          omega
        refine ⟨h1, ?_, ?_⟩
        · show c.addr + 12 + r = a + 12 + r
          rw [h1]
        · show tiles (a + 12 + r + 12 + (c.size + 2 * 2 ^ 32 - r - 12) % 2 ^ 32) rest e
          rw [hsub]
          have : a + 12 + r + 12 + (c.size - r - 12) = a + 12 + c.size := by omega
          rw [this]
          exact h2
      · exact ⟨h1, h2⟩
  | succ n ih =>
    intro l a b ha h hb hfit
    cases l with
    | nil => exact h
    | cons c rest =>
      simp at hb
      exact ⟨h.1, ih rest _ b (by omega) h.2 hb hfit⟩

theorem tiles_nonempty (l : List mem_block_t) (a e : Nat) (h : tiles a l e) (hlt : a < e) :
    l ≠ [] := by
  intro hl
  subst hl
  simp [tiles] at h
  omega

theorem heap_tiled_start_lt (h : Heap) (ht : heap_tiled h) :
    h.heap_start < h.heap_start + h.heap_size := by
  obtain ⟨_, _, _, hne, htl⟩ := ht
  cases hl : h.free_list with
  | nil => exact absurd hl hne
  | cons b rest =>
    rw [hl] at htl
    have := tiles_le _ _ _ htl.2
    simp only [BLOCK_HEADER_SIZE] at this
    omega

theorem kmalloc_fields (n : Nat) (h : Heap) :
    (kmalloc n h).2.heap_start = h.heap_start ∧ (kmalloc n h).2.heap_size = h.heap_size ∧
    (kmalloc n h).2.bytes = h.bytes := by
  simp only [kmalloc]
  repeat' split
  all_goals exact ⟨rfl, rfl, rfl⟩

theorem kmalloc_tiled (n : Nat) (h : Heap) (ht : heap_tiled h) : heap_tiled (kmalloc n h).2 := by
  have hlt := heap_tiled_start_lt h ht
  obtain ⟨h0, h8, hsp, hne, htl⟩ := ht
  simp only [kmalloc]
  split
  · exact ⟨h0, h8, hsp, hne, htl⟩
  · split
    · exact ⟨h0, h8, hsp, hne, htl⟩
    · rename_i i hfind
      split
      · exact ⟨h0, h8, hsp, hne, htl⟩
      · have hnew : tiles h.heap_start
            (set_is_free i false (split_block i (ALIGN n) h.free_list))
            (h.heap_start + h.heap_size) := by
          apply tiles_set_is_free
          rcases find_free_block_from_spec (ALIGN n) h.free_list 0 none (UINT32_MOD - 1) with
            ⟨h1, _⟩ | ⟨j, b, h1, h2, _, h4, _, _, _⟩
          · simp only [find_free_block] at hfind
            rw [h1] at hfind
            cases hfind
          · simp only [find_free_block] at hfind
            rw [h1] at hfind
            simp only [Option.some.injEq] at hfind
            have hij : j = i := by omega
            subst hij
            exact tiles_split_block (ALIGN n) _ (ALIGN_mod_eight n) hsp j h.free_list
              h.heap_start b (by omega) htl h2 h4
        exact ⟨h0, h8, hsp, tiles_nonempty _ _ _ hnew hlt, hnew⟩

theorem kfree_fields (p : Nat) (h h2 : Heap) (hk : kfree p h = .ok h2) :
    h2.heap_start = h.heap_start ∧ h2.heap_size = h.heap_size ∧ h2.bytes = h.bytes := by
  simp only [kfree] at hk
  repeat' split at hk
  all_goals cases hk
  all_goals exact ⟨rfl, rfl, rfl⟩

theorem kfree_tiled (p : Nat) (h h2 : Heap) (hk : kfree p h = .ok h2) (ht : heap_tiled h) :
    heap_tiled h2 := by
  have hlt := heap_tiled_start_lt h ht
  obtain ⟨h0, h8, hsp, hne, htl⟩ := ht
  simp only [kfree] at hk
  repeat' split at hk
  all_goals cases hk
  all_goals first
    | exact ⟨h0, h8, hsp, hne, htl⟩
    | (rename_i i _ _ _ _ _
       have hnew := tiles_merge_free_blocks _ _ _ hsp
         (tiles_set_is_free true i h.free_list _ _ htl)
       exact ⟨h0, h8, hsp, tiles_nonempty _ _ _ hnew hlt, hnew⟩)

theorem outcome_map_ok {α β : Type} (x : Outcome α) (f : α → β) (y : β)
    (h : x.map f = .ok y) : ∃ v, x = .ok v ∧ f v = y := by
  cases x with
  | ok v => exact ⟨v, rfl, by simpa [Outcome.map] using h⟩
  | fault e => simp [Outcome.map] at h

theorem krealloc_tiled (p n q : Nat) (h h2 : Heap) (hk : krealloc p n h = .ok (q, h2))
    (ht : heap_tiled h) : heap_tiled h2 := by
  simp only [krealloc] at hk
  split at hk
  · simp only [Outcome.ok.injEq] at hk
    have : h2 = (kmalloc n h).2 := by rw [hk]
    rw [this]
    exact kmalloc_tiled n h ht
  · split at hk
    · obtain ⟨h3, hf, he⟩ := outcome_map_ok _ _ _ hk
      simp only [Prod.mk.injEq] at he
      rw [← he.2]
      exact kfree_tiled p h h3 hf ht
    · repeat' split at hk
      all_goals first
        | (cases hk; done)
        | (cases hk; exact ht)
        | (cases hk; exact kmalloc_tiled n h ht)
        | (obtain ⟨h3, hf, he⟩ := outcome_map_ok _ _ _ hk
           simp only [Prod.mk.injEq] at he
           rw [← he.2]
           refine kfree_tiled p _ h3 hf ?_
           have h1t := kmalloc_tiled n h ht
           exact h1t)

theorem tiles_sum : ∀ (l : List mem_block_t) (a e : Nat), tiles a l e →
    a + (free_bytes l + used_bytes l + BLOCK_HEADER_SIZE * l.length) = e := by
  intro l
  induction l with
  | nil => intro a e h; simpa [tiles, free_bytes, used_bytes] using h
  | cons b rest ih =>
    intro a e h
    have := ih _ _ h.2
    simp only [free_bytes, used_bytes, List.length_cons]
    split <;> simp only [BLOCK_HEADER_SIZE] at * <;> omega

theorem tiles_pairwise : ∀ (l : List mem_block_t) (a e : Nat), tiles a l e →
    l.Pairwise (fun x y => x.addr < y.addr) := by
  intro l
  induction l with
  | nil => intro a e _; exact List.Pairwise.nil
  | cons b rest ih =>
    intro a e h
    refine List.Pairwise.cons ?_ (ih _ _ h.2)
    intro c hc
    have := (tiles_bound _ _ _ h.2 c hc).1
    have := h.1
    simp only [BLOCK_HEADER_SIZE] at *
    omega

theorem krealloc_fields (p n q : Nat) (h h2 : Heap) (hk : krealloc p n h = .ok (q, h2)) :
    h2.heap_start = h.heap_start ∧ h2.heap_size = h.heap_size := by
  have hm := kmalloc_fields n h
  simp only [krealloc] at hk
  split at hk
  · simp only [Outcome.ok.injEq] at hk
    have : h2 = (kmalloc n h).2 := by rw [hk]
    rw [this]
    exact ⟨hm.1, hm.2.1⟩
  · split at hk
    · obtain ⟨h3, hf, he⟩ := outcome_map_ok _ _ _ hk
      simp only [Prod.mk.injEq] at he
      rw [← he.2]
      have := kfree_fields p h h3 hf
      exact ⟨this.1, this.2.1⟩
    · repeat' split at hk
      all_goals first
        | (cases hk; done)
        | (cases hk; exact ⟨rfl, rfl⟩)
        | (cases hk; exact ⟨hm.1, hm.2.1⟩)
        | (obtain ⟨h3, hf, he⟩ := outcome_map_ok _ _ _ hk
           simp only [Prod.mk.injEq] at he
           rw [← he.2]
           have := kfree_fields p _ h3 hf
           exact ⟨this.1.trans hm.1, this.2.1.trans hm.2.1⟩)

/-- The tiling invariant holds in every reachable allocator state. -/
theorem heap_reachable_tiled (base size : Nat) (h : Heap) (hb0 : 0 < base)
    (hb8 : base % 8 = 0) (hs : BLOCK_HEADER_SIZE ≤ size) (hsp : base + size ≤ UINT32_MOD)
    (hr : heap_reachable base size h) :
    heap_tiled h ∧ h.heap_start = base ∧ h.heap_size = size := by
  induction hr with
  | init h0 h1 hi =>
    simp only [mem_init] at hi
    split at hi
    · cases hi
    · cases hi
      refine ⟨⟨hb0, hb8, hsp, by simp, ?_⟩, rfl, rfl⟩
      simp only [tiles, BLOCK_HEADER_SIZE, UINT32_MOD] at *
      refine ⟨trivial, ?_⟩
      have : (size + 2 ^ 32 - 12) % 2 ^ 32 = size - 12 := by
        have : size + 2 ^ 32 - 12 = (size - 12) + 2 ^ 32 := by omega
        rw [this, Nat.add_mod_right]
        apply Nat.mod_eq_of_lt
        omega
      rw [this]
      omega
  | malloc h1 n _ ih =>
    have hf := kmalloc_fields n h1
    exact ⟨kmalloc_tiled n h1 ih.1, hf.1.trans ih.2.1, hf.2.1.trans ih.2.2⟩
  | free h1 h2 p _ hk ih =>
    have hf := kfree_fields p h1 h2 hk
    exact ⟨kfree_tiled p h1 h2 hk ih.1, hf.1.trans ih.2.1, hf.2.1.trans ih.2.2⟩
  | realloc h1 h2 p n q _ hk ih =>
    have ht := krealloc_tiled p n q h1 h2 hk ih.1
    have hf := krealloc_fields p n q h1 h2 hk
    exact ⟨ht, hf.1.trans ih.2.1, hf.2.trans ih.2.2⟩

/-- Conservation as long as no `krealloc` copies past its new block: in every
state reached from `mem_init(base, size)` by `kmalloc`, `kfree` and `krealloc`
calls that return without a fault, for an 8-byte aligned non-null `base`, `size` at least the
header size and the region inside the 32-bit address space, the block list is
non-empty, tiles the region from `base` to `base + size`, is in strictly
increasing address order, and free sizes + in-use sizes + header size times the
number of blocks equals `size`. -/
theorem heap_reachable_conservation (base size : Nat) (h : Heap) (hb0 : 0 < base)
    (hb8 : base % 8 = 0) (hs : BLOCK_HEADER_SIZE ≤ size) (hsp : base + size ≤ UINT32_MOD)
    (hr : heap_reachable base size h) :
    h.free_list ≠ [] ∧ tiles base h.free_list (base + size) ∧
    h.free_list.Pairwise (fun x y => x.addr < y.addr) ∧
    free_bytes h.free_list + used_bytes h.free_list + BLOCK_HEADER_SIZE * h.free_list.length
      = size := by
  obtain ⟨⟨_, _, _, hne, ht⟩, h1, h2⟩ := heap_reachable_tiled base size h hb0 hb8 hs hsp hr
  rw [h1, h2] at ht
  have hsum := tiles_sum _ _ _ ht
  exact ⟨hne, ht, tiles_pairwise _ _ _ ht, by omega⟩

/-- Conservation on the heap of `kmain` after `p1 = alloc(100)`,
`p2 = alloc(200)`, `free(p1)`. -/
theorem heap_reachable_conservation_example :
    tiles 1048576 heap_after_free_p1.free_list (1048576 + HEAP_SIZE) ∧
    free_bytes heap_after_free_p1.free_list + used_bytes heap_after_free_p1.free_list
      + BLOCK_HEADER_SIZE * heap_after_free_p1.free_list.length = HEAP_SIZE := by
  have hr : heap_reachable 1048576 HEAP_SIZE heap_after_free_p1 :=
    heap_reachable.free (kmalloc 200 (kmalloc 100 heap_boot).2).2 _ (kmalloc 100 heap_boot).1
      (heap_reachable.malloc _ 200 (heap_reachable.malloc _ 100
        (heap_reachable.init (heap_unset fun _ => 0) heap_boot rfl))) rfl
  have h := heap_reachable_conservation 1048576 HEAP_SIZE heap_after_free_p1 (by decide)
    (by decide) (by decide) (by decide) hr
  exact ⟨h.2.1, h.2.2.2⟩

theorem memcpy_below : ∀ (len d s : Nat) (m : Nat → Nat) (a : Nat), a < d →
    memcpy d s len m a = m a := by
  intro len
  induction len with
  | zero => intro d s m a _; rfl
  | succ n ih =>
    intro d s m a ha
    simp only [memcpy]
    rw [ih (d + 1) (s + 1) _ a (by omega)]
    simp [upd]
    omega

theorem memcpy_copies : ∀ (len d s : Nat) (m : Nat → Nat), (d ≤ s ∨ s + len ≤ d) →
    ∀ k, k < len → memcpy d s len m (d + k) = m (s + k) := by
  intro len
  induction len with
  | zero => intro d s m _ k hk; omega
  | succ n ih =>
    intro d s m hds k hk
    simp only [memcpy]
    cases k with
    | zero =>
      show memcpy (d + 1) (s + 1) n (upd m d (m s)) d = m s
      rw [memcpy_below n (d + 1) (s + 1) _ d (by omega)]
      simp [upd]
    | succ k2 =>
      have := ih (d + 1) (s + 1) (upd m d (m s)) (by omega) k2 (by omega)
      have e1 : d + (k2 + 1) = d + 1 + k2 := by omega
      have e2 : s + (k2 + 1) = s + 1 + k2 := by omega
      rw [e1, e2, this]
      simp only [upd]
      rw [if_neg (by omega)]

theorem block_at_of_pairwise : ∀ (l : List mem_block_t) (i : Nat) (b : mem_block_t),
    l.Pairwise (fun x y => x.addr < y.addr) → l[i]? = some b → block_at b.addr l = some i := by
  intro l
  induction l with
  | nil => intro i b _ hb; simp at hb
  | cons c rest ih =>
    intro i b hp hb
    cases i with
    | zero =>
      simp at hb
      subst hb
      simp [block_at]
    | succ n =>
      simp at hb
      have hc := List.rel_of_pairwise_cons hp (List.getElem?_mem hb)
      simp only [block_at]
      rw [if_neg (by omega), ih n b (List.Pairwise.of_cons hp) hb]
      rfl

theorem tiles_get_lt : ∀ (l : List mem_block_t) (a e i j : Nat) (b c : mem_block_t),
    tiles a l e → l[i]? = some b → l[j]? = some c → i < j →
    b.addr + BLOCK_HEADER_SIZE + b.size ≤ c.addr := by
  intro l
  induction l with
  | nil => intro a e i j b c _ hb; simp at hb
  | cons d rest ih =>
    intro a e i j b c ht hb hc hij
    cases j with
    | zero => omega
    | succ j2 =>
      simp at hc
      cases i with
      | zero =>
        simp at hb
        subst hb
        have := (tiles_bound _ _ _ ht.2 c (List.getElem?_mem hc)).1
        have := ht.1
        omega
      | succ i2 =>
        simp at hb
        exact ih _ e i2 j2 b c ht.2 hb hc (by omega)

theorem mem_split_block (r : Nat) : ∀ (j : Nat) (l : List mem_block_t) (b : mem_block_t),
    b ∈ l → (∀ c, l[j]? = some c → c ≠ b) → b ∈ split_block j r l := by
  intro j
  induction j with
  | zero =>
    intro l b hb hne
    cases l with
    | nil => simp at hb
    | cons c rest =>
      have hcb : c ≠ b := hne c (by simp)
      rcases List.mem_cons.mp hb with rfl | hb
      · exact absurd rfl hcb
      · simp only [split_block, at_position, split_block_head]
        split <;> simp [hb]
  | succ n ih =>
    intro l b hb hne
    cases l with
    | nil => simp at hb
    | cons c rest =>
      simp only [split_block, at_position]
      rcases List.mem_cons.mp hb with rfl | hb
      · simp
      · exact List.mem_cons_of_mem _ (ih rest b hb (by intro c hc; exact hne c (by simpa using hc)))

theorem mem_set_is_free (v : Bool) : ∀ (j : Nat) (l : List mem_block_t) (b : mem_block_t),
    b ∈ l → (∀ c, l[j]? = some c → c ≠ b) → b ∈ set_is_free j v l := by
  intro j
  induction j with
  | zero =>
    intro l b hb hne
    cases l with
    | nil => simp at hb
    | cons c rest =>
      have hcb : c ≠ b := hne c (by simp)
      rcases List.mem_cons.mp hb with rfl | hb
      · exact absurd rfl hcb
      · simp [set_is_free, at_position, set_is_free_head, hb]
  | succ n ih =>
    intro l b hb hne
    cases l with
    | nil => simp at hb
    | cons c rest =>
      simp only [set_is_free, at_position]
      rcases List.mem_cons.mp hb with rfl | hb
      · simp
      · exact List.mem_cons_of_mem _ (ih rest b hb (by intro c hc; exact hne c (by simpa using hc)))

theorem set_is_free_true_at (l : List mem_block_t) :
    ∀ (i : Nat) (b : mem_block_t), l.Pairwise (fun x y => x.addr < y.addr) →
      l[i]? = some b → ∀ c ∈ set_is_free i true l, c.addr = b.addr → c.is_free = true := by
  induction l with
  | nil => intro i b _ hb; simp at hb
  | cons d rest ih =>
    intro i b hp hb c hc hca
    cases i with
    | zero =>
      simp at hb
      subst hb
      simp only [set_is_free, at_position, set_is_free_head] at hc
      rcases List.mem_cons.mp hc with rfl | hc
      · rfl
      · have := List.rel_of_pairwise_cons hp hc
        omega
    | succ n =>
      simp at hb
      simp only [set_is_free, at_position] at hc
      rcases List.mem_cons.mp hc with rfl | hc
      · have := List.rel_of_pairwise_cons hp (List.getElem?_mem hb)
        omega
      · exact ih n b (List.Pairwise.of_cons hp) hb c hc hca

theorem merge_from_mem : ∀ (rest : List mem_block_t) (cur : mem_block_t),
    ∀ c ∈ merge_from cur rest, ∃ c0 ∈ cur :: rest, c.addr = c0.addr ∧ c.is_free = c0.is_free := by
  intro rest
  induction rest with
  | nil =>
    intro cur c hc
    simp only [merge_from, List.mem_singleton] at hc
    subst hc
    exact ⟨c, by simp, rfl, rfl⟩
  | cons n rest ih =>
    intro cur c hc
    simp only [merge_from] at hc
    split at hc
    · split at hc
      · obtain ⟨c0, hc0, h1, h2⟩ := ih _ c hc
        rcases List.mem_cons.mp hc0 with rfl | hc0
        · exact ⟨cur, by simp, h1, h2⟩
        · exact ⟨c0, by simp [hc0], h1, h2⟩
      · rcases List.mem_cons.mp hc with rfl | hc
        · exact ⟨c, by simp, rfl, rfl⟩
        · obtain ⟨c0, hc0, h1, h2⟩ := ih _ c hc
          exact ⟨c0, List.mem_cons_of_mem _ hc0, h1, h2⟩
    · rcases List.mem_cons.mp hc with rfl | hc
      · exact ⟨c, by simp, rfl, rfl⟩
      · obtain ⟨c0, hc0, h1, h2⟩ := ih _ c hc
        exact ⟨c0, List.mem_cons_of_mem _ hc0, h1, h2⟩

theorem merge_free_blocks_mem (l : List mem_block_t) :
    ∀ c ∈ merge_free_blocks l, ∃ c0 ∈ l, c.addr = c0.addr ∧ c.is_free = c0.is_free := by
  cases l with
  | nil => intro c hc; simp [merge_free_blocks] at hc
  | cons d rest => exact merge_from_mem rest d

theorem kmalloc_nonnull (n : Nat) (h : Heap) (hq : (kmalloc n h).1 ≠ 0) :
    ∃ (j : Nat) (c : mem_block_t), h.free_list[j]? = some c ∧ c.is_free = true ∧
      (kmalloc n h).1 = c.addr + BLOCK_HEADER_SIZE ∧
      (kmalloc n h).2.free_list
        = set_is_free j false (split_block j (ALIGN n) h.free_list) := by
  by_cases h0 : n = 0 ∨ h.heap_start = 0
  · simp [kmalloc, h0] at hq
  · rcases find_free_block_from_spec (ALIGN n) h.free_list 0 none (UINT32_MOD - 1) with
      ⟨h1, _⟩ | ⟨j, b, h1, h2, h3, _, _, _, _⟩
    · simp [kmalloc, h0, find_free_block, h1] at hq
    · obtain ⟨b1, hb1, hb1a, _⟩ := split_block_get (ALIGN n) j h.free_list b h2
      refine ⟨j, b, h2, h3, ?_, ?_⟩
      · simp [kmalloc, h0, find_free_block, h1, hb1, hb1a]
      · simp [kmalloc, h0, find_free_block, h1, hb1]

theorem kmalloc_null_state (n : Nat) (h : Heap) (hq : (kmalloc n h).1 = 0) :
    (kmalloc n h).2 = h := by
  by_cases h0 : n = 0 ∨ h.heap_start = 0
  · simp [kmalloc, h0]
  · rcases find_free_block_from_spec (ALIGN n) h.free_list 0 none (UINT32_MOD - 1) with
      ⟨h1, _⟩ | ⟨j, b, h1, h2, h3, _, _, _, _⟩
    · simp [kmalloc, h0, find_free_block, h1]
    · obtain ⟨b1, hb1, hb1a, _⟩ := split_block_get (ALIGN n) j h.free_list b h2
      exfalso
      simp [kmalloc, h0, find_free_block, h1, hb1, hb1a, BLOCK_HEADER_SIZE] at hq

theorem kfree_of_block (h : Heap) (b : mem_block_t) (ht : heap_tiled h)
    (hb : b ∈ h.free_list) :
    ∃ h2, kfree (b.addr + BLOCK_HEADER_SIZE) h = .ok h2 ∧ h2.bytes = h.bytes ∧
      ∀ c ∈ h2.free_list, c.addr = b.addr → c.is_free = true := by
  obtain ⟨h0, _, _, _, htl⟩ := ht
  have hp := tiles_pairwise _ _ _ htl
  obtain ⟨i, hi⟩ := List.getElem?_of_mem hb
  have hat := block_at_of_pairwise _ i b hp hi
  have hne : ¬(b.addr + BLOCK_HEADER_SIZE = 0 ∨ h.heap_start = 0) := by
    simp only [BLOCK_HEADER_SIZE]; omega
  have hlt : ¬(b.addr + BLOCK_HEADER_SIZE < BLOCK_HEADER_SIZE) := by omega
  have hk : kfree (b.addr + BLOCK_HEADER_SIZE) h = .ok { h with
      free_list := merge_free_blocks (set_is_free i true h.free_list)
      total_allocated :=
        if b.size ≤ h.total_allocated then h.total_allocated - b.size else 0 } := by
    simp only [kfree, if_neg hne, if_neg hlt, Nat.add_sub_cancel, hat, hi]
  refine ⟨_, hk, rfl, ?_⟩
  intro c hc hca
  obtain ⟨c0, hc0, h1, h2⟩ := merge_free_blocks_mem _ c hc
  rw [h2]
  exact set_is_free_true_at _ i b hp hi c0 hc0 (by omega)

theorem payload_size_of_pairwise : ∀ (l : List mem_block_t) (i : Nat) (b : mem_block_t),
    l.Pairwise (fun x y => x.addr < y.addr) → l[i]? = some b →
    payload_size (b.addr + BLOCK_HEADER_SIZE) l = b.size := by
  intro l
  induction l with
  | nil => intro i b _ hb; simp at hb
  | cons c rest ih =>
    intro i b hp hb
    cases i with
    | zero =>
      simp at hb
      subst hb
      simp [payload_size]
    | succ n =>
      simp at hb
      have hlt : c.addr < b.addr := (List.pairwise_cons.mp hp).1 b (List.getElem?_mem hb)
      have hne : ¬ (c.addr + BLOCK_HEADER_SIZE = b.addr + BLOCK_HEADER_SIZE) := by omega
      simp only [payload_size, hne, if_false]
      exact ih n b (List.pairwise_cons.mp hp).2 hb

theorem split_block_get_size (r : Nat) :
    ∀ (i : Nat) (l : List mem_block_t) (b : mem_block_t), l[i]? = some b → r ≤ b.size →
      ∃ b1, (split_block i r l)[i]? = some b1 ∧ b1.addr = b.addr ∧ r ≤ b1.size := by
  intro i
  induction i with
  | zero =>
    intro l b hb hr
    cases l with
    | nil => simp at hb
    | cons c rest =>
      simp at hb
      subst hb
      simp only [split_block, at_position, split_block_head]
      split <;> simp [hr]
  | succ n ih =>
    intro l b hb hr
    cases l with
    | nil => simp at hb
    | cons c rest =>
      simp at hb
      simpa [split_block, at_position] using ih rest b hb hr

/-- The block that `kmalloc(n)` returns holds at least the aligned request,
which is at least `n` when `n ≤ 2^32 - 8`. -/
theorem kmalloc_payload_size (n : Nat) (h : Heap) (ht : heap_tiled h)
    (hq : (kmalloc n h).1 ≠ 0) :
    ALIGN n ≤ payload_size (kmalloc n h).1 (kmalloc n h).2.free_list := by
  have ht1 := kmalloc_tiled n h ht
  have hpw := tiles_pairwise _ _ _ ht1.2.2.2.2
  have hn0 : n ≠ 0 := by
    intro h0
    apply hq
    simp [kmalloc, h0]
  have hinit : h.heap_start ≠ 0 := by
    have := ht.1
    omega
  rcases find_free_block_from_spec (ALIGN n) h.free_list 0 none (UINT32_MOD - 1) with
    ⟨h1, _⟩ | ⟨j, b, h1, h2, _, h4, _, _, _⟩
  · exfalso
    apply hq
    simp [kmalloc, hn0, hinit, find_free_block, h1]
  · obtain ⟨b1, hb1, hb1a, hb1s⟩ := split_block_get_size (ALIGN n) j h.free_list b h2 h4
    have hk : (kmalloc n h).1 = b1.addr + BLOCK_HEADER_SIZE := by
      simp [kmalloc, hn0, hinit, find_free_block, h1, hb1]
    have hl : (kmalloc n h).2.free_list
        = set_is_free j false (split_block j (ALIGN n) h.free_list) := by
      simp [kmalloc, hn0, hinit, find_free_block, h1, hb1]
    have hget := set_is_free_get false j _ b1 hb1
    rw [← hl] at hget
    have := payload_size_of_pairwise _ j _ hpw hget
    simp only at this
    rw [hk, this]
    exact hb1s

theorem le_ALIGN (n : Nat) (hn : n ≤ 2 ^ 32 - 8) : n ≤ ALIGN n := by
  rw [ALIGN_eq_round_up n hn]
  omega

/-- The case split of `krealloc` on a tiled heap, for the payload pointer `p` of
an in-use block `b`: `krealloc(NULL, n)` is `kmalloc(n)`; `krealloc(p, 0)` frees
`p` and returns `NULL`; for `0 < n ≤ b.size` it returns `p` and leaves the state
unchanged; for `b.size < n ≤ 2^32 - 8`, when `kmalloc(n)` succeeds it returns
that pointer `q ≠ p`, the first `b.size` bytes at `q` are the former bytes at
`p`, and no in-use block is left at `p`; when `kmalloc(n)` fails it returns
`NULL` and leaves the state (block list and bytes) unchanged. -/
theorem krealloc_cases (h : Heap) (p n i : Nat) (b : mem_block_t) (ht : heap_tiled h)
    (hi : h.free_list[i]? = some b) (hu : b.is_free = false)
    (hp : p = b.addr + BLOCK_HEADER_SIZE) :
    krealloc 0 n h = .ok (kmalloc n h) ∧
    (∃ h2, kfree p h = .ok h2 ∧ krealloc p 0 h = .ok (0, h2) ∧
      ∀ c ∈ h2.free_list, c.addr + BLOCK_HEADER_SIZE = p → c.is_free = true) ∧
    (0 < n → n ≤ b.size → krealloc p n h = .ok (p, h)) ∧
    (b.size < n → n ≤ 2 ^ 32 - 8 → (kmalloc n h).1 ≠ 0 → ∃ h2,
      krealloc p n h = .ok ((kmalloc n h).1, h2) ∧ (kmalloc n h).1 ≠ p ∧
      (∀ k, k < b.size → h2.bytes ((kmalloc n h).1 + k) = h.bytes (p + k)) ∧
      (∀ c ∈ h2.free_list, c.addr + BLOCK_HEADER_SIZE = p → c.is_free = true)) ∧
    (b.size < n → (kmalloc n h).1 = 0 → krealloc p n h = .ok (0, h)) := by
  have hmem := List.getElem?_mem hi
  have hp0 : p ≠ 0 := by simp only [hp, BLOCK_HEADER_SIZE]; omega
  have hplt : ¬(p < BLOCK_HEADER_SIZE) := by omega
  have hpw := tiles_pairwise _ _ _ ht.2.2.2.2
  have hat : block_at (p - BLOCK_HEADER_SIZE) h.free_list = some i := by
    rw [hp, Nat.add_sub_cancel]
    exact block_at_of_pairwise _ i b hpw hi
  refine ⟨by simp [krealloc], ?_, ?_, ?_, ?_⟩
  · obtain ⟨h2, hk, _, hfree⟩ := kfree_of_block h b ht hmem
    rw [← hp] at hk
    refine ⟨h2, hk, by simp [krealloc, hp0, hk, Outcome.map], ?_⟩
    intro c hc hca
    exact hfree c hc (by omega)
  · intro hn hle
    have hn0 : n ≠ 0 := by omega
    simp [krealloc, hp0, hn0, hplt, hat, hi, hle]
  · intro hlt hn2 hq
    have hn0 : n ≠ 0 := by omega
    have hroom : ¬ payload_size (kmalloc n h).1 (kmalloc n h).2.free_list < b.size := by
      have h1 := kmalloc_payload_size n h ht hq
      have h2 := le_ALIGN n hn2
      omega
    obtain ⟨j, c, hj, hcf, hqa, hl1⟩ := kmalloc_nonnull n h hq
    have hij : i ≠ j := by
      intro hij
      subst hij
      rw [hi] at hj
      cases hj
      rw [hu] at hcf
      cases hcf
    have hbytes := (kmalloc_fields n h).2.2
    have ht1 := kmalloc_tiled n h ht
    -- the block of `p` is still in the list after `kmalloc`
    have hb1 : b ∈ (kmalloc n h).2.free_list := by
      rw [hl1]
      apply mem_set_is_free
      · apply mem_split_block _ _ _ _ hmem
        intro c2 hc2 hcb
        rw [hj] at hc2
        cases hc2
        rw [hcb, hu] at hcf
        cases hcf
      · intro c2 hc2 hcb
        obtain ⟨b1, hb1, _, hb1f⟩ := split_block_get (ALIGN n) j h.free_list c hj
        rw [hb1] at hc2
        cases hc2
        rw [hcb, hu, hcf] at hb1f
        cases hb1f
    have hdis : (kmalloc n h).1 ≤ p ∨ p + b.size ≤ (kmalloc n h).1 := by
      rcases Nat.lt_or_gt_of_ne hij with hlt2 | hgt
      · right
        have := tiles_get_lt _ _ _ i j b c ht.2.2.2.2 hi hj hlt2
        omega
      · left
        have := tiles_get_lt _ _ _ j i c b ht.2.2.2.2 hj hi hgt
        omega
    have hqp : (kmalloc n h).1 ≠ p := by
      rcases Nat.lt_or_gt_of_ne hij with hlt2 | hgt
      · have := tiles_get_lt _ _ _ i j b c ht.2.2.2.2 hi hj hlt2
        simp only [BLOCK_HEADER_SIZE] at *
        omega
      · have := tiles_get_lt _ _ _ j i c b ht.2.2.2.2 hj hi hgt
        simp only [BLOCK_HEADER_SIZE] at *
        omega
    obtain ⟨h2, hk, hkb, hfree⟩ := kfree_of_block
      { (kmalloc n h).2 with bytes := memcpy (kmalloc n h).1 p b.size (kmalloc n h).2.bytes } b
      ht1 hb1
    rw [← hp] at hk
    refine ⟨h2, ?_, hqp, ?_, ?_⟩
    · simp [krealloc, hp0, hn0, hplt, hat, hi, Nat.not_le.mpr hlt, hq, hlt, hroom, hk,
        Outcome.map]
    · intro k hk2
      rw [hkb]
      show memcpy (kmalloc n h).1 p b.size (kmalloc n h).2.bytes ((kmalloc n h).1 + k) = _
      rw [memcpy_copies b.size _ p _ hdis k hk2, hbytes]
    · intro c2 hc2 hca
      exact hfree c2 hc2 (by omega)
  · intro hlt hq
    have hn0 : n ≠ 0 := by omega
    have hst := kmalloc_null_state n h hq
    simp [krealloc, hp0, hn0, hplt, hat, hi, Nat.not_le.mpr hlt, hq, hst]

/-- With `p1` and `p2` live, `krealloc(p1, 50)` returns `p1` and changes
nothing. -/
theorem krealloc_cases_example :
    krealloc 1048588 50 heap_two_live = .ok (1048588, heap_two_live) := by
  have hr : heap_reachable 1048576 HEAP_SIZE heap_two_live :=
    heap_reachable.malloc _ 200 (heap_reachable.malloc _ 100
      (heap_reachable.init (heap_unset fun _ => 0) heap_boot rfl))
  have ht := (heap_reachable_tiled 1048576 HEAP_SIZE heap_two_live (by decide) (by decide)
    (by decide) (by decide) hr).1
  exact (krealloc_cases heap_two_live 1048588 50 0 ⟨1048576, 104, false⟩ ht (by decide)
    rfl (by decide)).2.2.1 (by decide) (by decide)

/-- C17, evaluated at the failing input: with `p1 = kmalloc(100)` and
`p2 = kmalloc(200)` live, `krealloc(p1, 0xFFFFFFFF)` rounds the request to 0;
`kmalloc` splits a block of 0 bytes off the free remainder and returns its
payload address 1048916, which is the address of the header of the new
remainder, the last block of the list.  The copy of the 104 bytes of `p1` to
that address does not fit the block, whose payload has 0 bytes: it runs over
the last header. -/
theorem c17_realloc_copies_over_last_header :
    heap_two_live.free_list
      = [⟨1048576, 104, false⟩, ⟨1048692, 200, false⟩, ⟨1048904, 1048236, true⟩]
    ∧ (kmalloc 100 heap_boot).1 = 1048588
    ∧ ALIGN 4294967295 = 0
    ∧ (kmalloc 4294967295 heap_two_live).1 = 1048916
    ∧ (kmalloc 4294967295 heap_two_live).2.free_list
      = [⟨1048576, 104, false⟩, ⟨1048692, 200, false⟩, ⟨1048904, 0, false⟩,
          ⟨1048916, 1048224, true⟩]
    ∧ payload_size 1048916 (kmalloc 4294967295 heap_two_live).2.free_list = 0
    ∧ krealloc 1048588 4294967295 heap_two_live = .fault .out_of_bounds := by
  exact ⟨by decide, by decide, by decide, by decide, by decide, by decide, rfl⟩

/-- C20, evaluated at the failing input: with `p1` live in a block of 104 bytes
on the heap of 1 MiB, no block of `2^32 - 8` bytes or more can be allocated.  For
the request `2^32 - 8`, `kmalloc` fails and `krealloc` returns `NULL` and leaves
the state unchanged.  For the requests `2^32 - 7` and `2^32 - 1`, `kmalloc`
returns the non-null 1048916, the payload address of a block of 0 bytes, and
`krealloc` copies the 104 bytes of `p1` past the end of that block. -/
theorem c20_realloc_of_wrapping_size_overruns :
    krealloc 1048588 4294967288 heap_two_live = .ok (0, heap_two_live)
    ∧ ((kmalloc 4294967289 heap_two_live).1,
        payload_size (kmalloc 4294967289 heap_two_live).1
          (kmalloc 4294967289 heap_two_live).2.free_list) = (1048916, 0)
    ∧ krealloc 1048588 4294967289 heap_two_live = .fault .out_of_bounds
    ∧ ((kmalloc 4294967295 heap_two_live).1,
        payload_size (kmalloc 4294967295 heap_two_live).1
          (kmalloc 4294967295 heap_two_live).2.free_list) = (1048916, 0)
    ∧ krealloc 1048588 4294967295 heap_two_live = .fault .out_of_bounds := by
  exact ⟨rfl, by decide, rfl, by decide, rfl⟩

/-- Witness of C16, scenario 5 of the specification: after `p1 = alloc(100)`,
`p2 = alloc(200)`, `free(p1)`, the call `alloc(50)` returns `p1`. -/
theorem c16_best_fit_witness :
    (kmalloc 50 heap_after_free_p1).1 = (kmalloc 100 heap_boot).1 ∧
    ((kmalloc 50 heap_after_free_p1).1 = 0 ↔
      ∀ b ∈ heap_after_free_p1.free_list, ¬(b.is_free = true ∧ (50 + 7) / 8 * 8 ≤ b.size)) :=
  ⟨by decide,
    (c16_best_fit heap_after_free_p1 50 (by decide) (by decide) (by decide) (by decide)).1⟩

/-- C18, evaluated at the failing input: after `p1 = kmalloc(100)`,
`p2 = kmalloc(200)`, `kfree(p1)`, `kmalloc(90)` takes the 104-byte block whole
and counts 96 bytes for it: used is 296, there are 3 blocks, 1048236 bytes are
free, and the three terms add up to 1048568, not to the total 1048576. -/
theorem c18_statistics_miss_unsplit_slack :
    mem_get_used (kmalloc 90 heap_after_free_p1).2 = 296
    ∧ (kmalloc 90 heap_after_free_p1).2.free_list.length = 3
    ∧ mem_get_free (kmalloc 90 heap_after_free_p1).2 = 1048236
    ∧ mem_get_total (kmalloc 90 heap_after_free_p1).2 = 1048576
    ∧ mem_get_used (kmalloc 90 heap_after_free_p1).2
        + BLOCK_HEADER_SIZE * (kmalloc 90 heap_after_free_p1).2.free_list.length
        + mem_get_free (kmalloc 90 heap_after_free_p1).2
      ≠ mem_get_total (kmalloc 90 heap_after_free_p1).2 := by
  exact ⟨by decide, by decide, by decide, by decide, by decide⟩

/-- C19, evaluated at the failing input: on the page-aligned heap of `kmain` the
first `kmalloc` returns `heap_start + 12`, which is 4 modulo 8. -/
theorem c19_first_payload_not_aligned :
    heap_boot.heap_start % 4096 = 0
    ∧ (kmalloc 100 heap_boot).1 = heap_boot.heap_start + 12
    ∧ (kmalloc 100 heap_boot).1 % 8 = 4 := by
  exact ⟨by decide, by decide, by decide⟩

/-! ## Message queue -/

theorem sem_wait_call_positive (k : Kernel) (s timeout_ms : Nat)
    (hv : (k.sems s).valid = true) (hc : 0 < (k.sems s).count) :
    sem_wait_call (some s) timeout_ms k
      = .ok (.returned SUCCESS, k.with_count s ((k.sems s).count - 1)) := by
  simp only [sem_wait_call, sem_wait_enter_positive k s timeout_ms hv hc]
  rfl

theorem sem_wait_enter_zero (k k2 : Kernel) (s timeout_ms : Nat) (code : Int)
    (hv : (k.sems s).valid = true) (hc : (k.sems s).count = 0)
    (h : sem_wait_enter (some s) timeout_ms k = .ok (.returned code, k2)) :
    code = ERROR ∧ k2 = { k with preemption_enabled := true } := by
  cases hcur : k.task_current with
  | none =>
    simp [sem_wait_enter, hv, hc, scheduler_disable_preemption, scheduler_enable_preemption,
      task_get_current, hcur] at h
    exact ⟨h.1.symm, h.2.symm⟩
  | some cur =>
    simp only [sem_wait_enter, hv, hc, scheduler_disable_preemption,
      scheduler_enable_preemption, task_get_current, hcur] at h
    simp at h
    repeat' split at h
    all_goals cases h

theorem sem_wait_call_zero (k k2 : Kernel) (s timeout_ms : Nat) (code : Int)
    (hv : (k.sems s).valid = true) (hc : (k.sems s).count = 0)
    (h : sem_wait_call (some s) timeout_ms k = .ok (.returned code, k2)) :
    code = ERROR ∧ k2 = { k with preemption_enabled := true } := by
  simp only [sem_wait_call] at h
  split at h
  · cases h
  · rename_i c k3 he
    cases h
    exact sem_wait_enter_zero k k2 s timeout_ms code hv hc he
  · split at h <;> cases h

theorem sem_post_no_waiter (k : Kernel) (s : Nat) (hv : (k.sems s).valid = true)
    (hq : (k.sems s).wait_queue = none) :
    sem_post (some s) k = .ok (SUCCESS, k.with_count s
      (if (k.sems s).count < (k.sems s).max_count then (k.sems s).count + 1
        else (k.sems s).count)) := by
  by_cases hlt : (k.sems s).count < (k.sems s).max_count
  · simp [sem_post, hv, scheduler_disable_preemption, hq, scheduler_enable_preemption, hlt,
      Kernel.with_count, Kernel.set_sem]
  · simp [sem_post, hv, scheduler_disable_preemption, hq, scheduler_enable_preemption, hlt,
      Kernel.with_count]
    funext a
    by_cases ha : a = s
    · subst ha
      simp only [upd, if_true]
      rw [← hq, ← hv]
    · simp [upd, ha]

@[simp] theorem upd_same {α : Type} (f : Nat → α) (i : Nat) (v : α) : upd f i v i = v := by
  simp [upd]

theorem upd_ne {α : Type} (f : Nat → α) (i j : Nat) (v : α) (h : j ≠ i) :
    upd f i v j = f j := by
  simp [upd, h]

@[simp] theorem upd_upd {α : Type} (f : Nat → α) (i : Nat) (a b : α) :
    upd (upd f i a) i b = upd f i b := by
  funext j
  by_cases h : j = i <;> simp [upd, h]

theorem with_count_sems_same (k : Kernel) (s c : Nat) :
    (k.with_count s c).sems s = { k.sems s with count := c } := by
  simp [Kernel.with_count, upd]

theorem with_count_sems_ne (k : Kernel) (s c a : Nat) (h : a ≠ s) :
    (k.with_count s c).sems a = k.sems a := by
  simp [Kernel.with_count, upd, h]

theorem sem_is_with_count_same (k : Kernel) (s c c0 m : Nat) (h : sem_is k s c0 m) :
    sem_is (k.with_count s c) s c m := by
  unfold sem_is at *
  rw [with_count_sems_same, h]

theorem sem_is_with_count_ne (k : Kernel) (s c a c0 m : Nat) (hne : a ≠ s)
    (h : sem_is k a c0 m) : sem_is (k.with_count s c) a c0 m := by
  unfold sem_is at *
  rw [with_count_sems_ne _ _ _ _ hne, h]

theorem sem_is_preemption (k : Kernel) (a c m : Nat) (v : Bool) (h : sem_is k a c m) :
    sem_is { k with preemption_enabled := v } a c m := h

theorem mutex_ne_not_empty (q : Nat) : mutex_of q ≠ not_empty_of q := by
  simp [mutex_of, not_empty_of]

theorem mutex_ne_not_full (q : Nat) : mutex_of q ≠ not_full_of q := by
  simp [mutex_of, not_full_of]

theorem not_empty_ne_not_full (q : Nat) : not_empty_of q ≠ not_full_of q := by
  simp [not_empty_of, not_full_of]

theorem sem_wait_call_of_sem_is (k : Kernel) (s t c m : Nat) (h : sem_is k s (c + 1) m) :
    sem_wait_call (some s) t k = .ok (.returned SUCCESS, k.with_count s c) := by
  have hv : (k.sems s).valid = true := by rw [h]
  have hc : (k.sems s).count = c + 1 := by rw [h]
  rw [sem_wait_call_positive k s t hv (by omega), hc]
  rfl

theorem sem_post_of_sem_is (k : Kernel) (s c m : Nat) (h : sem_is k s c m) (hlt : c < m) :
    sem_post (some s) k = .ok (SUCCESS, k.with_count s (c + 1)) := by
  have hv : (k.sems s).valid = true := by rw [h]
  have hq : (k.sems s).wait_queue = none := by rw [h]
  have hc : (k.sems s).count = c := by rw [h]
  have hm : (k.sems s).max_count = m := by rw [h]
  rw [sem_post_no_waiter k s hv hq, hc, hm, if_pos hlt]

theorem queue_send_store_at (q msg c : Nat) (sys : System)
    (hcap : 0 < (sys.queues q).capacity)
    (hm : sem_is sys.kernel (mutex_of q) 0 1)
    (he : sem_is sys.kernel (not_empty_of q) c (sys.queues q).capacity)
    (hc : c < (sys.queues q).capacity) :
    queue_send_store q msg sys = .ok (SUCCESS,
      ((((sys.touch_slot (sys.queues q).buffer (sys.queues q).tail).set_word
          ((sys.queues q).buffer + POINTER_SIZE * (sys.queues q).tail) msg).set_queue q
        { sys.queues q with
          tail := ((sys.queues q).tail + 1) % UINT32_MOD % (sys.queues q).capacity
          count := ((sys.queues q).count + 1) % UINT32_MOD }).set_kernel
        ((sys.kernel.with_count (mutex_of q) 1).with_count (not_empty_of q) (c + 1)))) := by
  have hcap0 : (sys.queues q).capacity ≠ 0 := by omega
  have h1 := sem_post_of_sem_is sys.kernel (mutex_of q) 0 1 hm (by omega)
  have he2 : sem_is (sys.kernel.with_count (mutex_of q) 1) (not_empty_of q) c
      (sys.queues q).capacity :=
    sem_is_with_count_ne _ _ _ _ _ _ (mutex_ne_not_empty q).symm he
  have h2 := sem_post_of_sem_is _ (not_empty_of q) c _ he2 hc
  simp [queue_send_store, hcap0, System.set_word, System.set_queue, System.touch_slot, System.set_kernel, h1, h2,
    Outcome.bind, Outcome.map]

theorem queue_send_room (q msg t : Nat) (sys : System) (hr : queue_at_rest q sys)
    (hroom : (sys.queues q).count < (sys.queues q).capacity) :
    queue_send (some q) msg t sys = .ok (.returned SUCCESS, after_send q msg sys) := by
  obtain ⟨hv, hcap, _, _, _, _, hm, he, hf⟩ := hr
  have hf1 : sem_is sys.kernel (not_full_of q)
      (((sys.queues q).capacity - (sys.queues q).count - 1) + 1) (sys.queues q).capacity := by
    have : (sys.queues q).capacity - (sys.queues q).count - 1 + 1
        = (sys.queues q).capacity - (sys.queues q).count := by omega
    rw [this]; exact hf
  have w1 := sem_wait_call_of_sem_is sys.kernel (not_full_of q) t _ _ hf1
  have hm1 : sem_is (sys.kernel.with_count (not_full_of q)
      ((sys.queues q).capacity - (sys.queues q).count - 1)) (mutex_of q) (0 + 1) 1 :=
    sem_is_with_count_ne _ _ _ _ _ _ (mutex_ne_not_full q) hm
  have w2 := sem_wait_call_of_sem_is _ (mutex_of q) t _ _ hm1
  have hm2 := sem_is_with_count_same _ (mutex_of q) 0 _ _ hm1
  have he2 : sem_is ((sys.kernel.with_count (not_full_of q)
      ((sys.queues q).capacity - (sys.queues q).count - 1)).with_count (mutex_of q) 0)
      (not_empty_of q) (sys.queues q).count (sys.queues q).capacity :=
    sem_is_with_count_ne _ _ _ _ _ _ (mutex_ne_not_empty q).symm
      (sem_is_with_count_ne _ _ _ _ _ _ (not_empty_ne_not_full q) he)
  have st := queue_send_store_at q msg (sys.queues q).count
    (sys.set_kernel ((sys.kernel.with_count (not_full_of q)
      ((sys.queues q).capacity - (sys.queues q).count - 1)).with_count (mutex_of q) 0))
    hcap hm2 he2 hroom
  simp only [System.set_kernel, System.set_queue, System.touch_slot, System.set_word] at st
  simp [queue_send, hv, w1, Outcome.bind, queue_send_with_space, w2,
    queue_send_with_mutex, st, Outcome.map, after_send, System.set_kernel, System.set_queue, System.touch_slot,
    System.set_word]

theorem ring_slot_ne (h i c cap : Nat) (hi : i < c) (hc : c < cap) :
    (h + i) % cap ≠ (h + c) % cap := by
  intro heq
  have h1 : Nat.ModEq cap (h + i) (h + c) := heq
  have h2 : Nat.ModEq cap i c := Nat.ModEq.add_left_cancel' h h1
  have h3 : cap ∣ c - i := (Nat.modEq_iff_dvd' (by omega)).mp h2
  have h4 := Nat.le_of_dvd (by omega) h3
  omega

theorem after_send_at_rest (q msg : Nat) (sys : System) (hr : queue_at_rest q sys)
    (hroom : (sys.queues q).count < (sys.queues q).capacity) :
    queue_at_rest q (after_send q msg sys) := by
  obtain ⟨hv, hcap, hlt, hle, hh, ht, hm, he, hf⟩ := hr
  have hcnt : ((sys.queues q).count + 1) % UINT32_MOD = (sys.queues q).count + 1 := by
    apply Nat.mod_eq_of_lt; omega
  have htl : ((sys.queues q).tail + 1) % UINT32_MOD % (sys.queues q).capacity
      = ((sys.queues q).head + ((sys.queues q).count + 1)) % (sys.queues q).capacity := by
    have hts : (sys.queues q).tail < (sys.queues q).capacity := by
      rw [ht]; exact Nat.mod_lt _ hcap
    rw [Nat.mod_eq_of_lt (by omega : (sys.queues q).tail + 1 < UINT32_MOD), ht,
      Nat.mod_add_mod, Nat.add_assoc]
  have hq : (after_send q msg sys).queues q = { sys.queues q with
      tail := ((sys.queues q).head + ((sys.queues q).count + 1)) % (sys.queues q).capacity
      count := (sys.queues q).count + 1 } := by
    simp [after_send, System.set_kernel, System.set_queue, System.touch_slot, System.set_word, hcnt, htl]
  have hk : (after_send q msg sys).kernel = (((sys.kernel.with_count (not_full_of q)
      ((sys.queues q).capacity - (sys.queues q).count - 1)).with_count (mutex_of q) 0).with_count
        (mutex_of q) 1).with_count (not_empty_of q) ((sys.queues q).count + 1) := rfl
  unfold queue_at_rest
  rw [hq, hk]
  refine ⟨hv, hcap, hlt, by simp only; omega, hh, rfl, ?_, ?_, ?_⟩
  · exact sem_is_with_count_ne _ _ _ _ _ _ (mutex_ne_not_empty q)
      (sem_is_with_count_same _ _ _ _ _ (sem_is_with_count_same _ _ _ _ _
        (sem_is_with_count_ne _ _ _ _ _ _ (mutex_ne_not_full q) hm)))
  · exact sem_is_with_count_same _ _ _ _ _
      (sem_is_with_count_ne _ _ _ _ _ _ (mutex_ne_not_empty q).symm
        (sem_is_with_count_ne _ _ _ _ _ _ (mutex_ne_not_empty q).symm
          (sem_is_with_count_ne _ _ _ _ _ _ (not_empty_ne_not_full q) he)))
  · have : (sys.queues q).capacity - ((sys.queues q).count + 1)
        = (sys.queues q).capacity - (sys.queues q).count - 1 := by omega
    simp only [this]
    exact sem_is_with_count_ne _ _ _ _ _ _ (not_empty_ne_not_full q).symm
      (sem_is_with_count_ne _ _ _ _ _ _ (mutex_ne_not_full q).symm
        (sem_is_with_count_ne _ _ _ _ _ _ (mutex_ne_not_full q).symm
          (sem_is_with_count_same _ _ _ _ _ hf)))

theorem after_send_contents (q msg : Nat) (sys : System) (hr : queue_at_rest q sys)
    (hroom : (sys.queues q).count < (sys.queues q).capacity) :
    queue_contents q (after_send q msg sys) = queue_contents q sys ++ [msg] := by
  obtain ⟨hv, hcap, hlt, hle, hh, ht, hm, he, hf⟩ := hr
  have hcnt : ((sys.queues q).count + 1) % UINT32_MOD = (sys.queues q).count + 1 := by
    apply Nat.mod_eq_of_lt; omega
  simp only [queue_contents, after_send, System.set_kernel, System.set_queue, System.touch_slot, System.set_word,
    upd_same, hcnt, List.range_succ, List.map_append, List.map_cons, List.map_nil]
  congr 1
  · apply List.map_congr_left
    intro i hi
    rw [List.mem_range] at hi
    rw [upd_ne]
    intro heq
    have := ring_slot_ne (sys.queues q).head i (sys.queues q).count _ hi hroom
    rw [ht] at heq
    simp only [POINTER_SIZE] at heq
    omega
  · rw [ht]
    simp

theorem queue_receive_load_at (q c : Nat) (sys : System)
    (hcap : 0 < (sys.queues q).capacity)
    (hm : sem_is sys.kernel (mutex_of q) 0 1)
    (hf : sem_is sys.kernel (not_full_of q) c (sys.queues q).capacity)
    (hc : c < (sys.queues q).capacity) :
    queue_receive_load q sys = .ok (SUCCESS,
      sys.words ((sys.queues q).buffer + POINTER_SIZE * (sys.queues q).head),
      (((sys.touch_slot (sys.queues q).buffer (sys.queues q).head).set_queue q
        { sys.queues q with
          head := ((sys.queues q).head + 1) % UINT32_MOD % (sys.queues q).capacity
          count := ((sys.queues q).count + UINT32_MOD - 1) % UINT32_MOD }).set_kernel
        ((sys.kernel.with_count (mutex_of q) 1).with_count (not_full_of q) (c + 1)))) := by
  have hcap0 : (sys.queues q).capacity ≠ 0 := by omega
  have h1 := sem_post_of_sem_is sys.kernel (mutex_of q) 0 1 hm (by omega)
  have hf2 : sem_is (sys.kernel.with_count (mutex_of q) 1) (not_full_of q) c
      (sys.queues q).capacity :=
    sem_is_with_count_ne _ _ _ _ _ _ (mutex_ne_not_full q).symm hf
  have h2 := sem_post_of_sem_is _ (not_full_of q) c _ hf2 hc
  simp [queue_receive_load, hcap0, System.set_queue, System.touch_slot, System.set_kernel, h1, h2,
    Outcome.bind, Outcome.map]

theorem queue_receive_item (q out t : Nat) (sys : System) (hr : queue_at_rest q sys)
    (hitem : 0 < (sys.queues q).count) :
    queue_receive (some q) (some out) t sys = .ok (.returned SUCCESS,
      sys.words ((sys.queues q).buffer + POINTER_SIZE * (sys.queues q).head),
      after_receive q sys) := by
  obtain ⟨hv, hcap, _, hle, _, _, hm, he, hf⟩ := hr
  have he1 : sem_is sys.kernel (not_empty_of q) (((sys.queues q).count - 1) + 1)
      (sys.queues q).capacity := by
    have : (sys.queues q).count - 1 + 1 = (sys.queues q).count := by omega
    rw [this]; exact he
  have w1 := sem_wait_call_of_sem_is sys.kernel (not_empty_of q) t _ _ he1
  have hm1 : sem_is (sys.kernel.with_count (not_empty_of q) ((sys.queues q).count - 1))
      (mutex_of q) (0 + 1) 1 :=
    sem_is_with_count_ne _ _ _ _ _ _ (mutex_ne_not_empty q) hm
  have w2 := sem_wait_call_of_sem_is _ (mutex_of q) t _ _ hm1
  have hm2 := sem_is_with_count_same _ (mutex_of q) 0 _ _ hm1
  have hf2 : sem_is ((sys.kernel.with_count (not_empty_of q)
      ((sys.queues q).count - 1)).with_count (mutex_of q) 0)
      (not_full_of q) ((sys.queues q).capacity - (sys.queues q).count)
      (sys.queues q).capacity :=
    sem_is_with_count_ne _ _ _ _ _ _ (mutex_ne_not_full q).symm
      (sem_is_with_count_ne _ _ _ _ _ _ (not_empty_ne_not_full q).symm hf)
  have st := queue_receive_load_at q ((sys.queues q).capacity - (sys.queues q).count)
    (sys.set_kernel ((sys.kernel.with_count (not_empty_of q)
      ((sys.queues q).count - 1)).with_count (mutex_of q) 0))
    hcap hm2 hf2 (by simp only [System.set_kernel]; omega)
  simp only [System.set_kernel, System.set_queue, System.touch_slot] at st
  simp [queue_receive, hv, w1, Outcome.bind, queue_receive_with_item, w2,
    queue_receive_with_mutex, st, Outcome.map, after_receive, System.set_kernel,
    System.set_queue, System.touch_slot]

theorem after_receive_at_rest (q : Nat) (sys : System) (hr : queue_at_rest q sys)
    (hitem : 0 < (sys.queues q).count) :
    queue_at_rest q (after_receive q sys) := by
  obtain ⟨hv, hcap, hlt, hle, hh, ht, hm, he, hf⟩ := hr
  have hcnt : ((sys.queues q).count + UINT32_MOD - 1) % UINT32_MOD = (sys.queues q).count - 1 := by
    have : (sys.queues q).count + UINT32_MOD - 1 = ((sys.queues q).count - 1) + UINT32_MOD := by
      omega
    rw [this, Nat.add_mod_right]
    apply Nat.mod_eq_of_lt; omega
  have hhd : ((sys.queues q).head + 1) % UINT32_MOD = (sys.queues q).head + 1 := by
    apply Nat.mod_eq_of_lt; omega
  have hq : (after_receive q sys).queues q = { sys.queues q with
      head := ((sys.queues q).head + 1) % (sys.queues q).capacity
      count := (sys.queues q).count - 1 } := by
    simp [after_receive, System.set_kernel, System.set_queue, System.touch_slot, hcnt, hhd]
  have hk : (after_receive q sys).kernel = (((sys.kernel.with_count (not_empty_of q)
      ((sys.queues q).count - 1)).with_count (mutex_of q) 0).with_count
        (mutex_of q) 1).with_count (not_full_of q)
          ((sys.queues q).capacity - (sys.queues q).count + 1) := rfl
  unfold queue_at_rest
  rw [hq, hk]
  refine ⟨hv, hcap, hlt, by simp only; omega, Nat.mod_lt _ hcap, ?_, ?_, ?_, ?_⟩
  · simp only
    rw [ht, Nat.mod_add_mod]
    have : (sys.queues q).head + 1 + ((sys.queues q).count - 1)
        = (sys.queues q).head + (sys.queues q).count := by omega
    rw [this]
  · exact sem_is_with_count_ne _ _ _ _ _ _ (mutex_ne_not_full q)
      (sem_is_with_count_same _ _ _ _ _ (sem_is_with_count_same _ _ _ _ _
        (sem_is_with_count_ne _ _ _ _ _ _ (mutex_ne_not_empty q) hm)))
  · exact sem_is_with_count_ne _ _ _ _ _ _ (not_empty_ne_not_full q)
      (sem_is_with_count_ne _ _ _ _ _ _ (mutex_ne_not_empty q).symm
        (sem_is_with_count_ne _ _ _ _ _ _ (mutex_ne_not_empty q).symm
          (sem_is_with_count_same _ _ _ _ _ he)))
  · have : (sys.queues q).capacity - ((sys.queues q).count - 1)
        = (sys.queues q).capacity - (sys.queues q).count + 1 := by omega
    simp only [this]
    exact sem_is_with_count_same _ _ _ _ _
      (sem_is_with_count_ne _ _ _ _ _ _ (mutex_ne_not_full q).symm
        (sem_is_with_count_ne _ _ _ _ _ _ (mutex_ne_not_full q).symm
          (sem_is_with_count_ne _ _ _ _ _ _ (not_empty_ne_not_full q).symm hf)))

theorem after_receive_contents (q : Nat) (sys : System) (hr : queue_at_rest q sys)
    (hitem : 0 < (sys.queues q).count) :
    queue_contents q sys
      = sys.words ((sys.queues q).buffer + POINTER_SIZE * (sys.queues q).head)
        :: queue_contents q (after_receive q sys) := by
  obtain ⟨hv, hcap, hlt, hle, hh, ht, hm, he, hf⟩ := hr
  have hcnt : ((sys.queues q).count + UINT32_MOD - 1) % UINT32_MOD = (sys.queues q).count - 1 := by
    have : (sys.queues q).count + UINT32_MOD - 1 = ((sys.queues q).count - 1) + UINT32_MOD := by
      omega
    rw [this, Nat.add_mod_right]
    apply Nat.mod_eq_of_lt; omega
  have hhd : ((sys.queues q).head + 1) % UINT32_MOD = (sys.queues q).head + 1 := by
    apply Nat.mod_eq_of_lt; omega
  obtain ⟨c, hc⟩ : ∃ c, (sys.queues q).count = c + 1 := ⟨(sys.queues q).count - 1, by omega⟩
  rw [hc, Nat.add_sub_cancel] at hcnt
  simp only [queue_contents, after_receive, System.set_kernel, System.set_queue, System.touch_slot,
    upd_same, hhd, hc, hcnt]
  rw [List.range_succ_eq_map, List.map_cons, List.map_map]
  refine congrArg₂ List.cons ?_ ?_
  · rw [Nat.add_zero, Nat.mod_eq_of_lt hh]
  · apply List.map_congr_left
    intro i _
    have : (sys.queues q).head + 1 + i = (sys.queues q).head + (i + 1) := by omega
    simp only [Function.comp, Nat.mod_add_mod, this, Nat.succ_eq_add_one]

theorem sem_init_ok (s c m : Nat) (k : Kernel) (h : c ≤ m) :
    sem_init (some s) c m k = (SUCCESS, k.set_sem s
      { count := c, max_count := m, wait_queue := none, valid := true }) := by
  simp [sem_init, Nat.not_lt.mpr h]

theorem queue_create_at_rest (p n q : Nat) (sys sys1 : System) (hn : n < UINT32_MOD)
    (h : queue_create (some p) n sys = .ok (SUCCESS, q, sys1)) :
    queue_at_rest q sys1 ∧ (sys1.queues q).capacity = n ∧ (sys1.queues q).count = 0
      ∧ (sys1.queues q).head = 0 ∧ (sys1.queues q).tail = 0 := by
  have hn0 : n ≠ 0 := by
    intro h0
    simp [queue_create, h0, ERROR, SUCCESS] at h
  simp only [queue_create, hn0, sem_init_ok _ 1 1 _ (Nat.le_refl 1),
    sem_init_ok _ 0 n _ (Nat.zero_le n), sem_init_ok _ n n _ (Nat.le_refl n)] at h
  generalize kmalloc QUEUE_T_SIZE sys.heap = r1 at h
  obtain ⟨q1, heap1⟩ := r1
  simp only [reduceCtorEq, or_self, if_false] at h
  split at h
  · simp [ERROR, SUCCESS] at h
  generalize kmalloc (POINTER_SIZE * n % UINT32_MOD) heap1 = r2 at h
  obtain ⟨buf, heap2⟩ := r2
  simp only at h
  split at h
  · obtain ⟨h3, _, he⟩ := outcome_map_ok _ _ _ h
    simp [ERROR, SUCCESS] at he
  simp only [ne_eq, not_true_eq_false, if_false, Outcome.ok.injEq, Prod.mk.injEq, true_and] at h
  obtain ⟨hq, hs⟩ := h
  subst hq
  subst hs
  have hpos : 0 < n := Nat.pos_of_ne_zero hn0
  simp [queue_at_rest, sem_is, System.set_queue, System.touch_slot, System.set_kernel, System.set_heap,
    Kernel.set_sem, upd, mutex_of, not_empty_of, not_full_of, hpos, hn]

theorem at_rest_preemption (q : Nat) (sys : System) (hr : queue_at_rest q sys) :
    queue_at_rest q (sys.set_kernel { sys.kernel with preemption_enabled := true }) := hr

/-- A `queue_send` that returns on a queue at rest either found room, returned
SUCCESS and left `after_send`, or found the queue full and returned ERROR with
the queue unchanged. -/
theorem queue_send_returned (q msg t : Nat) (code : Int) (sys sys2 : System)
    (hr : queue_at_rest q sys)
    (h : queue_send (some q) msg t sys = .ok (.returned code, sys2)) :
    ((sys.queues q).count < (sys.queues q).capacity ∧ code = SUCCESS
        ∧ sys2 = after_send q msg sys)
      ∨ ((sys.queues q).count = (sys.queues q).capacity ∧ code = ERROR
        ∧ sys2 = sys.set_kernel { sys.kernel with preemption_enabled := true }) := by
  by_cases hroom : (sys.queues q).count < (sys.queues q).capacity
  · left
    rw [queue_send_room q msg t sys hr hroom] at h
    simp only [Outcome.ok.injEq, Prod.mk.injEq, queue_step.returned.injEq] at h
    exact ⟨hroom, h.1.symm, h.2.symm⟩
  · right
    obtain ⟨hv, hcap, _, hle, _, _, hm, he, hf⟩ := hr
    have hfull : (sys.queues q).count = (sys.queues q).capacity := by omega
    have hfv : (sys.kernel.sems (not_full_of q)).valid = true := by rw [hf]
    have hfc : (sys.kernel.sems (not_full_of q)).count = 0 := by rw [hf]; simp only; omega
    simp only [queue_send, hv, Bool.true_eq_false, if_false] at h
    cases hw : sem_wait_call (some (not_full_of q)) t sys.kernel with
    | fault f => simp [hw, Outcome.bind] at h
    | ok w =>
      obtain ⟨step, k⟩ := w
      cases step with
      | blocking cur => simp [hw, Outcome.bind] at h
      | returned c =>
        obtain ⟨hc, hk⟩ := sem_wait_call_zero _ _ _ _ _ hfv hfc hw
        subst hc
        subst hk
        simp [hw, Outcome.bind, queue_send_with_space, ERROR, SUCCESS] at h
        exact ⟨hfull, by simp [ERROR, h.1], h.2.symm⟩

/-- A `queue_receive` that returns on a queue at rest either found a message,
returned SUCCESS with the handle stored at `head` and left `after_receive`, or
found the queue empty and returned ERROR with the queue unchanged. -/
theorem queue_receive_returned (q out t : Nat) (code : Int) (msg : Nat) (sys sys2 : System)
    (hr : queue_at_rest q sys)
    (h : queue_receive (some q) (some out) t sys = .ok (.returned code, msg, sys2)) :
    (0 < (sys.queues q).count ∧ code = SUCCESS
        ∧ msg = sys.words ((sys.queues q).buffer + POINTER_SIZE * (sys.queues q).head)
        ∧ sys2 = after_receive q sys)
      ∨ ((sys.queues q).count = 0 ∧ code = ERROR
        ∧ sys2 = sys.set_kernel { sys.kernel with preemption_enabled := true }) := by
  by_cases hitem : 0 < (sys.queues q).count
  · left
    rw [queue_receive_item q out t sys hr hitem] at h
    simp only [Outcome.ok.injEq, Prod.mk.injEq, queue_step.returned.injEq] at h
    exact ⟨hitem, h.1.symm, h.2.1.symm, h.2.2.symm⟩
  · right
    obtain ⟨hv, hcap, _, hle, _, _, hm, he, hf⟩ := hr
    have hempty : (sys.queues q).count = 0 := by omega
    have hev : (sys.kernel.sems (not_empty_of q)).valid = true := by rw [he]
    have hec : (sys.kernel.sems (not_empty_of q)).count = 0 := by rw [he]; simp only; omega
    simp only [queue_receive, hv, Bool.true_eq_false, reduceCtorEq, or_self, if_false] at h
    cases hw : sem_wait_call (some (not_empty_of q)) t sys.kernel with
    | fault f => simp [hw, Outcome.bind] at h
    | ok w =>
      obtain ⟨step, k⟩ := w
      cases step with
      | blocking cur => simp [hw, Outcome.bind] at h
      | returned c =>
        obtain ⟨hc, hk⟩ := sem_wait_call_zero _ _ _ _ _ hev hec hw
        subst hc
        subst hk
        simp [hw, Outcome.bind, queue_receive_with_item, ERROR, SUCCESS] at h
        exact ⟨hempty, by simp [ERROR, h.1], h.2.2.symm⟩

/-- On a queue at rest `queue_get_count` returns `count` and only passes through
the mutex. -/
theorem queue_get_count_at_rest (q : Nat) (sys : System) (hr : queue_at_rest q sys) :
    queue_get_count (some q) sys = .ok (some (sys.queues q).count,
      sys.set_kernel ((sys.kernel.with_count (mutex_of q) 0).with_count (mutex_of q) 1)) := by
  obtain ⟨hv, _, _, _, _, _, hm, _, _⟩ := hr
  have w := sem_wait_call_of_sem_is sys.kernel (mutex_of q) 0 0 1 hm
  have hm0 := sem_is_with_count_same sys.kernel (mutex_of q) 0 _ _ hm
  have p := sem_post_of_sem_is _ (mutex_of q) 0 1 hm0 (by omega)
  simp [queue_get_count, hv, w, Outcome.bind, queue_get_count_with_mutex, System.set_kernel, p,
    Outcome.map]

theorem queue_get_count_rest (q : Nat) (sys : System) (hr : queue_at_rest q sys) :
    queue_at_rest q
      (sys.set_kernel ((sys.kernel.with_count (mutex_of q) 0).with_count (mutex_of q) 1)) := by
  obtain ⟨hv, hcap, hlt, hle, hh, ht, hm, he, hf⟩ := hr
  refine ⟨hv, hcap, hlt, hle, hh, ht, ?_, ?_, ?_⟩
  · exact sem_is_with_count_same _ _ _ _ _ (sem_is_with_count_same _ _ _ _ _ hm)
  · exact sem_is_with_count_ne _ _ _ _ _ _ (mutex_ne_not_empty q).symm
      (sem_is_with_count_ne _ _ _ _ _ _ (mutex_ne_not_empty q).symm he)
  · exact sem_is_with_count_ne _ _ _ _ _ _ (mutex_ne_not_full q).symm
      (sem_is_with_count_ne _ _ _ _ _ _ (mutex_ne_not_full q).symm hf)

/-- Every state reached by calls that return without suspending is at rest. -/
theorem queue_reachable_at_rest (q : Nat) (sys : System) (h : queue_reachable q sys) :
    queue_at_rest q sys := by
  induction h with
  | create p n sys sys2 hn _ _ hc =>
    exact (queue_create_at_rest p n q sys sys2
      (by simp only [POINTER_SIZE, UINT32_MOD] at *; omega) hc).1
  | send msg t code sys sys2 _ hs ih =>
    rcases queue_send_returned q msg t code sys sys2 ih hs with ⟨hroom, _, h2⟩ | ⟨_, _, h2⟩
    · rw [h2]; exact after_send_at_rest q msg sys ih hroom
    · rw [h2]; exact at_rest_preemption q sys ih
  | receive out t code msg sys sys2 _ hs ih =>
    rcases queue_receive_returned q out t code msg sys sys2 ih hs with
      ⟨hitem, _, _, h2⟩ | ⟨_, _, h2⟩
    · rw [h2]; exact after_receive_at_rest q sys ih hitem
    · rw [h2]; exact at_rest_preemption q sys ih
  | get_count c sys sys2 _ hs ih =>
    rw [queue_get_count_at_rest q sys ih] at hs
    simp only [Outcome.ok.injEq, Prod.mk.injEq] at hs
    rw [← hs.2]
    exact queue_get_count_rest q sys ih

theorem after_send_queue (q msg : Nat) (sys : System) :
    (after_send q msg sys).queues q = { sys.queues q with
      tail := ((sys.queues q).tail + 1) % UINT32_MOD % (sys.queues q).capacity
      count := ((sys.queues q).count + 1) % UINT32_MOD } := by
  simp [after_send, System.set_kernel, System.set_queue, System.touch_slot, System.set_word]

theorem after_send_words (q msg : Nat) (sys : System) :
    (after_send q msg sys).words
      = upd sys.words ((sys.queues q).buffer + POINTER_SIZE * (sys.queues q).tail) msg := by
  simp [after_send, System.set_kernel, System.set_queue, System.touch_slot, System.set_word]

theorem after_receive_queue (q : Nat) (sys : System) :
    (after_receive q sys).queues q = { sys.queues q with
      head := ((sys.queues q).head + 1) % UINT32_MOD % (sys.queues q).capacity
      count := ((sys.queues q).count + UINT32_MOD - 1) % UINT32_MOD } := by
  simp [after_receive, System.set_kernel, System.set_queue, System.touch_slot]

theorem queue_contents_length (q : Nat) (sys : System) :
    (queue_contents q sys).length = (sys.queues q).count := by
  simp [queue_contents]

theorem heap_boot_tiled : heap_tiled heap_boot :=
  (heap_reachable_tiled 1048576 HEAP_SIZE heap_boot (by decide) (by decide) (by decide)
    (by decide) (heap_reachable.init (heap_unset fun _ => 0) heap_boot rfl)).1

theorem created_two_reachable : queue_reachable first_queue created_two :=
  queue_reachable.create 1 2 queue_boot created_two (by decide) heap_boot_tiled rfl rfl

/-- C12: message-queue round trip.  Whenever `queue_create(&q, n)` succeeds (then
`n ≥ 1`), for every handle `m` the call `queue_send(q, m, t)` returns SUCCESS,
the following `queue_receive(q, &r, t)` returns SUCCESS with `r = m`, and
afterwards `count = 0`, `head = tail`, `not_empty.count = 0` and
`not_full.count = n`. -/
theorem c12_send_receive_round_trip (p n q m t out : Nat) (sys sys1 : System)
    (hn : n < UINT32_MOD)
    (hc : queue_create (some p) n sys = .ok (SUCCESS, q, sys1)) :
    1 ≤ n ∧ ∃ sys2 sys3,
      queue_send (some q) m t sys1 = .ok (.returned SUCCESS, sys2)
      ∧ queue_receive (some q) (some out) t sys2 = .ok (.returned SUCCESS, m, sys3)
      ∧ (sys3.queues q).count = 0
      ∧ (sys3.queues q).head = (sys3.queues q).tail
      ∧ (sys3.kernel.sems (not_empty_of q)).count = 0
      ∧ (sys3.kernel.sems (not_full_of q)).count = n := by
  obtain ⟨hr, hcap, hcnt, hhd, htl⟩ := queue_create_at_rest p n q sys sys1 hn hc
  have hpos : 0 < n := by
    have := hr.2.1
    omega
  have hroom : (sys1.queues q).count < (sys1.queues q).capacity := by omega
  have hr2 := after_send_at_rest q m sys1 hr hroom
  have hq2 := after_send_queue q m sys1
  have hc2 : ((after_send q m sys1).queues q).count = 1 := by
    rw [hq2]; simp [hcnt, UINT32_MOD]
  have hh2 : ((after_send q m sys1).queues q).head = 0 := by
    rw [hq2]; exact hhd
  have hb2 : ((after_send q m sys1).queues q).buffer = (sys1.queues q).buffer := by
    rw [hq2]
  have hk2 : ((after_send q m sys1).queues q).capacity = n := by
    rw [hq2]; exact hcap
  have hitem : 0 < ((after_send q m sys1).queues q).count := by omega
  have hr3 := after_receive_at_rest q _ hr2 hitem
  have hq3 := after_receive_queue q (after_send q m sys1)
  have hc3 : ((after_receive q (after_send q m sys1)).queues q).count = 0 := by
    rw [hq3]; simp [hc2, UINT32_MOD]
  have hk3 : ((after_receive q (after_send q m sys1)).queues q).capacity = n := by
    rw [hq3]; exact hk2
  have hmsg : (after_send q m sys1).words (((after_send q m sys1).queues q).buffer
      + POINTER_SIZE * ((after_send q m sys1).queues q).head) = m := by
    rw [after_send_words, hb2, hh2, htl, upd_same]
  refine ⟨hpos, after_send q m sys1, after_receive q (after_send q m sys1),
    queue_send_room q m t sys1 hr hroom, ?_, hc3, ?_, ?_, ?_⟩
  · rw [queue_receive_item q out t _ hr2 hitem, hmsg]
  · obtain ⟨_, _, _, _, hh, ht, _, _, _⟩ := hr3
    rw [ht, hc3, Nat.add_zero, Nat.mod_eq_of_lt hh]
  · obtain ⟨_, _, _, _, _, _, _, he, _⟩ := hr3
    rw [he]; exact hc3
  · obtain ⟨_, _, _, _, _, _, _, _, hf⟩ := hr3
    rw [hf]; simp only; rw [hc3, hk3]; rfl

/-- Witness of C12: capacity 2 on the freshly initialised heap, handle 7. -/
theorem c12_send_receive_round_trip_witness :
    2 < UINT32_MOD
    ∧ queue_create (some 1) 2 queue_boot = .ok (SUCCESS, first_queue, created_two)
    ∧ (1 ≤ 2 ∧ ∃ sys2 sys3,
      queue_send (some first_queue) 7 0 created_two = .ok (.returned SUCCESS, sys2)
      ∧ queue_receive (some first_queue) (some 0) 0 sys2 = .ok (.returned SUCCESS, 7, sys3)
      ∧ (sys3.queues first_queue).count = 0
      ∧ (sys3.queues first_queue).head = (sys3.queues first_queue).tail
      ∧ (sys3.kernel.sems (not_empty_of first_queue)).count = 0
      ∧ (sys3.kernel.sems (not_full_of first_queue)).count = 2) :=
  ⟨by decide, rfl,
    c12_send_receive_round_trip 1 2 first_queue 7 0 0 queue_boot created_two (by decide) rfl⟩

/-- As long as every slot lies inside the buffer (the queue was created with a
buffer size of at most `2^32 - 8` bytes), the message queue refines a bounded
FIFO list.  Under the abstraction
`queue_contents` (the `count` handles stored at `buffer[head]`,
`buffer[(head + 1) mod capacity]`, ...), every run of sends and receives that
the bounded FIFO list accepts (no send beyond the capacity, no receive from the
empty list) is executed by `queue_send` and `queue_receive` without suspending:
every call returns SUCCESS, every send appends its handle at the back, every
receive removes and returns the front, the handles are delivered as by the
list, and the final contents are the final list. -/
theorem queue_run_refines_fifo (q t : Nat) (ops : List queue_op) (sys : System)
    (out l : List Nat) (hr : queue_reachable q sys)
    (hf : fifo_run (sys.queues q).capacity ops (queue_contents q sys) = some (out, l)) :
    ∃ sys2, queue_run q t ops sys = some (out, sys2) ∧ queue_contents q sys2 = l
      ∧ (sys2.queues q).count = l.length ∧ queue_reachable q sys2 := by
  induction ops generalizing sys out l with
  | nil =>
    simp only [fifo_run, Option.some.injEq, Prod.mk.injEq] at hf
    refine ⟨sys, ?_, hf.2, ?_, hr⟩
    · rw [← hf.1]; rfl
    · rw [← hf.2, queue_contents_length]
  | cons op ops ih =>
    have hrest := queue_reachable_at_rest q sys hr
    cases op with
    | send msg =>
      simp only [fifo_run, fifo_send, queue_contents_length] at hf
      by_cases hroom : (sys.queues q).count < (sys.queues q).capacity
      · simp only [hroom, if_true] at hf
        have hs := queue_send_room q msg t sys hrest hroom
        have hcap : ((after_send q msg sys).queues q).capacity = (sys.queues q).capacity := by
          rw [after_send_queue]
        rw [← after_send_contents q msg sys hrest hroom, ← hcap] at hf
        obtain ⟨sys2, h1, h2, h3, h4⟩ := ih (after_send q msg sys) out l
          (queue_reachable.send msg t SUCCESS sys _ hr hs) hf
        refine ⟨sys2, ?_, h2, h3, h4⟩
        simp only [queue_run, hs, if_true]
        exact h1
      · simp [hroom] at hf
    | receive =>
      simp only [fifo_run] at hf
      by_cases hitem : 0 < (sys.queues q).count
      · have hs := queue_receive_item q 0 t sys hrest hitem
        have hcap : ((after_receive q sys).queues q).capacity = (sys.queues q).capacity := by
          rw [after_receive_queue]
        rw [after_receive_contents q sys hrest hitem] at hf
        simp only [fifo_receive] at hf
        cases hrun : fifo_run (sys.queues q).capacity ops
            (queue_contents q (after_receive q sys)) with
        | none => simp [hrun] at hf
        | some r =>
          obtain ⟨out2, l2⟩ := r
          simp only [hrun, Option.map_some', Option.some.injEq, Prod.mk.injEq] at hf
          rw [← hcap] at hrun
          obtain ⟨sys2, h1, h2, h3, h4⟩ := ih (after_receive q sys) out2 l2
            (queue_reachable.receive 0 t SUCCESS _ sys _ hr hs) hrun
          refine ⟨sys2, ?_, ?_, ?_, h4⟩
          · simp only [queue_run, hs, if_true, h1, Option.map_some']
            rw [← hf.1]
          · rw [h2, hf.2]
          · rw [h3, hf.2]
      · have hnil : queue_contents q sys = [] := by
          apply List.eq_nil_of_length_eq_zero
          rw [queue_contents_length]; omega
        simp [hnil, fifo_receive] at hf

/-- Scenario 2 of the specification: with capacity 2, the sends
of 1, 2, 3, 4, 5 interleaved with five receives deliver 1, 2, 3, 4, 5 in order
and `count` returns to 0. -/
theorem queue_run_refines_fifo_example :
    queue_reachable first_queue created_two
    ∧ fifo_run (created_two.queues first_queue).capacity
        [.send 1, .send 2, .receive, .send 3, .receive, .send 4, .receive, .send 5,
          .receive, .receive] (queue_contents first_queue created_two)
      = some ([1, 2, 3, 4, 5], [])
    ∧ ∃ sys2, queue_run first_queue 0
        [.send 1, .send 2, .receive, .send 3, .receive, .send 4, .receive, .send 5,
          .receive, .receive] created_two = some ([1, 2, 3, 4, 5], sys2)
      ∧ queue_contents first_queue sys2 = []
      ∧ (sys2.queues first_queue).count = ([] : List Nat).length
      ∧ queue_reachable first_queue sys2 :=
  ⟨created_two_reachable, by decide,
    queue_run_refines_fifo first_queue 0 _ created_two _ _ created_two_reachable (by decide)⟩

/-- C13, evaluated at the failing input: a heap with a free block of 8 bytes
below the free remainder, and `queue_create(&q, 2^30 + 1)`.  The buffer size
`4 * capacity` wraps to 4, so the `queue_t` is placed at 1048628 in the
remainder and the buffer at 1048588 in the block of 8 bytes, which holds two
slots.  Eleven sends stay below the capacity and all return SUCCESS; the bounded
FIFO list then holds the eleven handles with 101 at the front.  But the third
send already stores outside the block of the buffer, and the eleventh stores
its handle in slot 10, at address 1048628: the address of the `queue_t` itself,
whose first field is `buffer`. -/
theorem c13_slot_of_wrapped_buffer_is_the_queue_itself :
    heap_with_hole.free_list
      = [⟨1048576, 8, true⟩, ⟨1048596, 8, false⟩, ⟨1048616, 1048524, true⟩]
    ∧ (queue_create (some 1) wrapping_capacity holed_boot).map (fun r => (r.1, r.2.1))
      = .ok (SUCCESS, 1048628)
    ∧ holed_queue.queues 1048628
      = { buffer := 1048588, capacity := 2 ^ 30 + 1, count := 0, head := 0, tail := 0,
          valid := true }
    ∧ POINTER_SIZE * wrapping_capacity % UINT32_MOD = 4
    ∧ payload_size 1048588 holed_queue.heap.free_list = 8
    ∧ fifo_run (holed_queue.queues 1048628).capacity (eleven_sends ++ [.receive])
        (queue_contents 1048628 holed_queue)
      = some ([101], [102, 103, 104, 105, 106, 107, 108, 109, 110, 1048632])
    ∧ (queue_run 1048628 0 (eleven_sends.take 2) holed_queue).map
        (fun r => ((r.2.queues 1048628).count, r.2.overrun)) = some (2, false)
    ∧ (queue_run 1048628 0 (eleven_sends.take 3) holed_queue).map
        (fun r => ((r.2.queues 1048628).count, r.2.overrun)) = some (3, true)
    ∧ (queue_run 1048628 0 (eleven_sends.take 10) holed_queue).map
        (fun r => ((r.2.queues 1048628).buffer + POINTER_SIZE * (r.2.queues 1048628).tail))
      = some 1048628
    ∧ (queue_run 1048628 0 eleven_sends holed_queue).map
        (fun r => ((r.2.queues 1048628).count, r.2.words 1048628, r.2.overrun))
      = some (11, 1048632, true) := by
  exact ⟨by decide, by decide, by decide, by decide, by decide, by decide, by decide,
    by decide, by decide, by decide⟩

/-- C15, evaluated at the failing input: a queue of capacity 1, task A
(priority 6) and task B (priority 5).  A's first `queue_send` returns SUCCESS
and fills the queue.  A's second `queue_send` suspends A in
`sem_wait(&q->not_full)` and B runs; B's `queue_send` suspends B, and its
`schedule()` dispatches A although nothing was received: A's call returns
SUCCESS and leaves `count = 2` with capacity 1.  When A sleeps, B is dispatched
and its call returns SUCCESS too.  No call is in progress then, the queue is
valid, `count = 3`, `capacity = 1`, `not_empty.count = 1`, `not_full.count = 0`,
and `queue_get_count` returns 3. -/
theorem c15_resumed_senders_overfill_queue :
    (queue_create (some 1) 1 senders_boot).map (fun r => (r.1, r.2.1))
      = .ok (SUCCESS, first_queue)
    ∧ (queue_send (some first_queue) 11 0
        (state_after ((queue_create (some 1) 1 senders_boot).map fun r => (r.1, r.2.2))
          senders_boot)).map (fun r => r.1) = .ok (.returned SUCCESS)
    ∧ (queue_send (some first_queue) 12 0 senders_full).map
        (fun r => (r.1, r.2.kernel.current_task)) = .ok (.blocked 1, some 2)
    ∧ (queue_send (some first_queue) 13 0 senders_a_suspended).map
        (fun r => (r.1, r.2.kernel.current_task)) = .ok (.blocked 2, some 1)
    ∧ (queue_send_resume first_queue 12 0 1 senders_b_suspended).map (fun r => r.1)
        = .ok (.returned SUCCESS)
    ∧ ((senders_a_returned.queues first_queue).count,
        (senders_a_returned.queues first_queue).capacity) = (2, 1)
    ∧ (task_sleep 1000 senders_a_returned.kernel).map (fun k => k.current_task)
        = .ok (some 2)
    ∧ (queue_send_resume first_queue 13 0 2 senders_a_asleep).map (fun r => r.1)
        = .ok (.returned SUCCESS)
    ∧ ((senders_b_returned.queues first_queue).valid,
        (senders_b_returned.queues first_queue).count,
        (senders_b_returned.queues first_queue).capacity,
        (senders_b_returned.kernel.sems (not_empty_of first_queue)).count,
        (senders_b_returned.kernel.sems (not_full_of first_queue)).count) = (true, 3, 1, 1, 0)
    ∧ (queue_get_count (some first_queue) senders_b_returned).map (fun r => r.1)
        = .ok (some 3) := by
  exact ⟨by decide, by decide, by decide, by decide, by decide, by decide, by decide,
    by decide, by decide, by decide⟩

/-! ## Selection, invalid arguments, and the evaluated scheduler runs -/

/-- The loop of `get_next_task` from index `i`: it finds nothing iff the queues
`0..i` are all empty and then changes nothing; otherwise it returns the head of
the non-empty queue of largest index `P ≤ i` and only advances that head. -/
theorem get_next_task_from_spec (k : Kernel) (i : Nat) :
    ((get_next_task_from k i).1 = none ↔ ∀ p, p ≤ i → k.ready_queue p = none)
    ∧ ((get_next_task_from k i).1 = none → (get_next_task_from k i).2 = k)
    ∧ ∀ t, (get_next_task_from k i).1 = some t →
      ∃ P, P ≤ i ∧ k.ready_queue P = some t
        ∧ (∀ p, P < p → p ≤ i → k.ready_queue p = none)
        ∧ (get_next_task_from k i).2
          = { k with ready_queue := upd k.ready_queue P (k.tasks t).next } := by
  induction i with
  | zero =>
    cases h0 : k.ready_queue 0 with
    | none =>
      simp only [get_next_task_from, h0]
      refine ⟨⟨fun _ p hp => ?_, fun _ => trivial⟩, fun _ => trivial, fun t ht => by simp at ht⟩
      have : p = 0 := by omega
      rw [this, h0]
    | some t0 =>
      simp only [get_next_task_from, h0]
      refine ⟨⟨fun h => by simp at h, fun h => ?_⟩, fun h => by simp at h, fun t ht => ?_⟩
      · have := h 0 (Nat.le_refl 0)
        rw [h0] at this
        simp at this
      · simp only [Option.some.injEq] at ht
        subst ht
        exact ⟨0, Nat.le_refl 0, h0, fun p h1 h2 => by omega, rfl⟩
  | succ i ih =>
    cases hi : k.ready_queue (i + 1) with
    | none =>
      simp only [get_next_task_from, hi]
      obtain ⟨ih1, ih2, ih3⟩ := ih
      refine ⟨⟨fun h p hp => ?_, fun h => ih1.mpr fun p hp => h p (by omega)⟩, ih2,
        fun t ht => ?_⟩
      · by_cases hp2 : p = i + 1
        · rw [hp2, hi]
        · exact ih1.mp h p (by omega)
      · obtain ⟨P, hP, hq, hup, hst⟩ := ih3 t ht
        refine ⟨P, by omega, hq, fun p h1 h2 => ?_, hst⟩
        by_cases hp2 : p = i + 1
        · rw [hp2, hi]
        · exact hup p h1 (by omega)
    | some t0 =>
      simp only [get_next_task_from, hi]
      refine ⟨⟨fun h => by simp at h, fun h => ?_⟩, fun h => by simp at h, fun t ht => ?_⟩
      · have := h (i + 1) (Nat.le_refl _)
        rw [hi] at this
        simp at this
      · simp only [Option.some.injEq] at ht
        subst ht
        exact ⟨i + 1, Nat.le_refl _, hi, fun p h1 h2 => by omega, rfl⟩

/-- C29: `get_next_task` is strict priority.  It returns `NULL` iff every
`ready_queue[p]`, `p ≤ MAX_PRIORITY`, is empty, and then changes nothing;
otherwise it returns the head `t` of `ready_queue[P]` for the largest `P` with a
non-empty queue, and the state afterwards is the state before with only the
head of `ready_queue[P]` set to `t->next`. -/
theorem c29_get_next_task_strict_priority (k : Kernel) :
    ((get_next_task k).1 = none ↔ ∀ p, p ≤ MAX_PRIORITY → k.ready_queue p = none)
    ∧ ((get_next_task k).1 = none → (get_next_task k).2 = k)
    ∧ ∀ t, (get_next_task k).1 = some t →
      ∃ P, P ≤ MAX_PRIORITY ∧ k.ready_queue P = some t
        ∧ (∀ p, P < p → p ≤ MAX_PRIORITY → k.ready_queue p = none)
        ∧ (get_next_task k).2
          = { k with ready_queue := upd k.ready_queue P (k.tasks t).next } :=
  get_next_task_from_spec k MAX_PRIORITY

/-- Witness of C29: with A and B on `ready_queue[5]` and idle on
`ready_queue[0]`, `get_next_task` returns the head of `ready_queue[5]`. -/
theorem c29_get_next_task_strict_priority_witness :
    (get_next_task three_ready).1 = some 1
    ∧ ∃ P, P ≤ MAX_PRIORITY ∧ three_ready.ready_queue P = some 1
        ∧ (∀ p, P < p → p ≤ MAX_PRIORITY → three_ready.ready_queue p = none)
        ∧ (get_next_task three_ready).2
          = { three_ready with
              ready_queue := upd three_ready.ready_queue P (three_ready.tasks 1).next } :=
  ⟨by decide, (c29_get_next_task_strict_priority three_ready).2.2 1 (by decide)⟩

/-- C26: invalid arguments are rejected without any change of state.
`sem_init` with `initial_count > max_count`, `queue_create` with
`capacity = 0`, and `task_create` with a null `task`, `name` or `func` or with
`priority > MAX_PRIORITY` each return ERROR and leave the whole state as it
was: the semaphore, the allocator, `next_task_id` and the scheduler. -/
theorem c26_invalid_arguments_change_nothing (sem : Option Nat) (initial_count max_count : Nat)
    (k : Kernel) (queue : Option Nat) (sys : System) (task : Option Nat)
    (name : Option (List Nat)) (func : Option Nat) (arg priority stack_size wrapper : Nat)
    (w : TaskWorld) (hsem : max_count < initial_count)
    (htask : task = none ∨ name = none ∨ func = none ∨ MAX_PRIORITY < priority) :
    sem_init sem initial_count max_count k = (ERROR, k)
    ∧ queue_create queue 0 sys = .ok (ERROR, 0, sys)
    ∧ task_create task name func arg priority stack_size wrapper w = .ok (ERROR, w) := by
  refine ⟨?_, ?_, ?_⟩
  · cases sem <;> simp [sem_init, hsem]
  · simp [queue_create]
  · cases task <;> cases name <;> cases func <;> simp_all [task_create]

/-- Witness of C26: `sem_init(s, 2, 1)`, `queue_create(&q, 0)` and
`task_create(&t, "a", f, 0, 16, 0)`. -/
theorem c26_invalid_arguments_change_nothing_witness :
    sem_init (some 0) 2 1 a_running = (ERROR, a_running)
    ∧ queue_create (some 1) 0 queue_boot = .ok (ERROR, 0, queue_boot)
    ∧ task_create (some 1) (some [97]) (some 4096) 0 16 0 8192 world_boot
      = .ok (ERROR, world_boot) :=
  c26_invalid_arguments_change_nothing (some 0) 2 1 a_running (some 1) queue_boot (some 1)
    (some [97]) (some 4096) 0 16 0 8192 world_boot (by decide) (by decide)

/-! ## What the queue operations leave unchanged -/

theorem same_but_links_refl (k : Kernel) : same_but_links k k :=
  ⟨rfl, rfl, rfl, rfl, rfl, rfl, rfl, fun _ => ⟨rfl, rfl, rfl, rfl, rfl⟩⟩

theorem same_but_links_trans (k1 k2 k3 : Kernel) (h1 : same_but_links k1 k2)
    (h2 : same_but_links k2 k3) : same_but_links k1 k3 := by
  obtain ⟨a1, a2, a3, a4, a5, a6, a7, a8⟩ := h1
  obtain ⟨b1, b2, b3, b4, b5, b6, b7, b8⟩ := h2
  refine ⟨b1.trans a1, b2.trans a2, b3.trans a3, b4.trans a4, b5.trans a5, b6.trans a6,
    b7.trans a7, fun a => ?_⟩
  obtain ⟨c1, c2, c3, c4, c5⟩ := a8 a
  obtain ⟨d1, d2, d3, d4, d5⟩ := b8 a
  exact ⟨d1.trans c1, d2.trans c2, d3.trans c3, d4.trans c4, d5.trans c5⟩

theorem set_next_links (k : Kernel) (t : Nat) (v : Option Nat) :
    same_but_links k (k.set_next t v) := by
  refine ⟨rfl, rfl, rfl, rfl, rfl, rfl, rfl, fun a => ?_⟩
  by_cases h : a = t <;> simp [Kernel.set_next, upd, h]

theorem set_prev_links (k : Kernel) (t : Nat) (v : Option Nat) :
    same_but_links k (k.set_prev t v) := by
  refine ⟨rfl, rfl, rfl, rfl, rfl, rfl, rfl, fun a => ?_⟩
  by_cases h : a = t <;> simp [Kernel.set_prev, upd, h]

theorem setq_links (k : Kernel) (q : queue_ref) (v : Option Nat) :
    same_but_links k (k.setq q v) := by
  cases q <;> exact ⟨rfl, rfl, rfl, rfl, rfl, rfl, rfl, fun _ => ⟨rfl, rfl, rfl, rfl, rfl⟩⟩

theorem add_to_queue_links (q : queue_ref) (t : Nat) (k k2 : Kernel)
    (h : add_to_queue q t k = .ok k2) : same_but_links k k2 := by
  simp only [add_to_queue] at h
  split at h
  · cases h
    exact same_but_links_trans _ _ _ (setq_links k q _)
      (same_but_links_trans _ _ _ (set_next_links _ _ _) (set_prev_links _ _ _))
  · split at h
    · cases h
    · cases h
      exact same_but_links_trans _ _ _ (set_next_links k _ _)
        (same_but_links_trans _ _ _ (set_prev_links _ _ _)
          (same_but_links_trans _ _ _ (set_next_links _ _ _) (set_prev_links _ _ _)))

theorem remove_from_queue_links (q : queue_ref) (t : Option Nat) (k k2 : Kernel)
    (h : remove_from_queue q t k = .ok k2) : same_but_links k k2 := by
  simp only [remove_from_queue] at h
  split at h
  · cases h; exact same_but_links_refl k
  · cases h; exact same_but_links_refl k
  · split at h
    · cases h
      exact same_but_links_trans _ _ _ (setq_links k q _)
        (same_but_links_trans _ _ _ (set_next_links _ _ _) (set_prev_links _ _ _))
    · have hk1 : ∀ (head t : Nat), same_but_links k
          (if head = t then k.setq q (k.tasks t).next else k) := by
        intro head t
        split
        · exact setq_links k q _
        · exact same_but_links_refl k
      split at h
      · cases h
      · split at h
        · cases h
        · cases h
          exact same_but_links_trans _ _ _ (hk1 _ _)
            (same_but_links_trans _ _ _ (set_next_links _ _ _)
              (same_but_links_trans _ _ _ (set_prev_links _ _ _)
                (same_but_links_trans _ _ _ (set_next_links _ _ _) (set_prev_links _ _ _))))

/-! ## The tick handler -/

theorem wake_frame_refl (k : Kernel) : wake_frame k k :=
  ⟨rfl, rfl, rfl, rfl, rfl, rfl, rfl, fun _ => ⟨rfl, rfl, rfl⟩, fun _ _ => ⟨rfl, rfl⟩⟩

theorem wake_frame_trans (k1 k2 k3 : Kernel) (h1 : wake_frame k1 k2) (h2 : wake_frame k2 k3) :
    wake_frame k1 k3 := by
  obtain ⟨a1, a2, a3, a4, a5, a6, a7, a8, a9⟩ := h1
  obtain ⟨b1, b2, b3, b4, b5, b6, b7, b8, b9⟩ := h2
  refine ⟨b1.trans a1, b2.trans a2, b3.trans a3, b4.trans a4, b5.trans a5, b6.trans a6,
    b7.trans a7, fun a => ?_, fun a hd => ?_⟩
  · obtain ⟨c1, c2, c3⟩ := a8 a
    obtain ⟨d1, d2, d3⟩ := b8 a
    exact ⟨d1.trans c1, d2.trans c2, d3.trans c3⟩
  · obtain ⟨c1, c2⟩ := a9 a hd
    have hd2 : ¬ due k2 a := by
      unfold due at *
      rw [c2, a4]
      exact hd
    obtain ⟨d1, d2⟩ := b9 a hd2
    exact ⟨d1.trans c1, d2.trans c2⟩

theorem wake_frame_of_links (k k2 : Kernel) (h : same_but_links k k2) : wake_frame k k2 := by
  obtain ⟨a1, a2, a3, a4, a5, a6, a7, a8⟩ := h
  exact ⟨a1, a2, a3, a4, a5, a6, a7, fun a => ⟨(a8 a).2.2.1, (a8 a).2.1, (a8 a).2.2.2.2⟩,
    fun a _ => ⟨(a8 a).1, (a8 a).2.2.2.1⟩⟩

/-- Waking a due task changes, besides links and queue heads, only that task's
state and `wake_time`. -/
theorem unblock_due_frame (k k2 : Kernel) (t : Nat) (hd : due k t)
    (h : scheduler_unblock_task (some t) (k.set_wake_time t 0) = .ok k2) : wake_frame k k2 := by
  simp only [scheduler_unblock_task] at h
  split at h
  · cases h
  · rename_i k3 hrem
    have l1 := remove_from_queue_links _ _ _ _ hrem
    split at h
    · have l2 := add_to_queue_links _ _ _ _ h
      obtain ⟨a1, a2, a3, a4, a5, a6, a7, a8⟩ := l1
      obtain ⟨b1, b2, b3, b4, b5, b6, b7, b8⟩ := l2
      refine ⟨b1.trans a1, b2.trans a2, b3.trans a3, b4.trans a4, b5.trans a5, b6.trans a6,
        b7.trans a7, fun a => ?_, fun a hda => ?_⟩
      · obtain ⟨c1, c2, c3, c4, c5⟩ := a8 a
        obtain ⟨d1, d2, d3, d4, d5⟩ := b8 a
        rw [d2, d3, d5]
        by_cases hat : a = t
        · subst hat
          simp only [Kernel.set_state, upd, if_true]
          rw [c2, c3, c5]
          simp [Kernel.set_wake_time, upd]
        · simp only [Kernel.set_state, upd, if_neg hat]
          rw [c2, c3, c5]
          simp [Kernel.set_wake_time, upd, hat]
      · have hat : a ≠ t := by
          intro heq
          subst heq
          exact hda hd
        obtain ⟨c1, c2, c3, c4, c5⟩ := a8 a
        obtain ⟨d1, d2, d3, d4, d5⟩ := b8 a
        rw [d1, d4]
        simp only [Kernel.set_state, upd, if_neg hat]
        rw [c1, c4]
        simp [Kernel.set_wake_time, upd, hat]
    · cases h

/-- The wake-up loop changes, besides links and queue heads, only the state and
`wake_time` of tasks that are due. -/
theorem tick_wake_loop_frame (fuel : Nat) : ∀ (task : Nat) (k k2 : Kernel),
    tick_wake_loop fuel task k = .ok k2 → wake_frame k k2 := by
  induction fuel with
  | zero =>
    intro task k k2 h
    simp [tick_wake_loop] at h
  | succ n ih =>
    intro task k k2 h
    simp only [tick_wake_loop] at h
    by_cases hd : 0 < (k.tasks task).wake_time ∧ (k.tasks task).wake_time ≤ k.tick_count
    · simp only [hd, and_self, if_true] at h
      cases hu : scheduler_unblock_task (some task) (k.set_wake_time task 0) with
      | fault f => simp [hu] at h
      | ok k1 =>
        have f1 := unblock_due_frame k k1 task hd hu
        simp only [hu] at h
        split at h
        · cases h; exact f1
        · split at h
          · exact wake_frame_trans _ _ _ f1 (ih _ _ _ h)
          · cases h; exact f1
    · simp only [hd, if_false] at h
      split at h
      · cases h; exact wake_frame_refl k
      · split at h
        · exact ih _ _ _ h
        · cases h; exact wake_frame_refl k

/-- On a blocked ring none of whose tasks is due, the wake-up loop returns
without changing anything once the fuel covers the ring. -/
theorem tick_wake_loop_no_due (k : Kernel) (head : Nat) (hq : k.blocked_queue = some head) :
    ∀ (l : List Nat) (t fuel : Nat), ring_from k head t l → (∀ a ∈ t :: l, ¬ due k a) →
      l.length < fuel → tick_wake_loop fuel t k = .ok k := by
  intro l
  induction l with
  | nil =>
    intro t fuel hr hnd hf
    obtain ⟨n, rfl⟩ : ∃ n, fuel = n + 1 := ⟨fuel - 1, by simp at hf; omega⟩
    have hd : ¬ (0 < (k.tasks t).wake_time ∧ (k.tasks t).wake_time ≤ k.tick_count) :=
      hnd t (by simp)
    simp only [ring_from] at hr
    simp [tick_wake_loop, hd, hr, hq]
  | cons n rest ih =>
    intro t fuel hr hnd hf
    obtain ⟨m, rfl⟩ : ∃ m, fuel = m + 1 := ⟨fuel - 1, by simp at hf; omega⟩
    have hd : ¬ (0 < (k.tasks t).wake_time ∧ (k.tasks t).wake_time ≤ k.tick_count) :=
      hnd t (by simp)
    obtain ⟨hn, hne, hrest⟩ := hr
    have hrec := ih n m hrest (fun a ha => hnd a (List.mem_cons_of_mem _ ha))
      (by simp at hf; omega)
    simp [tick_wake_loop, hd, hn, hq, hne, hrec]

/-- With preemption disabled the handler is the increment of `tick_count`
followed by the wake-up pass, and nothing else. -/
theorem tick_handler_disabled_eq (fuel : Nat) (k : Kernel)
    (hp : k.preemption_enabled = false) :
    scheduler_tick_handler fuel k
      = match k.blocked_queue with
        | none => .ok (tick_advanced k)
        | some task => tick_wake_loop fuel task (tick_advanced k) := by
  cases hb : k.blocked_queue with
  | none =>
    cases hc : k.current_task <;> simp [scheduler_tick_handler, tick_advanced, hb, hc, hp]
  | some task =>
    cases hl : tick_wake_loop fuel task (tick_advanced k) with
    | fault f =>
      have hl2 := hl
      simp only [tick_advanced, hb] at hl2
      simp [scheduler_tick_handler, hb, hl2, hl]
    | ok k2 =>
      have hf := tick_wake_loop_frame fuel task _ k2 hl
      have hp2 : k2.preemption_enabled = false := by
        rw [hf.2.2.2.2.2.1]; exact hp
      have hl2 := hl
      simp only [tick_advanced, hb] at hl2
      cases hc : k2.current_task <;> simp [scheduler_tick_handler, hb, hl2, hl, hc, hp2]

/-- While preemption is disabled, `scheduler_tick_handler` is the increment
of `tick_count` (by one, in `uint32_t`) followed by the wake-up pass and nothing
else: it does not decrement a time slice and does not call `schedule()`.
Whenever it returns, `tick_count` is one more, preemption is still disabled,
the current task is the same, every time slice and priority is unchanged, and
the state of the current task is unchanged unless that task was itself a due
sleeper.  It returns when no task is blocked, and when the blocked queue is a
ring without a due task. -/
theorem tick_with_preemption_disabled (fuel : Nat) (k : Kernel)
    (hp : k.preemption_enabled = false) :
    (scheduler_tick_handler fuel k
      = match k.blocked_queue with
        | none => .ok (tick_advanced k)
        | some task => tick_wake_loop fuel task (tick_advanced k))
    ∧ (∀ k2, scheduler_tick_handler fuel k = .ok k2 →
        k2.tick_count = (k.tick_count + 1) % UINT32_MOD
        ∧ k2.preemption_enabled = false
        ∧ k2.current_task = k.current_task ∧ k2.task_current = k.task_current
        ∧ (∀ a, (k2.tasks a).time_slice = (k.tasks a).time_slice
            ∧ (k2.tasks a).priority = (k.tasks a).priority)
        ∧ ∀ c, k.current_task = some c → ¬ due (tick_advanced k) c →
            (k2.tasks c).state = (k.tasks c).state)
    ∧ (k.blocked_queue = none → scheduler_tick_handler fuel k = .ok (tick_advanced k))
    ∧ (∀ head l, k.blocked_queue = some head → ring_from (tick_advanced k) head head l →
        (∀ a ∈ head :: l, ¬ due (tick_advanced k) a) → l.length < fuel →
        scheduler_tick_handler fuel k = .ok (tick_advanced k)) := by
  have heq := tick_handler_disabled_eq fuel k hp
  refine ⟨heq, fun k2 h => ?_, fun hb => ?_, fun head l hb hr hnd hf => ?_⟩
  · rw [heq] at h
    have hf : wake_frame (tick_advanced k) k2 := by
      cases hb : k.blocked_queue with
      | none =>
        simp only [hb, Outcome.ok.injEq] at h
        rw [← h]; exact wake_frame_refl _
      | some task =>
        simp only [hb] at h
        exact tick_wake_loop_frame fuel task _ k2 h
    obtain ⟨_, a2, a3, a4, _, a6, _, a8, a9⟩ := hf
    refine ⟨a4, by rw [a6]; exact hp, a2, a3, fun a => ⟨(a8 a).1, (a8 a).2.1⟩, fun c _ hd => ?_⟩
    exact (a9 c hd).1
  · rw [heq, hb]
  · rw [heq, hb]
    exact tick_wake_loop_no_due (tick_advanced k) head hb l head fuel hr hnd hf

/-! ## task_sleep -/

theorem tasks_set_next (k : Kernel) (t : Nat) (v : Option Nat) (a : Nat) :
    ((k.set_next t v).tasks a).next = (if a = t then v else (k.tasks a).next)
    ∧ ((k.set_next t v).tasks a).prev = (k.tasks a).prev := by
  by_cases h : a = t <;> simp [Kernel.set_next, upd, h]

theorem tasks_set_prev (k : Kernel) (t : Nat) (v : Option Nat) (a : Nat) :
    ((k.set_prev t v).tasks a).prev = (if a = t then v else (k.tasks a).prev)
    ∧ ((k.set_prev t v).tasks a).next = (k.tasks a).next := by
  by_cases h : a = t <;> simp [Kernel.set_prev, upd, h]

theorem heads_set_next (k : Kernel) (t : Nat) (v : Option Nat) :
    (k.set_next t v).ready_queue = k.ready_queue
    ∧ (k.set_next t v).blocked_queue = k.blocked_queue := ⟨rfl, rfl⟩

theorem heads_set_prev (k : Kernel) (t : Nat) (v : Option Nat) :
    (k.set_prev t v).ready_queue = k.ready_queue
    ∧ (k.set_prev t v).blocked_queue = k.blocked_queue := ⟨rfl, rfl⟩

theorem setq_ready (k : Kernel) (i : Nat) (v : Option Nat) :
    (k.setq (.ready i) v).tasks = k.tasks
    ∧ (k.setq (.ready i) v).blocked_queue = k.blocked_queue
    ∧ ∀ p, (k.setq (.ready i) v).ready_queue p = if p = i then v else k.ready_queue p := by
  refine ⟨rfl, rfl, fun p => ?_⟩
  simp [Kernel.setq, upd]

theorem setq_blocked (k : Kernel) (v : Option Nat) :
    (k.setq .blocked v).tasks = k.tasks
    ∧ (k.setq .blocked v).blocked_queue = v
    ∧ (k.setq .blocked v).ready_queue = k.ready_queue := ⟨rfl, rfl, rfl⟩

/-- Removing a linked task through `ready_queue[i]` returns. -/
theorem remove_from_queue_returns (i t : Nat) (k : Kernel)
    (hn : (k.tasks t).next ≠ none) (hp : (k.tasks t).prev ≠ none) :
    ∃ k2, remove_from_queue (.ready i) (some t) k = .ok k2 := by
  obtain ⟨n, hn2⟩ := Option.ne_none_iff_exists'.mp hn
  obtain ⟨p, hp2⟩ := Option.ne_none_iff_exists'.mp hp
  cases hq : k.ready_queue i with
  | none => exact ⟨k, by simp [remove_from_queue, Kernel.getq, hq]⟩
  | some head =>
    by_cases hself : (k.tasks t).next = some t
    · simp only [remove_from_queue, Kernel.getq, hq, hself, if_true]
      exact ⟨_, rfl⟩
    · simp only [remove_from_queue, Kernel.getq, hq, hself, if_false]
      have h1 : ((if head = t then k.setq (.ready i) (k.tasks t).next else k).tasks t).prev
          = some p := by
        split
        · rw [(setq_ready k i _).1]; exact hp2
        · exact hp2
      have h2 : (((if head = t then k.setq (.ready i) (k.tasks t).next else k).set_next p
          ((if head = t then k.setq (.ready i) (k.tasks t).next else k).tasks t).next).tasks
            t).next = some n := by
        rw [(tasks_set_next _ _ _ _).1]
        have h3 : ((if head = t then k.setq (.ready i) (k.tasks t).next else k).tasks t).next
            = some n := by
          split
          · rw [(setq_ready k i _).1]; exact hn2
          · exact hn2
        split
        · exact h3
        · exact h3
      simp only [h1, h2]
      exact ⟨_, rfl⟩

/-- What a returning `remove_from_queue(&ready_queue[i], t)` leaves behind: `t`
is not the head of that queue, the other heads are as before, and no other
task has lost its `prev` link. -/
theorem remove_from_queue_heads (i t : Nat) (k k2 : Kernel)
    (h : remove_from_queue (.ready i) (some t) k = .ok k2) :
    k2.blocked_queue = k.blocked_queue
    ∧ k2.ready_queue i ≠ some t
    ∧ (∀ p, p ≠ i → k2.ready_queue p = k.ready_queue p)
    ∧ (∀ a, a ≠ t → (k.tasks a).prev ≠ none → (k2.tasks a).prev ≠ none) := by
  simp only [remove_from_queue, Kernel.getq] at h
  split at h
  · rename_i hq
    cases h
    exact ⟨rfl, by rw [hq]; simp, fun _ _ => rfl, fun _ _ hp => hp⟩
  · rename_i hq
    simp at hq
  · rename_i head t2 hq ht
    simp only [Option.some.injEq] at ht
    subst ht
    split at h
    · cases h
      refine ⟨rfl, ?_, fun p hp => ?_, fun a ha hpa => ?_⟩
      · rw [(heads_set_prev _ _ _).1, (heads_set_next _ _ _).1, (setq_ready _ _ _).2.2]
        simp
      · rw [(heads_set_prev _ _ _).1, (heads_set_next _ _ _).1, (setq_ready _ _ _).2.2,
          if_neg hp]
      · rw [(tasks_set_prev _ _ _ _).1, if_neg ha, (tasks_set_next _ _ _ _).2,
          (setq_ready _ _ _).1]
        exact hpa
    · rename_i hself
      split at h
      · cases h
      · rename_i p hp2
        split at h
        · cases h
        · rename_i n hn2
          cases h
          have htasks : (if head = t then k.setq (.ready i) (k.tasks t).next else k).tasks
              = k.tasks := by
            split
            · exact (setq_ready _ _ _).1
            · rfl
          have hbq : (if head = t then k.setq (.ready i) (k.tasks t).next else k).blocked_queue
              = k.blocked_queue := by
            split
            · exact (setq_ready _ _ _).2.1
            · rfl
          refine ⟨hbq, ?_, fun q hqi => ?_, fun a ha hpa => ?_⟩
          · rw [(heads_set_prev _ _ _).1, (heads_set_next _ _ _).1,
              (heads_set_prev _ _ _).1, (heads_set_next _ _ _).1]
            split
            · rw [(setq_ready _ _ _).2.2, if_pos rfl]
              exact hself
            · rename_i hne
              rw [hq]
              simpa using hne
          · rw [(heads_set_prev _ _ _).1, (heads_set_next _ _ _).1,
              (heads_set_prev _ _ _).1, (heads_set_next _ _ _).1]
            split
            · rw [(setq_ready _ _ _).2.2, if_neg hqi]
            · rfl
          · rw [(tasks_set_prev _ _ _ _).1, if_neg ha, (tasks_set_next _ _ _ _).2,
              (tasks_set_prev _ _ _ _).1]
            split
            · rw [(tasks_set_next _ _ _ _).2, hp2]
              simp
            · rw [(tasks_set_next _ _ _ _).2, htasks]
              exact hpa

/-- Appending to the blocked queue returns when the head of the queue, if any,
has a `prev` link. -/
theorem add_to_blocked_returns (t : Nat) (k : Kernel)
    (hb : ∀ h, k.blocked_queue = some h → (k.tasks h).prev ≠ none) :
    ∃ k2, add_to_queue .blocked t k = .ok k2 := by
  cases hq : k.blocked_queue with
  | none =>
    simp only [add_to_queue, Kernel.getq, hq]
    exact ⟨_, rfl⟩
  | some head =>
    obtain ⟨tl, htl⟩ := Option.ne_none_iff_exists'.mp (hb head hq)
    simp only [add_to_queue, Kernel.getq, hq]
    have h1 : (((k.set_next t (some head)).set_prev t
        ((k.set_next t (some head)).tasks head).prev).tasks head).prev = some tl := by
      rw [(tasks_set_prev _ _ _ _).1, (tasks_set_next _ _ _ _).2, htl]
      split <;> rfl
    simp only [h1]
    exact ⟨_, rfl⟩

/-- After a returning `add_to_queue(&blocked_queue, t)` the ready queues are as
before and `t` is the tail of the blocked queue. -/
theorem add_to_blocked_tail (t : Nat) (k k2 : Kernel)
    (h : add_to_queue .blocked t k = .ok k2) :
    k2.ready_queue = k.ready_queue
    ∧ ∃ hd, k2.blocked_queue = some hd ∧ (k2.tasks hd).prev = some t := by
  simp only [add_to_queue, Kernel.getq] at h
  split at h
  · cases h
    refine ⟨rfl, t, rfl, ?_⟩
    rw [(tasks_set_prev _ _ _ _).1, if_pos rfl]
  · rename_i head hq
    split at h
    · cases h
    · cases h
      refine ⟨rfl, head, hq, ?_⟩
      rw [(tasks_set_prev _ _ _ _).1, if_pos rfl]

/-- When the current task is not Running, `schedule()` returns; it leaves the
blocked queue, every `wake_time` and every link as they are, and a task that is
the head of no ready queue keeps its state and is not dispatched. -/
theorem schedule_of_blocked_current (k : Kernel) (t : Nat)
    (hrun : k.scheduler_running = true) (hc : k.current_task = some t)
    (hs : (k.tasks t).state ≠ TASK_RUNNING) :
    ∃ k5, schedule k = .ok k5 ∧ k5.blocked_queue = k.blocked_queue
      ∧ (∀ a, (k5.tasks a).wake_time = (k.tasks a).wake_time
          ∧ (k5.tasks a).next = (k.tasks a).next ∧ (k5.tasks a).prev = (k.tasks a).prev)
      ∧ ∀ a, (∀ p, p ≤ MAX_PRIORITY → k.ready_queue p ≠ some a) →
          (k5.tasks a).state = (k.tasks a).state ∧ k5.current_task ≠ some a := by
  obtain ⟨g1, g2, g3⟩ := get_next_task_from_spec k MAX_PRIORITY
  have hreq : schedule k = match get_next_task k with
      | (some new_task, k) =>
        .ok { (k.set_state new_task TASK_RUNNING).set_time_slice new_task TIME_SLICE_MS with
          current_task := some new_task, task_current := some new_task }
      | (none, k) => .ok { k with current_task := none, task_current := none } := by
    simp only [schedule, hrun, hc, hs]
    rfl
  cases hg : (get_next_task k).1 with
  | none =>
    have hpair : get_next_task k = (none, k) := Prod.ext hg (g2 hg)
    rw [hpair] at hreq
    exact ⟨_, hreq, rfl, fun a => ⟨rfl, rfl, rfl⟩, fun a _ => ⟨rfl, by simp⟩⟩
  | some new =>
    obtain ⟨P, hP, hq, _, hst⟩ := g3 new hg
    have hpair : get_next_task k
        = (some new, { k with ready_queue := upd k.ready_queue P (k.tasks new).next }) :=
      Prod.ext hg hst
    rw [hpair] at hreq
    refine ⟨_, hreq, rfl, fun a => ?_, fun a ha => ?_⟩
    · by_cases h : a = new <;> simp [Kernel.set_state, Kernel.set_time_slice, upd, h]
    · have hne : a ≠ new := by
        intro heq
        subst heq
        exact ha P hP hq
      refine ⟨by simp [Kernel.set_state, Kernel.set_time_slice, upd, hne], ?_⟩
      simp only [ne_eq, Option.some.injEq]
      exact fun h => hne h.symm

theorem tasks_set_state (k : Kernel) (t : Nat) (v : task_state_t) (a : Nat) :
    ((k.set_state t v).tasks a).next = (k.tasks a).next
    ∧ ((k.set_state t v).tasks a).prev = (k.tasks a).prev
    ∧ ((k.set_state t v).tasks a).priority = (k.tasks a).priority
    ∧ ((k.set_state t v).tasks a).wait_obj = (k.tasks a).wait_obj
    ∧ ((k.set_state t v).tasks t).state = v := by
  by_cases h : a = t <;> simp [Kernel.set_state, upd, h]

/-- What `scheduler_block_task(t)` does for a task `t` with both links set, when
the head of the blocked queue (if any) is another task with a `prev` link and
`t` is the head of no ready queue of another priority: it returns, `t` is
Blocked, is the tail of the blocked queue and is the head of no ready queue. -/
theorem scheduler_block_task_blocks (k : Kernel) (t : Nat)
    (hprio : (k.tasks t).priority ≤ MAX_PRIORITY)
    (hn : (k.tasks t).next ≠ none) (hp : (k.tasks t).prev ≠ none)
    (hb : ∀ h, k.blocked_queue = some h → h ≠ t ∧ (k.tasks h).prev ≠ none)
    (hq : ∀ p, p ≤ MAX_PRIORITY → p ≠ (k.tasks t).priority → k.ready_queue p ≠ some t) :
    ∃ k4, scheduler_block_task (some t) k = .ok k4
      ∧ k4.sems = k.sems ∧ k4.current_task = k.current_task
      ∧ k4.scheduler_running = k.scheduler_running
      ∧ (k4.tasks t).state = TASK_BLOCKED
      ∧ (∀ a, (k4.tasks a).wait_obj = (k.tasks a).wait_obj)
      ∧ (∃ hd, k4.blocked_queue = some hd ∧ (k4.tasks hd).prev = some t)
      ∧ (∀ p, p ≤ MAX_PRIORITY → k4.ready_queue p ≠ some t) := by
  have hm := tasks_set_state k t TASK_BLOCKED
  have hn2 : ((k.set_state t TASK_BLOCKED).tasks t).next ≠ none := by
    rw [(hm t).1]; exact hn
  have hp2 : ((k.set_state t TASK_BLOCKED).tasks t).prev ≠ none := by
    rw [(hm t).2.1]; exact hp
  obtain ⟨k3, hrem⟩ := remove_from_queue_returns (k.tasks t).priority t _ hn2 hp2
  obtain ⟨r1, r2, r3, r4⟩ := remove_from_queue_heads _ _ _ _ hrem
  have l3 := remove_from_queue_links _ _ _ _ hrem
  have hb3 : ∀ h, k3.blocked_queue = some h → (k3.tasks h).prev ≠ none := by
    intro h hh
    rw [r1] at hh
    obtain ⟨hne, hpr⟩ := hb h hh
    exact r4 h hne (by rw [(hm h).2.1]; exact hpr)
  obtain ⟨k4, hadd⟩ := add_to_blocked_returns t k3 hb3
  obtain ⟨a1, hd, a2, a3⟩ := add_to_blocked_tail t k3 k4 hadd
  have l4 := add_to_queue_links _ _ _ _ hadd
  have l34 := same_but_links_trans _ _ _ l3 l4
  obtain ⟨c1, c2, _, _, _, _, c7, c8⟩ := l34
  have hblock : scheduler_block_task (some t) k = .ok k4 := by
    simp only [scheduler_block_task, (hm t).2.2.1, hprio, if_true, hrem, hadd]
  refine ⟨k4, hblock, c1, c2, c7, ?_, fun a => ?_, ⟨hd, a2, a3⟩, fun p hp => ?_⟩
  · rw [(c8 t).1]; exact (hm t).2.2.2.2
  · rw [(c8 a).2.2.2.2]; exact (hm a).2.2.2.1
  · rw [a1]
    by_cases hpp : p = (k.tasks t).priority
    · rw [hpp]; exact r2
    · rw [r3 p hpp]
      exact hq p hp hpp

/-- The rest of `schedule()` when the current task is not Running: the
semaphores and every `wait_obj` are unchanged. -/
theorem schedule_of_blocked_current_frame (k k5 : Kernel) (t : Nat)
    (hrun : k.scheduler_running = true) (hc : k.current_task = some t)
    (hs : (k.tasks t).state ≠ TASK_RUNNING) (h : schedule k = .ok k5) :
    k5.sems = k.sems ∧ ∀ a, (k5.tasks a).wait_obj = (k.tasks a).wait_obj := by
  obtain ⟨g1, g2, g3⟩ := get_next_task_from_spec k MAX_PRIORITY
  have hreq : schedule k = match get_next_task k with
      | (some new_task, k) =>
        .ok { (k.set_state new_task TASK_RUNNING).set_time_slice new_task TIME_SLICE_MS with
          current_task := some new_task, task_current := some new_task }
      | (none, k) => .ok { k with current_task := none, task_current := none } := by
    simp only [schedule, hrun, hc, hs]
    rfl
  rw [hreq] at h
  cases hg : (get_next_task k).1 with
  | none =>
    have hpair : get_next_task k = (none, k) := Prod.ext hg (g2 hg)
    rw [hpair] at h
    simp only [Outcome.ok.injEq] at h
    subst h
    exact ⟨rfl, fun a => rfl⟩
  | some new =>
    obtain ⟨P, hP, hq, _, hst⟩ := g3 new hg
    have hpair : get_next_task k
        = (some new, { k with ready_queue := upd k.ready_queue P (k.tasks new).next }) :=
      Prod.ext hg hst
    rw [hpair] at h
    simp only [Outcome.ok.injEq] at h
    subst h
    refine ⟨rfl, fun a => ?_⟩
    by_cases h : a = new <;> simp [Kernel.set_state, Kernel.set_time_slice, upd, h]


theorem sem_wait_enter_of_empty (k : Kernel) (s timeout_ms cur : Nat)
    (hv : (k.sems s).valid = true) (hc : (k.sems s).count = 0)
    (hw : (k.sems s).wait_queue = none) (hcur : k.task_current = some cur) :
    sem_wait_enter (some s) timeout_ms k
      = match scheduler_block_task (some cur) (sem_wait_before_block k s timeout_ms cur) with
        | .fault f => .fault f
        | .ok k => .ok (.blocking cur, k) := by
  by_cases ht : 0 < timeout_ms <;>
  simp [sem_wait_enter, hv, hc, hw, task_get_current, hcur, sem_add_waiter,
    scheduler_disable_preemption, sem_wait_before_block, ht, Kernel.set_sem, Kernel.set_next,
    Kernel.set_prev, Kernel.set_wait_obj, Kernel.set_wake_time]

theorem sem_wait_before_block_fields (k : Kernel) (s timeout_ms cur : Nat) :
    (sem_wait_before_block k s timeout_ms cur).ready_queue = k.ready_queue
    ∧ (sem_wait_before_block k s timeout_ms cur).blocked_queue = k.blocked_queue
    ∧ (sem_wait_before_block k s timeout_ms cur).current_task = k.current_task
    ∧ (sem_wait_before_block k s timeout_ms cur).scheduler_running = k.scheduler_running
    ∧ (sem_wait_before_block k s timeout_ms cur).sems s
      = { k.sems s with wait_queue := some cur }
    ∧ ((sem_wait_before_block k s timeout_ms cur).tasks cur).next = some cur
    ∧ ((sem_wait_before_block k s timeout_ms cur).tasks cur).prev = some cur
    ∧ ((sem_wait_before_block k s timeout_ms cur).tasks cur).wait_obj = some s
    ∧ (∀ a, ((sem_wait_before_block k s timeout_ms cur).tasks a).priority
        = (k.tasks a).priority)
    ∧ (∀ a, a ≠ cur → ((sem_wait_before_block k s timeout_ms cur).tasks a).prev
        = (k.tasks a).prev) := by
  by_cases ht : 0 < timeout_ms
  · refine ⟨?_, ?_, ?_, ?_, ?_, ?_, ?_, ?_, fun a => ?_, fun a ha => ?_⟩ <;>
    first
      | (simp [sem_wait_before_block, ht, scheduler_enable_preemption,
          scheduler_disable_preemption, Kernel.set_sem, Kernel.set_next, Kernel.set_prev,
          Kernel.set_wait_obj, Kernel.set_wake_time, upd]; done)
      | (by_cases h : a = cur <;>
          simp [sem_wait_before_block, ht, scheduler_enable_preemption,
            scheduler_disable_preemption, Kernel.set_sem, Kernel.set_next, Kernel.set_prev,
            Kernel.set_wait_obj, Kernel.set_wake_time, upd, h]; done)
      | simp [sem_wait_before_block, ht, scheduler_enable_preemption,
          scheduler_disable_preemption, Kernel.set_sem, Kernel.set_next, Kernel.set_prev,
          Kernel.set_wait_obj, Kernel.set_wake_time, upd, ha]
  · refine ⟨?_, ?_, ?_, ?_, ?_, ?_, ?_, ?_, fun a => ?_, fun a ha => ?_⟩ <;>
    first
      | (simp [sem_wait_before_block, ht, scheduler_enable_preemption,
          scheduler_disable_preemption, Kernel.set_sem, Kernel.set_next, Kernel.set_prev,
          Kernel.set_wait_obj, Kernel.set_wake_time, upd]; done)
      | (by_cases h : a = cur <;>
          simp [sem_wait_before_block, ht, scheduler_enable_preemption,
            scheduler_disable_preemption, Kernel.set_sem, Kernel.set_next, Kernel.set_prev,
            Kernel.set_wait_obj, Kernel.set_wake_time, upd, h]; done)
      | simp [sem_wait_before_block, ht, scheduler_enable_preemption,
          scheduler_disable_preemption, Kernel.set_sem, Kernel.set_next, Kernel.set_prev,
          Kernel.set_wait_obj, Kernel.set_wake_time, upd, ha]

/-- A `sem_wait` on a valid semaphore with count 0 and no waiter, called by the
running task `cur` of a running scheduler, does not return to its caller when
`cur` is the head of no ready queue of another priority and the head of the
blocked queue (if any) is another task with a `prev` link: the call reaches
`schedule()`, which returns in the context of another task (or of none), with
`count = 0`, `cur` at the head of the wait queue, `wait_obj = s`, state Blocked,
and `cur` not the current task. -/
theorem sem_wait_call_blocks (k : Kernel) (s timeout_ms cur : Nat)
    (hv : (k.sems s).valid = true) (hc : (k.sems s).count = 0)
    (hw : (k.sems s).wait_queue = none)
    (hrun : k.scheduler_running = true)
    (hcur : k.task_current = some cur) (hcur2 : k.current_task = some cur)
    (hprio : (k.tasks cur).priority ≤ MAX_PRIORITY)
    (hblk : ∀ h, k.blocked_queue = some h → h ≠ cur ∧ (k.tasks h).prev ≠ none)
    (hq : ∀ p, p ≤ MAX_PRIORITY → p ≠ (k.tasks cur).priority → k.ready_queue p ≠ some cur) :
    ∃ kb, sem_wait_call (some s) timeout_ms k = .ok (.blocking cur, kb)
      ∧ (kb.sems s).count = 0 ∧ (kb.sems s).wait_queue = some cur
      ∧ (kb.tasks cur).wait_obj = some s ∧ (kb.tasks cur).state = TASK_BLOCKED
      ∧ kb.current_task ≠ some cur := by
  obtain ⟨f1, f2, f3, f4, f5, f6, f7, f8, f9, f10⟩ :=
    sem_wait_before_block_fields k s timeout_ms cur
  obtain ⟨k4, b1, b2, b3, b4, b5, b6, _, b8⟩ :=
    scheduler_block_task_blocks (sem_wait_before_block k s timeout_ms cur) cur
      (by rw [f9]; exact hprio) (by rw [f6]; simp) (by rw [f7]; simp)
      (by
        intro h hh
        rw [f2] at hh
        obtain ⟨hne, hpr⟩ := hblk h hh
        exact ⟨hne, by rw [f10 h hne]; exact hpr⟩)
      (by
        intro p hp hpp
        rw [f9] at hpp
        rw [f1]
        exact hq p hp hpp)
  obtain ⟨k5, s1, _, _, s4⟩ := schedule_of_blocked_current k4 cur
    (by rw [b4, f4]; exact hrun) (by rw [b3, f3]; exact hcur2) (by rw [b5]; decide)
  obtain ⟨s5, s6⟩ := schedule_of_blocked_current_frame k4 k5 cur
    (by rw [b4, f4]; exact hrun) (by rw [b3, f3]; exact hcur2) (by rw [b5]; decide) s1
  refine ⟨k5, ?_, ?_, ?_, ?_, ?_, (s4 cur b8).2⟩
  · simp only [sem_wait_call, sem_wait_enter_of_empty k s timeout_ms cur hv hc hw hcur, b1, s1]
  · rw [s5, b2, f5]; exact hc
  · rw [s5, b2, f5]
  · rw [s6, b6, f8]
  · rw [(s4 cur b8).1]; exact b5

/-- The semaphore law for a caller that is linked where its priority says: for
`initial ≤ max_count`, `sem_init(s, initial, max_count)` returns SUCCESS; for
every `j ≤ initial` the first `j` calls of `sem_wait(s, timeout_ms)` all return
SUCCESS without touching the tasks or the queues and leave
`count = initial - j`; the next call, made by the running task `cur` of a running
scheduler, does not return to `cur`: it passes through `schedule()` and leaves
`count = 0`, `cur` at the head of the wait queue, `wait_obj = s`, the state of
`cur` Blocked and another task (or none) current.  The caller is the head of no
ready queue of another priority, and the head of the blocked queue (if any) is
another task with a `prev` link. -/
theorem semaphore_law (k : Kernel) (s cur initial max_count timeout_ms : Nat)
    (hle : initial ≤ max_count)
    (hrun : k.scheduler_running = true)
    (hcur : k.task_current = some cur) (hcur2 : k.current_task = some cur)
    (hprio : (k.tasks cur).priority ≤ MAX_PRIORITY)
    (hblk : ∀ h, k.blocked_queue = some h → h ≠ cur ∧ (k.tasks h).prev ≠ none)
    (hq : ∀ p, p ≤ MAX_PRIORITY → p ≠ (k.tasks cur).priority → k.ready_queue p ≠ some cur) :
    (sem_init (some s) initial max_count k).1 = SUCCESS ∧
    (∀ j, j ≤ initial → ∃ kj,
      sem_wait_times (some s) timeout_ms j (sem_init (some s) initial max_count k).2
        = .ok (List.replicate j (wait_step.returned SUCCESS), kj) ∧
      (kj.sems s).count = initial - j ∧ (kj.sems s).wait_queue = none ∧
      same_scheduling k kj) ∧
    ∃ ki kb,
      sem_wait_times (some s) timeout_ms initial (sem_init (some s) initial max_count k).2
        = .ok (List.replicate initial (wait_step.returned SUCCESS), ki) ∧
      sem_wait_call (some s) timeout_ms ki = .ok (.blocking cur, kb) ∧
      (kb.sems s).count = 0 ∧ (kb.sems s).wait_queue = some cur ∧
      (kb.tasks cur).wait_obj = some s ∧ (kb.tasks cur).state = TASK_BLOCKED ∧
      kb.current_task ≠ some cur := by
  have hinit : sem_init (some s) initial max_count k = (SUCCESS, k.set_sem s
      { count := initial, max_count := max_count, wait_queue := none, valid := true }) := by
    simp [sem_init, Nat.not_lt.mpr hle]
  have hv0 : (((sem_init (some s) initial max_count k).2).sems s).valid = true := by
    simp [hinit, Kernel.set_sem, upd]
  have hc0 : (((sem_init (some s) initial max_count k).2).sems s).count = initial := by
    simp [hinit, Kernel.set_sem, upd]
  have hq0 : (((sem_init (some s) initial max_count k).2).sems s).wait_queue = none := by
    simp [hinit, Kernel.set_sem, upd]
  have hs0 : same_scheduling k (sem_init (some s) initial max_count k).2 := by
    simp [hinit, Kernel.set_sem, same_scheduling]
  have steps : ∀ j, j ≤ initial → ∃ kj,
      sem_wait_times (some s) timeout_ms j (sem_init (some s) initial max_count k).2
        = .ok (List.replicate j (wait_step.returned SUCCESS), kj) ∧
      (kj.sems s).count = initial - j ∧ (kj.sems s).wait_queue = none ∧
      (kj.sems s).valid = true ∧ same_scheduling k kj := by
    intro j hj
    obtain ⟨kj, h1, h2, _, h4, h5, h6⟩ := sem_wait_times_positive s timeout_ms j
      (sem_init (some s) initial max_count k).2 hv0 (by omega)
    refine ⟨kj, h1, by omega, by rw [h4, hq0], h5, ?_⟩
    obtain ⟨a1, a2, a3, a4, a5, a6, a7, a8⟩ := hs0
    obtain ⟨b1, b2, b3, b4, b5, b6, b7, b8⟩ := h6
    exact ⟨b1.trans a1, b2.trans a2, b3.trans a3, b4.trans a4, b5.trans a5, b6.trans a6,
      b7.trans a7, b8.trans a8⟩
  refine ⟨by simp [hinit], ?_, ?_⟩
  · intro j hj
    obtain ⟨kj, h1, h2, h3, _, h5⟩ := steps j hj
    exact ⟨kj, h1, h2, h3, h5⟩
  · obtain ⟨ki, h1, h2, h3, h4, h5⟩ := steps initial (le_refl _)
    obtain ⟨t1, t2, t3, t4, t5, _, _, t8⟩ := h5
    obtain ⟨kb, f1, f2, f3, f4, f5, f6⟩ := sem_wait_call_blocks ki s timeout_ms cur h4
      (by omega) h3 (by rw [t8]; exact hrun) (by rw [t5]; exact hcur) (by rw [t4]; exact hcur2)
      (by rw [t1]; exact hprio) (by rw [t1, t3]; exact hblk) (by rw [t1, t2]; exact hq)
    exact ⟨ki, kb, h1, f1, f2, f3, f4, f5, f6⟩

/-- With task 1 running and linked on the ready queue of its priority, a
semaphore initialised with count 2 of 3 lets two waits through; the third does
not return to task 1: `schedule()` leaves task 1 Blocked and dispatches idle. -/
theorem semaphore_law_example :
    ∃ ki kb,
      sem_wait_times (some 0) 0 2 (sem_init (some 0) 2 3 a_running).2
        = .ok ([.returned SUCCESS, .returned SUCCESS], ki) ∧
      sem_wait_call (some 0) 0 ki = .ok (.blocking 1, kb) ∧
      (kb.sems 0).count = 0 ∧ (kb.sems 0).wait_queue = some 1 ∧
      (kb.tasks 1).wait_obj = some 0 ∧ (kb.tasks 1).state = TASK_BLOCKED ∧
      kb.current_task ≠ some 1 := by
  have hb : a_running.blocked_queue = none := by decide
  exact (semaphore_law a_running 0 1 2 3 0 (by decide) (by decide) (by decide) (by decide)
    (by decide) (by intro h hh; rw [hb] at hh; cases hh) (by decide)).2.2

/-- Preemption is disabled while A runs and X sleeps, not yet due: the tick
returns with only `tick_count` advanced. -/
theorem tick_with_preemption_disabled_example :
    (scheduler_disable_preemption before_short_sleep).preemption_enabled = false
    ∧ (scheduler_disable_preemption before_short_sleep).blocked_queue = some 2
    ∧ scheduler_tick_handler 4 (scheduler_disable_preemption before_short_sleep)
      = .ok (tick_advanced (scheduler_disable_preemption before_short_sleep)) :=
  ⟨by decide, by decide,
    (tick_with_preemption_disabled 4 (scheduler_disable_preemption before_short_sleep)
      (by decide)).2.2.2 2 [] (by decide) (by unfold ring_from; decide)
      (fun a ha => by
        simp only [List.mem_singleton] at ha
        subst ha
        unfold due
        decide)
      (by decide)⟩

/-- C25, evaluated at the failing inputs.  While preemption is disabled a tick
that finds a due task behind the head of the blocked queue does what the claim
says: `tick_count` goes from 0 to 1, A is made Ready, and the current task
(idle), its state and its `time_slice` are unchanged.  But when X at the head of
the blocked queue and A behind it are both due, the tick wakes X only and
returns with A still Blocked and due.  And with L running, B the only sleeper
and due at tick 2, the tick at `tick_count = 1` does not return, whatever the
fuel: having moved B to its ready queue, the wake-up loop walks the ring of B
forever. -/
theorem c25_tick_waking_last_sleeper_never_returns :
    ((run ops_short_sleep (boot prio_timed_wait)).bind fun k =>
        scheduler_tick_handler 4 (scheduler_disable_preemption k)).map
        (fun k => (k.tick_count, (k.tasks 1).state, k.current_task, (k.tasks 0).state,
          (k.tasks 0).time_slice))
      = .ok (1, TASK_READY, some 0, TASK_RUNNING, 10)
    ∧ ((run ops_two_due (boot prio_timed_wait)).bind fun k =>
        scheduler_tick_handler 4 (scheduler_disable_preemption k)).map
        (fun k => (k.tick_count, (k.tasks 2).state, (k.tasks 1).state, (k.tasks 1).wake_time,
          k.blocked_queue))
      = .ok (1, TASK_READY, TASK_BLOCKED, 1, some 1)
    ∧ ((scheduler_disable_preemption before_wake_two).preemption_enabled,
        (scheduler_disable_preemption before_wake_two).current_task,
        (scheduler_disable_preemption before_wake_two).blocked_queue,
        ((scheduler_disable_preemption before_wake_two).tasks 2).wake_time,
        (scheduler_disable_preemption before_wake_two).tick_count) = (false, some 1, some 2, 2, 1)
    ∧ ∀ fuel, scheduler_tick_handler fuel (scheduler_disable_preemption before_wake_two)
        = .fault .out_of_fuel := by
  refine ⟨by decide, by decide, by decide, fun fuel => ?_⟩
  apply tick_handler_fault_of_loop fuel (scheduler_disable_preemption before_wake_two) 2
  · rfl
  · cases fuel with
    | zero => rfl
    | succ n =>
      have step : tick_wake_loop (n + 1) 2
          { scheduler_disable_preemption before_wake_two with
            tick_count := ((scheduler_disable_preemption before_wake_two).tick_count + 1)
              % UINT32_MOD }
          = tick_wake_loop n 2 after_first_pass_disabled := rfl
      rw [step]
      exact wake_loop_spins_on_self_ring 2 after_first_pass_disabled (by decide) (by decide)
        (by decide) n

/-- C23, evaluated at the failing input: A runs, B is Ready on `ready_queue[5]`.
`task_set_priority(B, 7)` returns SUCCESS and sets `B.priority = 7`, but B stays
linked on `ready_queue[5]` (it is its head) and `ready_queue[7]` stays empty.
When C of priority 6 is then added and A yields, C is dispatched although B is
Ready with priority 7. -/
theorem c23_set_priority_leaves_task_on_old_queue :
    (run ops_two_normal (boot prio_with_c)).map
        (fun k => ((task_set_priority (some 2) 7 k).1, (k.tasks 2).state, (k.tasks 2).priority,
          k.ready_queue 5))
      = .ok (SUCCESS, TASK_READY, 5, some 2)
    ∧ (run ops_raise_b (boot prio_with_c)).map
        (fun k => ((k.tasks 2).priority, (k.tasks 2).state, k.ready_queue 5, k.ready_queue 7,
          (k.tasks 1).next))
      = .ok (7, TASK_READY, some 2, none, some 2)
    ∧ (run (ops_raise_b ++ [scheduler_add_task (some 3), task_yield]) (boot prio_with_c)).map
        (fun k => (k.current_task, (k.tasks 3).priority, (k.tasks 2).state,
          (k.tasks 2).priority))
      = .ok (some 3, 6, TASK_READY, 7) := by
  exact ⟨by decide, by decide, by decide⟩

/-- C24, evaluated at the failing input: idle and A are started and A calls
`task_exit()`.  A is marked Terminated, but it is still linked as the head of
`ready_queue[5]`, and the `schedule()` of `task_exit` selects it again: A is the
current task and Running.  With a second task B of the same priority, B runs
first and the next `schedule()` makes the terminated A Running. -/
theorem c24_terminated_task_runs_again :
    a_running.current_task = some 1
    ∧ ((a_running.set_state 1 TASK_TERMINATED).tasks 1).state = TASK_TERMINATED
    ∧ (a_running.set_state 1 TASK_TERMINATED).ready_queue 5 = some 1
    ∧ (task_exit a_running).map (fun k => (k.current_task, (k.tasks 1).state))
      = .ok (some 1, TASK_RUNNING)
    ∧ (task_exit two_normal).map (fun k => (k.current_task, (k.tasks 1).state, (k.tasks 2).next))
      = .ok (some 2, TASK_TERMINATED, some 1)
    ∧ ((task_exit two_normal).bind schedule).map (fun k => (k.current_task, (k.tasks 1).state))
      = .ok (some 1, TASK_RUNNING) := by
  exact ⟨by decide, by decide, by decide, by decide, by decide, by decide⟩

/-- C27, evaluated at the failing inputs.  Idle is alone on `ready_queue[0]` and
A alone on `ready_queue[5]`: `remove_from_queue(&ready_queue[0], A)` empties
`ready_queue[0]` and clears A's links, and `scheduler_remove_task(A)`
dereferences `NULL`.  With A and B on `ready_queue[5]`,
`remove_from_queue(&ready_queue[0], B)` unlinks B from `ready_queue[5]`.  For a
task on no queue, `remove_from_queue(&ready_queue[0], t)` dereferences `NULL`. -/
theorem c27_remove_from_other_queue_is_not_a_no_op :
    (idle_and_a_ready.ready_queue 0, idle_and_a_ready.ready_queue 5,
        (idle_and_a_ready.tasks 1).next, (idle_and_a_ready.tasks 1).prev)
      = (some 0, some 1, some 1, some 1)
    ∧ (remove_from_queue (.ready 0) (some 1) idle_and_a_ready).map
        (fun k => (k.ready_queue 0, k.ready_queue 5, (k.tasks 1).next, (k.tasks 1).prev))
      = .ok (none, some 1, none, none)
    ∧ (scheduler_remove_task (some 1) idle_and_a_ready).map (fun k => k.task_count)
      = .fault .null_pointer
    ∧ (three_ready.ready_queue 0, three_ready.ready_queue 5, (three_ready.tasks 1).next,
        (three_ready.tasks 2).next) = (some 0, some 1, some 2, some 1)
    ∧ (remove_from_queue (.ready 0) (some 2) three_ready).map
        (fun k => (k.ready_queue 0, k.ready_queue 5, (k.tasks 1).next, (k.tasks 2).next))
      = .ok (some 0, some 1, some 1, none)
    ∧ ((idle_and_a_ready.tasks 3).next, (idle_and_a_ready.tasks 3).prev) = (none, none)
    ∧ (remove_from_queue (.ready 0) (some 3) idle_and_a_ready).map (fun k => k.ready_queue 0)
      = .fault .null_pointer := by
  exact ⟨by decide, by decide, by decide, by decide, by decide, by decide, by decide⟩

/-- C28, evaluated at the failing input: X and A sleep and both are due at
tick 1, X at the head of the blocked queue.  The tick handler wakes X, and its
loop stops at once because the saved successor A is the new head: when the
handler returns A is still Blocked on the blocked queue with
`0 < wake_time ≤ tick_count`. -/
theorem c28_due_task_behind_due_head_not_woken :
    (run ops_two_due (boot prio_timed_wait)).map
        (fun k => (k.tick_count, k.blocked_queue, (k.tasks 2).next, (k.tasks 2).wake_time,
          (k.tasks 1).wake_time))
      = .ok (0, some 2, some 1, 1, 1)
    ∧ (run (ops_two_due ++ [scheduler_tick_handler 8]) (boot prio_timed_wait)).map
        (fun k => (k.tick_count, (k.tasks 2).state, (k.tasks 2).wake_time, k.ready_queue 7))
      = .ok (1, TASK_READY, 0, some 2)
    ∧ (run (ops_two_due ++ [scheduler_tick_handler 8]) (boot prio_timed_wait)).map
        (fun k => (k.tick_count, k.blocked_queue, (k.tasks 1).state, (k.tasks 1).wake_time))
      = .ok (1, some 1, TASK_BLOCKED, 1) := by
  exact ⟨by decide, by decide, by decide⟩

/-- C30, evaluated at the failing input: on the fresh heap `kmalloc(2^32 - 1)`
returns a non-null pointer, and the block it returns has payload size 0: `ALIGN`
wraps the request to 0 and the first free block is split at size 0. -/
theorem c30_wrapped_request_gets_empty_block :
    ALIGN (2 ^ 32 - 1) = 0
    ∧ (kmalloc (2 ^ 32 - 1) heap_boot).1 = heap_boot.heap_start + BLOCK_HEADER_SIZE
    ∧ (kmalloc (2 ^ 32 - 1) heap_boot).1 ≠ 0
    ∧ (kmalloc (2 ^ 32 - 1) heap_boot).2.free_list.head?
      = some { addr := heap_boot.heap_start, size := 0, is_free := false }
    ∧ (kmalloc (2 ^ 32 - 7) heap_boot).1 ≠ 0
    ∧ ((kmalloc (2 ^ 32 - 7) heap_boot).2.free_list.head?).map (fun b => b.size) = some 0 := by
  exact ⟨by decide, by decide, by decide, by decide, by decide, by decide⟩

/-! ## Coalescing, task_create out of memory, queue buffer size -/

theorem merge_from_head : ∀ (rest : List mem_block_t) (c : mem_block_t),
    ∃ c2 tl, merge_from c rest = c2 :: tl ∧ c2.is_free = c.is_free := by
  intro rest
  induction rest with
  | nil => intro c; exact ⟨c, [], rfl, rfl⟩
  | cons n rest ih =>
    intro c
    simp only [merge_from]
    split
    · split
      · obtain ⟨c2, tl, h1, h2⟩ := ih
          { c with size := (c.size + BLOCK_HEADER_SIZE + n.size) % UINT32_MOD }
        exact ⟨c2, tl, h1, h2⟩
      · exact ⟨c, _, rfl, rfl⟩
    · exact ⟨c, _, rfl, rfl⟩

/-- On a list that tiles its region the merge pass leaves no free block followed
by a free block. -/
theorem merge_from_no_free_pair : ∀ (rest : List mem_block_t) (c : mem_block_t) (a e : Nat),
    e ≤ UINT32_MOD → tiles a (c :: rest) e → no_free_pair (merge_from c rest) := by
  intro rest
  induction rest with
  | nil =>
    intro c a e _ _
    simp [merge_from, no_free_pair]
  | cons n rest ih =>
    intro c a e he ht
    obtain ⟨hca, hn, hrest⟩ := ht
    simp only [merge_from]
    by_cases hboth : c.is_free = true ∧ n.is_free = true
    · have hadj : c.addr + BLOCK_HEADER_SIZE + c.size = n.addr := by
        rw [hn, hca]
      simp only [hboth, and_self, if_true, hadj]
      have hle := tiles_le _ _ _ hrest
      have hsz : (c.size + BLOCK_HEADER_SIZE + n.size) % UINT32_MOD
          = c.size + BLOCK_HEADER_SIZE + n.size := by
        apply Nat.mod_eq_of_lt
        simp only [BLOCK_HEADER_SIZE] at hle ⊢
        omega
      refine ih _ a e he ⟨hca, ?_⟩
      simp only [hsz]
      have : a + BLOCK_HEADER_SIZE + (c.size + BLOCK_HEADER_SIZE + n.size)
          = a + BLOCK_HEADER_SIZE + c.size + BLOCK_HEADER_SIZE + n.size := by omega
      rw [this]
      exact hrest
    · simp only [hboth, if_false]
      obtain ⟨c2, tl, h1, h2⟩ := merge_from_head rest n
      have ihn := ih n _ e he ⟨hn, hrest⟩
      unfold no_free_pair at *
      rw [h1] at ihn ⊢
      refine List.Chain'.cons ?_ ihn
      rw [h2]
      exact hboth

theorem merge_free_blocks_no_free_pair (l : List mem_block_t) (a e : Nat)
    (he : e ≤ UINT32_MOD) (ht : tiles a l e) : no_free_pair (merge_free_blocks l) := by
  cases l with
  | nil => simp [merge_free_blocks, no_free_pair]
  | cons c rest => exact merge_from_no_free_pair rest c a e he ht

/-- Taking the free block at position `i` (splitting it when it is large enough
and marking it in use) keeps the list without a free block followed by a free
block. -/
theorem take_block_no_free_pair (r : Nat) : ∀ (i : Nat) (l : List mem_block_t),
    no_free_pair l → (∀ b, l[i]? = some b → b.is_free = true) →
    no_free_pair (set_is_free i false (split_block i r l))
    ∧ ∀ x, (set_is_free i false (split_block i r l)).head? = some x → x.is_free = true →
        ∃ y, l.head? = some y ∧ y.is_free = true := by
  intro i
  induction i with
  | zero =>
    intro l hl hfree
    cases l with
    | nil =>
      simp [set_is_free, split_block, at_position, split_block_head, set_is_free_head,
        no_free_pair]
    | cons b rest =>
      have hb : b.is_free = true := hfree b (by simp)
      have hrest : no_free_pair rest := List.Chain'.tail hl
      have hsucc : ∀ y, rest.head? = some y → ¬ y.is_free = true := by
        intro y hy hyf
        unfold no_free_pair at hl
        rw [List.chain'_cons'] at hl
        exact hl.1 y hy ⟨hb, hyf⟩
      simp only [set_is_free, split_block, at_position, split_block_head]
      split
      · simp only [set_is_free_head]
        refine ⟨?_, fun x hx hxf => ?_⟩
        · unfold no_free_pair
          rw [List.chain'_cons', List.chain'_cons']
          refine ⟨fun y _ => by simp, fun y hy => ?_, hrest⟩
          intro hh
          exact hsucc y hy hh.2
        · simp only [List.head?_cons, Option.some.injEq] at hx
          subst hx
          simp at hxf
      · simp only [set_is_free_head]
        refine ⟨?_, fun x hx hxf => ?_⟩
        · unfold no_free_pair
          rw [List.chain'_cons']
          exact ⟨fun y _ => by simp, hrest⟩
        · simp only [List.head?_cons, Option.some.injEq] at hx
          subst hx
          simp at hxf
  | succ i ih =>
    intro l hl hfree
    cases l with
    | nil =>
      simp [set_is_free, split_block, at_position, no_free_pair]
    | cons b rest =>
      have hrest : no_free_pair rest := List.Chain'.tail hl
      obtain ⟨h1, h2⟩ := ih rest hrest (fun c hc => hfree c (by simpa using hc))
      simp only [set_is_free, split_block, at_position] at h1 h2 ⊢
      refine ⟨?_, fun x hx hxf => ⟨b, rfl, by
        simp only [List.head?_cons, Option.some.injEq] at hx
        subst hx
        exact hxf⟩⟩
      unfold no_free_pair at hl h1 ⊢
      rw [List.chain'_cons'] at hl ⊢
      refine ⟨fun y hy hh => ?_, h1⟩
      obtain ⟨z, hz, hzf⟩ := h2 y hy hh.2
      exact hl.1 z hz ⟨hh.1, hzf⟩

theorem kmalloc_no_free_pair (n : Nat) (h : Heap) (hp : no_free_pair h.free_list) :
    no_free_pair (kmalloc n h).2.free_list := by
  by_cases hq : (kmalloc n h).1 = 0
  · rw [kmalloc_null_state n h hq]
    exact hp
  · obtain ⟨j, c, hj, hc, _, hl⟩ := kmalloc_nonnull n h hq
    rw [hl]
    refine (take_block_no_free_pair (ALIGN n) j h.free_list hp fun b hb => ?_).1
    rw [hj] at hb
    cases hb
    exact hc

theorem kfree_no_free_pair (p : Nat) (h h2 : Heap) (hk : kfree p h = .ok h2)
    (ht : heap_tiled h) (hp : no_free_pair h.free_list) : no_free_pair h2.free_list := by
  obtain ⟨_, _, hsp, _, htl⟩ := ht
  simp only [kfree] at hk
  split at hk
  · cases hk; exact hp
  · split at hk
    · cases hk
    · split at hk
      · cases hk
      · split at hk
        · cases hk
        · cases hk
          exact merge_free_blocks_no_free_pair _ _ _ hsp (tiles_set_is_free _ _ _ _ _ htl)

theorem krealloc_no_free_pair (p n q : Nat) (h h2 : Heap) (hk : krealloc p n h = .ok (q, h2))
    (ht : heap_tiled h) (hp : no_free_pair h.free_list) : no_free_pair h2.free_list := by
  simp only [krealloc] at hk
  split at hk
  · simp only [Outcome.ok.injEq] at hk
    have : h2 = (kmalloc n h).2 := by rw [hk]
    rw [this]
    exact kmalloc_no_free_pair n h hp
  · split at hk
    · obtain ⟨h3, hf, he⟩ := outcome_map_ok _ _ _ hk
      simp only [Prod.mk.injEq] at he
      rw [← he.2]
      exact kfree_no_free_pair p h h3 hf ht hp
    · split at hk
      · cases hk
      · split at hk
        · cases hk
        · split at hk
          · cases hk
          · split at hk
            · cases hk
              exact hp
            · have hp1 := kmalloc_no_free_pair n h hp
              have ht1 := kmalloc_tiled n h ht
              split at hk
              · simp only [Outcome.ok.injEq, Prod.mk.injEq] at hk
                rw [← hk.2]
                exact hp1
              · repeat' split at hk
                all_goals first
                  | cases hk
                  | (obtain ⟨h3, hf, he⟩ := outcome_map_ok _ _ _ hk
                     simp only [Prod.mk.injEq] at he
                     rw [← he.2]
                     exact kfree_no_free_pair p _ h3 hf ht1 hp1)

/-- Every reachable allocator state has no free block followed by a free
block. -/
theorem heap_reachable_no_free_pair (base size : Nat) (h : Heap) (hb0 : 0 < base)
    (hb8 : base % 8 = 0) (hs : BLOCK_HEADER_SIZE ≤ size) (hsp : base + size ≤ UINT32_MOD)
    (hr : heap_reachable base size h) : no_free_pair h.free_list := by
  induction hr with
  | init h0 h1 hi =>
    simp only [mem_init] at hi
    split at hi
    · cases hi
    · cases hi
      simp [no_free_pair]
  | malloc h1 n _ ih => exact kmalloc_no_free_pair n h1 ih
  | free h1 h2 p hr1 hk ih =>
    exact kfree_no_free_pair p h1 h2 hk
      (heap_reachable_tiled base size h1 hb0 hb8 hs hsp hr1).1 ih
  | realloc h1 h2 p n q hr1 hk ih =>
    exact krealloc_no_free_pair p n q h1 h2 hk
      (heap_reachable_tiled base size h1 hb0 hb8 hs hsp hr1).1 ih

/-- Full coalescing as long as no `krealloc` copies past its new block.  In every
state reached from `mem_init(base, size)` by `kmalloc`, `kfree` and `krealloc`
calls that return without a fault (for an 8-byte aligned non-null `base`, `size`
at least the header size and the region inside the 32-bit address space), no
free block is immediately followed in the block list by another free block;
and when every block of the list is free, the list is the single free block at
`base` of size `size - BLOCK_HEADER_SIZE`. -/
theorem heap_reachable_coalesced (base size : Nat) (h : Heap) (hb0 : 0 < base)
    (hb8 : base % 8 = 0) (hs : BLOCK_HEADER_SIZE ≤ size) (hsp : base + size ≤ UINT32_MOD)
    (hr : heap_reachable base size h) :
    h.free_list.Chain' (fun x y => ¬ (x.is_free = true ∧ y.is_free = true))
    ∧ ((∀ b ∈ h.free_list, b.is_free = true) →
        h.free_list = [{ addr := base, size := size - BLOCK_HEADER_SIZE, is_free := true }]) := by
  have hp := heap_reachable_no_free_pair base size h hb0 hb8 hs hsp hr
  obtain ⟨⟨_, _, _, hne, ht⟩, h1, h2⟩ := heap_reachable_tiled base size h hb0 hb8 hs hsp hr
  refine ⟨hp, fun hall => ?_⟩
  rw [h1, h2] at ht
  cases hl : h.free_list with
  | nil => exact absurd hl hne
  | cons b rest =>
    rw [hl] at ht hp hall
    cases rest with
    | nil =>
      obtain ⟨ha, he⟩ := ht
      simp only [tiles] at he
      have hf := hall b (by simp)
      have hsz : b.size = size - BLOCK_HEADER_SIZE := by omega
      cases b
      simp only at ha hf hsz
      simp [ha, hf, hsz]
    | cons b2 rest2 =>
      unfold no_free_pair at hp
      rw [List.chain'_cons'] at hp
      exact absurd ⟨hall b (by simp), hall b2 (by simp)⟩ (hp.1 b2 rfl)

/-- After `p1 = alloc(100)`, `p2 = alloc(200)`, `free(p1)`, `free(p2)` every
block is free and the heap of `kmain` is the single free block
of `HEAP_SIZE - 12` bytes: `free(p2)` merged the block of `p2` with its free
predecessor and with its free successor. -/
theorem heap_reachable_coalesced_example :
    heap_after_free_p1.free_list.map (fun b => (b.size, b.is_free))
      = [(104, true), (200, false), (1048236, true)]
    ∧ (∀ b ∈ heap_all_freed.free_list, b.is_free = true)
    ∧ heap_all_freed.free_list
      = [{ addr := 1048576, size := HEAP_SIZE - BLOCK_HEADER_SIZE, is_free := true }] := by
  have hr : heap_reachable 1048576 HEAP_SIZE heap_all_freed :=
    heap_reachable.free heap_after_free_p1 _ (kmalloc 200 (kmalloc 100 heap_boot).2).1
      (heap_reachable.free (kmalloc 200 (kmalloc 100 heap_boot).2).2 _ (kmalloc 100 heap_boot).1
        (heap_reachable.malloc _ 200 (heap_reachable.malloc _ 100
          (heap_reachable.init (heap_unset fun _ => 0) heap_boot rfl))) rfl) rfl
  exact ⟨by decide, by decide,
    (heap_reachable_coalesced 1048576 HEAP_SIZE heap_all_freed (by decide) (by decide)
      (by decide) (by decide) hr).2 (by decide)⟩

/-- C31, evaluated at the failing input: freeing `p1` and `p2` gives back the
single free block of `HEAP_SIZE - 12` bytes.  But in `krealloc(p1, 0xFFFFFFFF)`
the pointer that `kmalloc` returns is the address of the header of the free
remainder (the block at position 3), and the first 12 of the 104 bytes copied
to it, all of them 0, land on that header. -/
theorem c31_realloc_overwrites_free_header :
    heap_all_freed.free_list = [⟨1048576, HEAP_SIZE - 12, true⟩]
    ∧ (kmalloc 4294967295 heap_two_live).2.free_list[3]?
      = some ⟨(kmalloc 4294967295 heap_two_live).1, 1048224, true⟩
    ∧ (kmalloc 4294967295 heap_two_live).2.free_list[2]? = some ⟨1048904, 0, false⟩
    ∧ (∀ i, i < 12 → heap_two_live.bytes (1048588 + i) = 0)
    ∧ (krealloc 1048588 4294967295 heap_two_live).map (fun r => r.1)
      = .fault .out_of_bounds := by
  exact ⟨by decide, by decide, by decide, by decide, by decide⟩

/-- C32, evaluated at the failing input: the heap holds a free block of 144
bytes and one live allocation of 8 bytes, so `mem_get_used()` is 8.
`task_create` with a stack of 2 MiB takes the 144-byte block whole for the
136-byte TCB, fails to allocate the stack, frees the TCB and returns ERROR: the
block list and `next_task_id` are as before, but `mem_get_used()` is 0.  The
same holds for `kmalloc(136)` followed at once by `kfree` of its result. -/
theorem c32_failed_task_create_changes_used_bytes :
    heap_with_slack.free_list.map (fun b => (b.size, b.is_free))
      = [(144, true), (8, false), (1048388, true)]
    ∧ mem_get_used heap_with_slack = 8
    ∧ (kmalloc TASK_T_SIZE heap_with_slack).1 ≠ 0
    ∧ (kmalloc 0x200000 (kmalloc TASK_T_SIZE heap_with_slack).2).1 = 0
    ∧ (task_create (some 1) (some [97]) (some 4096) 0 5 0x200000 8192 world_with_slack).map
        (fun r => (r.1, r.2.next_task_id, r.2.sys.heap.free_list, mem_get_used r.2.sys.heap))
      = .ok (ERROR, 1, heap_with_slack.free_list, 0)
    ∧ (kfree (kmalloc 136 heap_with_slack).1 (kmalloc 136 heap_with_slack).2).map
        (fun h => (h.free_list, mem_get_used h))
      = .ok (heap_with_slack.free_list, 0) := by
  exact ⟨by decide, by decide, by decide, by decide, by decide, by decide⟩

/-- The third send on the queue of capacity `2^30 + 1` is the first slot access
outside the 8-byte block of its buffer. -/
theorem wrapped_queue_third_send_overruns :
    payload_size (wrapped_queue.queues first_queue).buffer wrapped_queue.heap.free_list = 8
    ∧ (queue_run first_queue 0 [.send 11, .send 12] wrapped_queue).map
        (fun r => r.2.overrun) = some false
    ∧ (queue_run first_queue 0 [.send 11, .send 12, .send 13] wrapped_queue).map
        (fun r => r.2.overrun) = some true := by
  exact ⟨by decide, by decide, by decide⟩

/-- C33, evaluated at the failing input: `queue_create(&q, 2^30 + 1)` returns
SUCCESS with `capacity = 2^30 + 1`, but `sizeof(void *) * capacity` wrapped to 4
and the buffer is a block of 8 bytes, room for two handles.  The third
`queue_send` returns SUCCESS and stores its handle at `buffer + 8`, the address
of the header of the next heap block. -/
theorem c33_wrapped_capacity_gets_small_buffer :
    (queue_create (some 1) wrapping_capacity queue_boot).map (fun r => (r.1, r.2.1))
      = .ok (SUCCESS, first_queue)
    ∧ (POINTER_SIZE * wrapping_capacity) % UINT32_MOD = 4
    ∧ ((wrapped_queue.queues first_queue).valid, (wrapped_queue.queues first_queue).capacity,
        (wrapped_queue.queues first_queue).buffer) = (true, wrapping_capacity, 1048672)
    ∧ wrapped_queue.heap.free_list
      = [{ addr := 1048576, size := 72, is_free := false },
         { addr := 1048660, size := 8, is_free := false },
         { addr := 1048680, size := 1048460, is_free := true }]
    ∧ (queue_run first_queue 0 [.send 11, .send 12, .send 13] wrapped_queue).map
        (fun r => ((r.2.queues first_queue).tail, (r.2.queues first_queue).count,
          r.2.words (1048672 + 8)))
      = some (3, 3, 13) := by
  exact ⟨by decide, by decide, by decide, by decide, by decide⟩

end TosinRtos
